import Mathlib

/-!
Verification of `mceditlib/block_copy.py` (bulk spatial copy engine).

The file embeds `copyBlocksIter` and `sourceMaskFunc` shallowly: numpy arrays
become total functions over `Int` coordinates, the generator becomes a function
returning a final state together with an ordered event trace (checkpoints,
destination writes, relight calls, biome writes, entity insertions), and each
numpy slice assignment becomes a pointwise-characterized update.

Collaborators that live outside `block_copy.py` (the `BoundingBox` /
`SectionBox` geometry of `mceditlib.selection`, the chunk and dimension
interfaces, the block-type registry and converter factory, and the relighting
collaborator) are modelled from the spec at their interface; each such
definition carries a doc comment saying so.
-/

/-! ## Integer ranges (half-open), association lists -/

/-- Auxiliary recursion for `intRangeHalf`: the list `lo, lo+1, ..., lo+n-1`. -/
def intRangeAux (lo : Int) : Nat → List Int
  | 0 => []
  | n + 1 => lo :: intRangeAux (lo + 1) n

/-- Embedding of a Python `range(lo, hi)` over integers: `[lo, hi)`. -/
def intRangeHalf (lo hi : Int) : List Int := intRangeAux lo (hi - lo).toNat

/-- Lookup of the first entry with the given key in an association list. -/
def alookup {α β : Type} [DecidableEq α] : List (α × β) → α → Option β
  | [], _ => none
  | (k, v) :: r, a => if a = k then some v else alookup r a

/-- Update of the first entry with the given key (no-op when absent). -/
def aupdate {α β : Type} [DecidableEq α] (l : List (α × β)) (a : α) (f : β → β) :
    List (α × β) :=
  match l with
  | [] => []
  | (k, v) :: r => if a = k then (k, f v) :: r else (k, v) :: aupdate r a f

/-! ## Geometry: bounding boxes and section boxes

Modelled from the spec (the selection module is not part of the copied source):
"BoundingBox: arbitrary-origin axis-aligned integer volume; supports
intersection, per-axis size, chunk/section decomposition iterators, and point
containment", "SectionBox: a BoundingBox constrained to exactly one storage
section". -/

/-- Modelled from the spec: an arbitrary-origin axis-aligned integer volume,
stored as origin `(ox, oy, oz)` and per-axis size `(sx, sy, sz)`. -/
structure Box where
  ox : Int
  oy : Int
  oz : Int
  sx : Int
  sy : Int
  sz : Int
deriving DecidableEq

/-- Volume of a box, as in `BoundingBox.volume`. -/
def Box.volume (b : Box) : Int := b.sx * b.sy * b.sz

/-- Point containment test of a box (true-shape test for plain boxes). -/
def Box.containsPt (b : Box) (x y z : Int) : Bool :=
  decide (b.ox ≤ x ∧ x < b.ox + b.sx ∧ b.oy ≤ y ∧ y < b.oy + b.sy ∧
          b.oz ≤ z ∧ z < b.oz + b.sz)

/-- Modelled from the spec: box intersection; a disjoint pair yields a
zero-volume box (sizes are clamped at zero). -/
def Box.intersect (a b : Box) : Box :=
  { ox := max a.ox b.ox
    oy := max a.oy b.oy
    oz := max a.oz b.oz
    sx := max 0 (min (a.ox + a.sx) (b.ox + b.sx) - max a.ox b.ox)
    sy := max 0 (min (a.oy + a.sy) (b.oy + b.sy) - max a.oy b.oy)
    sz := max 0 (min (a.oz + a.sz) (b.oz + b.sz) - max a.oz b.oz) }

/-- Modelled from the spec: the chunk-grid decomposition iterator of a box;
`x >> 4` of the Python source is floor division by 16. The pairs are
`(cx, cz)` chunk coordinates whose 16 by 16 footprint meets the box. -/
def Box.chunkPositions (b : Box) : List (Int × Int) :=
  (intRangeHalf (b.ox / 16) ((b.ox + b.sx - 1) / 16 + 1)).flatMap fun cx =>
    (intRangeHalf (b.oz / 16) ((b.oz + b.sz - 1) / 16 + 1)).map fun cz => (cx, cz)

/-- Modelled from the spec: the vertical section decomposition iterator of a
box (the Python call receives a chunk position argument which the result does
not depend on). -/
def Box.sectionPositions (b : Box) : List Int :=
  intRangeHalf (b.oy / 16) ((b.oy + b.sy - 1) / 16 + 1)

/-- Modelled from the spec: the box of the single 16 by 16 by 16 storage
section at chunk coordinates `(cx, cz)` and section height `cy`. -/
def SectionBox (cx cy cz : Int) : Box :=
  { ox := cx * 16, oy := cy * 16, oz := cz * 16, sx := 16, sy := 16, sz := 16 }

/-! ## World data model

Modelled from the spec at the interface consumed by `copyBlocksIter`:
dimensions own chunks, chunks own sections / entity lists / tile-entity lists /
an optional biome array, sections own a block array and a data array of
identical shape. Arrays are total functions; block and data arrays take
section-local `(y, z, x)` coordinates, matching the numpy axis order of the
source (`Blocks[y, z, x]`), and biome arrays take `(z, x)`. -/

/-- Modelled from the spec: a point entity or tile entity, reduced to the
`Position` consumed by the copy loop (integer coordinates). -/
structure Ent where
  x : Int
  y : Int
  z : Int
deriving DecidableEq

/-- Modelled from the spec: one 16 by 16 by 16 section with a block-type array
and an auxiliary-data array, both indexed `(y, z, x)` section-locally. -/
structure Sect where
  Blocks : Int → Int → Int → Nat
  Data : Int → Int → Int → Nat

/-- Section whose arrays are all zero (air); the value a freshly created
section holds. -/
def emptySect : Sect := { Blocks := fun _ _ _ => 0, Data := fun _ _ _ => 0 }

/-- Modelled from the spec: a chunk with vertically stacked sections (an
association list keyed by section height `cy`), entity and tile-entity lists,
an optional 16 by 16 biome array indexed `(z, x)`, and a dirty flag. -/
structure ChunkData where
  sections : List (Int × Sect)
  Entities : List Ent
  TileEntities : List Ent
  Biomes : Option (Int → Int → Nat)
  dirty : Bool

/-- Chunk with no sections, no entities and no biome array. -/
def emptyChunk : ChunkData :=
  { sections := [], Entities := [], TileEntities := [], Biomes := none, dirty := false }

/-- Section fetch without creation (`Chunk.getSection(cy)`). -/
def ChunkData.getSection (ch : ChunkData) (cy : Int) : Option Sect :=
  alookup ch.sections cy

/-- Section fetch defaulting to the empty section. -/
def ChunkData.getSectionD (ch : ChunkData) (cy : Int) : Sect :=
  (ch.getSection cy).getD emptySect

/-- Modelled from the spec: `Chunk.sectionPositions()`, the heights of the
sections the chunk currently owns. -/
def ChunkData.sectionPositions (ch : ChunkData) : List Int :=
  ch.sections.map (fun p => p.1)

/-- Modelled from the spec: section fetch with creation enabled; a missing
section is materialized empty. (The source also tolerates a `None` result at
out-of-range heights; no height bound is specified, so creation always
succeeds here.) -/
def ChunkData.ensureSection (ch : ChunkData) (cy : Int) : ChunkData :=
  if (alookup ch.sections cy).isSome then ch
  else { ch with sections := (cy, emptySect) :: ch.sections }

/-- In-place mutation of one owned section. -/
def ChunkData.updateSection (ch : ChunkData) (cy : Int) (f : Sect → Sect) : ChunkData :=
  { ch with sections := aupdate ch.sections cy f }

/-- Biome array defaulting to all-zero when the chunk has none. -/
def ChunkData.BiomesD (ch : ChunkData) : Int → Int → Nat :=
  ch.Biomes.getD (fun _ _ => 0)

/-- Modelled from the spec: a dimension owning chunks (an association list
keyed by `(cx, cz)`), plus the destination-side insertion interfaces consumed
by the copy loop: a world-indexed biome column write target `(x, z)`, an
entity insertion sink and a tile-entity insertion sink. -/
structure DimState where
  chunks : List ((Int × Int) × ChunkData)
  biomes : Int → Int → Nat
  entities : List Ent
  tileEntities : List Ent

/-- Chunk existence test (`Dimension.containsChunk`). -/
def DimState.containsChunk (d : DimState) (c : Int × Int) : Bool :=
  (alookup d.chunks c).isSome

/-- Chunk fetch defaulting to the empty chunk. -/
def DimState.getChunkD (d : DimState) (c : Int × Int) : ChunkData :=
  (alookup d.chunks c).getD emptyChunk

/-- Modelled from the spec: chunk fetch with creation enabled
(`getChunk(cx, cz, create=True)`); a missing chunk is materialized empty. -/
def DimState.ensureChunk (d : DimState) (c : Int × Int) : DimState :=
  if (alookup d.chunks c).isSome then d
  else { d with chunks := (c, emptyChunk) :: d.chunks }

/-- In-place mutation of one owned chunk (no-op when the chunk is absent). -/
def DimState.updateChunk (d : DimState) (c : Int × Int) (f : ChunkData → ChunkData) :
    DimState :=
  { d with chunks := aupdate d.chunks c f }

/-- Modelled from the spec: the bulk biome column write
(`setBlocks(wbx, 1, wbz, Biomes=...)`) over parallel coordinate lists. -/
def DimState.setBiomes : DimState → List Int → List Int → List Nat → DimState
  | d, x :: xs, z :: zs, v :: vs =>
      DimState.setBiomes
        { d with biomes := fun X Z => if X = x ∧ Z = z then v else d.biomes X Z }
        xs zs vs
  | d, _, _, _ => d

/-- Modelled from the spec: point-entity insertion into the destination. -/
def DimState.addEntity (d : DimState) (e : Ent) : DimState :=
  { d with entities := d.entities ++ [e] }

/-- Modelled from the spec: tile-entity insertion into the destination. -/
def DimState.addTileEntity (d : DimState) (e : Ent) : DimState :=
  { d with tileEntities := d.tileEntities ++ [e] }

/-- World read of a block value: chunk by floor division, section by floor
division of `y`, locals by mod 16; missing levels read as 0 (air). -/
def DimState.blockAt (d : DimState) (x y z : Int) : Nat :=
  ((d.getChunkD (x / 16, z / 16)).getSectionD (y / 16)).Blocks (y % 16) (z % 16) (x % 16)

/-- World read of an auxiliary-data value, analogous to `DimState.blockAt`. -/
def DimState.dataAt (d : DimState) (x y z : Int) : Nat :=
  ((d.getChunkD (x / 16, z / 16)).getSectionD (y / 16)).Data (y % 16) (z % 16) (x % 16)

/-- Whether the section at chunk `c`, height `cy` exists in the dimension. -/
def DimState.sectionSome (d : DimState) (c : Int × Int) (cy : Int) : Bool :=
  ((d.getChunkD c).getSection cy).isSome

/-! ## Selections and masks -/

/-- Modelled from the spec: a caller-supplied selection: a bounding box, a
point containment test that is the true shape test (not a box test), and the
invariant that the true shape lies inside the bounding box. -/
structure Selection where
  box : Box
  contains : Int → Int → Int → Bool
  contains_sub : ∀ x y z, contains x y z = true → box.containsPt x y z = true

/-- Modelled from the spec: `selection.section_mask(cx, cy, cz)` — a nullable
per-section boolean mask in `(y, z, x)` order; sections that do not meet the
selection's bounding box yield `none`. -/
def Selection.section_mask (sel : Selection) (cx cy cz : Int) :
    Option (Int → Int → Int → Bool) :=
  if ((SectionBox cx cy cz).intersect sel.box).volume = 0 then none
  else some fun y z x => sel.contains (cx * 16 + x) (cy * 16 + y) (cz * 16 + z)

/-- Normalization of a (possibly negative) numpy index into
`typemask[0:id_limit]`. -/
def normIndex (idLimit : Nat) (i : Int) : Int := if i < 0 then i + idLimit else i

/-- One step of building `typemask`: assign `typemask[i] = 1` for one
allow-list entry; an index outside `[-id_limit, id_limit)` raises
`IndexError`, modelled as `none` (which then absorbs the rest of the build). -/
def maskStep (idLimit : Nat) (acc : Option (Nat → Bool)) (i : Int) : Option (Nat → Bool) :=
  acc.bind fun m =>
    if -(idLimit : Int) ≤ i ∧ i < (idLimit : Int) then
      some fun b => if (b : Int) = normIndex idLimit i then true else m b
    else none

/-- Embedding of `sourceMaskFunc`. Building `typemask` starts from the
all-false array `numpy.zeros(id_limit)` and assigns `typemask[blocksToCopy]
= 1` index by index via `maskStep`. On success the result is the
per-block-value mask the returned closure applies to a source block array
(`typemask[sourceBlocks]`); with no allow-list the closure is the
constant-true broadcast mask. -/
def sourceMaskFunc (idLimit : Nat) (blocksToCopy : Option (List Int)) :
    Option (Nat → Bool) :=
  match blocksToCopy with
  | some ids => ids.foldl (maskStep idLimit) (some fun _ => false)
  | none => some fun _ => true

/-- Total per-block-value mask used inside the copy loop; it agrees with the
mask `sourceMaskFunc` builds whenever that construction succeeds (allow-list
ids in range), which the copy-loop theorems assume. -/
def makeSourceMaskTotal (idLimit : Nat) (blocksToCopy : Option (List Int)) (b : Nat) :
    Bool :=
  match blocksToCopy with
  | none => true
  | some ids => ids.any fun i => normIndex idLimit i = (b : Int)

/-! ## Copy operation: configuration, events, state -/

/-- Lighting-update mode: `off` (falsy `updateLights`), `perWrite` (truthy,
not `"all"`), `all` (the string `"all"`). -/
inductive LightMode where
  | off
  | perWrite
  | all
deriving DecidableEq

/-- Arguments of `copyBlocksIter` apart from the two dimensions, together with
the registry data consumed through `destDim.blocktypes` and the converter
produced by `blocktypeConverter(destDim.blocktypes, sourceDim.blocktypes)`
(modelled from the spec as an opaque-to-the-loop pure function applied
elementwise). -/
structure CopyCfg where
  sel : Selection
  dpx : Int
  dpy : Int
  dpz : Int
  blocksToCopy : Option (List Int)
  idLimit : Nat
  entities : Bool
  create : Bool
  biomes : Bool
  updateLights : LightMode
  convert : Nat → Nat → Nat × Nat
  brightness : Nat → Nat
  opacity : Nat → Nat

/-- The constant translation vector `copyOffset = destBox.origin -
sourceSelection.origin` (x component). -/
def offX (cfg : CopyCfg) : Int := cfg.dpx - cfg.sel.box.ox

/-- Y component of the constant translation vector. -/
def offY (cfg : CopyCfg) : Int := cfg.dpy - cfg.sel.box.oy

/-- Z component of the constant translation vector. -/
def offZ (cfg : CopyCfg) : Int := cfg.dpz - cfg.sel.box.oz

/-- Observable events of a run, in program order: a yielded `(i, chunkCount)`
progress checkpoint, a masked section write into a destination cell, a call to
the relighting collaborator with parallel coordinate arrays, a bulk biome
column write, and entity / tile-entity insertions. -/
inductive Event where
  | checkpoint (i total : Nat)
  | write (c : Int × Int) (cy : Int)
  | relight (xs ys zs : List Int)
  | biomeWrite (wbx wbz : List Int) (vals : List Nat)
  | addEntity (e : Ent)
  | addTileEntity (e : Ent)
deriving DecidableEq

/-- Whether an event is a relight call. -/
def Event.isRelight : Event → Bool
  | .relight _ _ _ => true
  | _ => false

/-- Whether an event is a progress checkpoint. -/
def Event.isCheckpoint : Event → Bool
  | .checkpoint _ _ => true
  | _ => false

/-- Whether an event is a destination mutation (section write, biome write or
entity insertion). -/
def Event.isDestWrite : Event → Bool
  | .write _ _ => true
  | .biomeWrite _ _ _ => true
  | .addEntity _ => true
  | .addTileEntity _ => true
  | _ => false

/-- Mutable state threaded through the loop: the two dimensions and the
batched-mode accumulators `allChangedX/Y/Z` (lists of per-write coordinate
batches). -/
structure OpState where
  src : DimState
  dst : DimState
  accX : List (List Int)
  accY : List (List Int)
  accZ : List (List Int)

/-! ## Slice computation (lines 126-145 of the source) -/

/-- Per-axis half-open local index ranges of a slice triple, in the array's
`(y, z, x)` axis order. -/
structure Slices where
  ylo : Int
  yhi : Int
  zlo : Int
  zhi : Int
  xlo : Int
  xhi : Int
deriving DecidableEq

/-- Embedding of `destSlices`: the intersection converted to locals of the
destination cell `(dcx, dcy, dcz)` by subtracting the cell base coordinates. -/
def destSlices (it : Box) (dcx dcy dcz : Int) : Slices :=
  { ylo := it.oy - dcy * 16, yhi := it.oy + it.sy - dcy * 16
    zlo := it.oz - dcz * 16, zhi := it.oz + it.sz - dcz * 16
    xlo := it.ox - dcx * 16, xhi := it.ox + it.sx - dcx * 16 }

/-- Embedding of `sourceIntersect = BoundingBox(intersect.origin - copyOffset,
intersect.size)`: the intersection mapped back by the inverse translation. -/
def sourceIntersectBox (it : Box) (ofx ofy ofz : Int) : Box :=
  { ox := it.ox - ofx, oy := it.oy - ofy, oz := it.oz - ofz
    sx := it.sx, sy := it.sy, sz := it.sz }

/-- Embedding of `sourceSlices`: locals of the source section
`(scx, scy, scz)` for the mapped-back intersection. -/
def sourceSlices (it : Box) (ofx ofy ofz scx scy scz : Int) : Slices :=
  destSlices (sourceIntersectBox it ofx ofy ofz) scx scy scz

/-- Membership of a destination-section-local `(y, z, x)` in the destination
slice ranges together with the mask value at the corresponding source-local
position: the write condition of the masked slice assignment. -/
def writeCond (ds ss : Slices) (sourceMask : Int → Int → Int → Bool)
    (y z x : Int) : Bool :=
  decide (ds.ylo ≤ y ∧ y < ds.yhi ∧ ds.zlo ≤ z ∧ z < ds.zhi ∧
          ds.xlo ≤ x ∧ x < ds.xhi) &&
  sourceMask (ss.ylo + (y - ds.ylo)) (ss.zlo + (z - ds.zlo)) (ss.xlo + (x - ds.xlo))

/-- Embedding of the masked partial write (lines 164-165): destination voxels
selected by the mask receive the converted source block and data; all other
voxels of the section keep their previous values. -/
def writeMasked (sec srcSec : Sect) (ds ss : Slices)
    (sourceMask : Int → Int → Int → Bool) (convert : Nat → Nat → Nat × Nat) : Sect :=
  { Blocks := fun y z x =>
      if writeCond ds ss sourceMask y z x then
        (convert (srcSec.Blocks (ss.ylo + (y - ds.ylo)) (ss.zlo + (z - ds.zlo)) (ss.xlo + (x - ds.xlo)))
                 (srcSec.Data (ss.ylo + (y - ds.ylo)) (ss.zlo + (z - ds.zlo)) (ss.xlo + (x - ds.xlo)))).1
      else sec.Blocks y z x
    Data := fun y z x =>
      if writeCond ds ss sourceMask y z x then
        (convert (srcSec.Blocks (ss.ylo + (y - ds.ylo)) (ss.zlo + (z - ds.zlo)) (ss.xlo + (x - ds.xlo)))
                 (srcSec.Data (ss.ylo + (y - ds.ylo)) (ss.zlo + (z - ds.zlo)) (ss.xlo + (x - ds.xlo)))).2
      else sec.Data y z x }

/-- Embedding of `sourceMaskPart.nonzero()`: the intersection-local positions
`(a, b, c)` (array axis order `(y, z, x)`) with a true mask bit, in C order. -/
def maskedLocalsList (it : Box) (ss : Slices)
    (sourceMask : Int → Int → Int → Bool) : List (Int × Int × Int) :=
  (intRangeHalf 0 it.sy).flatMap fun a =>
    (intRangeHalf 0 it.sz).flatMap fun b =>
      (intRangeHalf 0 it.sx).filterMap fun c =>
        if sourceMask (ss.ylo + a) (ss.zlo + b) (ss.xlo + c) then some (a, b, c) else none

/-- Embedding of `changedLight.nonzero()` (lines 157-161, 169): the masked
positions whose previous destination brightness or opacity differs from that
of the converted new block. -/
def changedList (cfg : CopyCfg) (oldSec srcSec : Sect) (it : Box) (ds ss : Slices)
    (sourceMask : Int → Int → Int → Bool) : List (Int × Int × Int) :=
  (maskedLocalsList it ss sourceMask).filter fun t =>
    let ob := oldSec.Blocks (ds.ylo + t.1) (ds.zlo + t.2.1) (ds.xlo + t.2.2)
    let nb := (cfg.convert (srcSec.Blocks (ss.ylo + t.1) (ss.zlo + t.2.1) (ss.xlo + t.2.2))
                           (srcSec.Data (ss.ylo + t.1) (ss.zlo + t.2.1) (ss.xlo + t.2.2))).1
    decide (cfg.brightness ob ≠ cfg.brightness nb ∨ cfg.opacity ob ≠ cfg.opacity nb)

/-! ## The copy loop -/

/-- Embedding of the body of the innermost loop (lines 123-191): handle one
destination section cell for one source section. Zero-volume intersections are
skipped; otherwise the destination section is fetched with creation enabled,
the masked write is applied, and lighting deltas are emitted or accumulated.
The source line 175 reads `x, y, z = sourceMaskPart.nonzero()` over the
`(y, z, x)`-ordered mask, so `changedX` adds `intersect.minx` to the axis-0
(y) locals, `changedY` adds `intersect.miny` to the axis-1 (z) locals and
`changedZ` adds `intersect.minz` to the axis-2 (x) locals; this embedding
reproduces that assignment exactly. -/
def processDestCell (cfg : CopyCfg) (scx scz srcCy : Int) (srcSec : Sect)
    (sourceMask : Int → Int → Int → Bool) (destBox : Box) (dc : Int × Int)
    (dcy : Int) (st : OpState) : OpState × List Event :=
  let it := (SectionBox dc.1 dcy dc.2).intersect destBox
  if it.volume = 0 then (st, [])
  else
    let st1 : OpState := { st with dst := st.dst.updateChunk dc (fun ch => ch.ensureSection dcy) }
    let oldSec := (st1.dst.getChunkD dc).getSectionD dcy
    let ds := destSlices it dc.1 dcy dc.2
    let ss := sourceSlices it (offX cfg) (offY cfg) (offZ cfg) scx srcCy scz
    let changed := changedList cfg oldSec srcSec it ds ss sourceMask
    let st2 : OpState :=
      { st1 with dst := st1.dst.updateChunk dc (fun ch =>
          ch.updateSection dcy (fun s => writeMasked s srcSec ds ss sourceMask cfg.convert)) }
    if cfg.updateLights = LightMode.off then (st2, [Event.write dc dcy])
    else if changed.isEmpty then (st2, [Event.write dc dcy])
    else
      let cX := changed.map fun t => t.1 + it.ox
      let cY := changed.map fun t => t.2.1 + it.oy
      let cZ := changed.map fun t => t.2.2 + it.oz
      if cfg.updateLights = LightMode.all then
        ({ st2 with accX := st2.accX ++ [cX], accY := st2.accY ++ [cY], accZ := st2.accZ ++ [cZ] },
         [Event.write dc dcy])
      else (st2, [Event.write dc dcy, Event.relight cX cY cZ])

/-- Fold step shape shared by the two inner loops: run the body on the
current state and append the emitted events to the trace accumulator. -/
def stepOf {A : Type} (g : OpState → A → OpState × List Event)
    (acc : OpState × List Event) (a : A) : OpState × List Event :=
  ((g acc.1 a).1, acc.2 ++ (g acc.1 a).2)

/-- Embedding of the destination-chunk loop body (lines 118-193): skip an
absent destination chunk unless chunk creation is enabled, fetch the chunk
with creation enabled, process every destination section height of the
translated box, and finally set the chunk's dirty flag. -/
def processDestChunk (cfg : CopyCfg) (scx scz srcCy : Int) (srcSec : Sect)
    (sourceMask : Int → Int → Int → Bool) (destBox : Box) (dc : Int × Int)
    (st : OpState) : OpState × List Event :=
  if !cfg.create && !(st.dst.containsChunk dc) then (st, [])
  else
    let st1 : OpState := { st with dst := st.dst.ensureChunk dc }
    let r := destBox.sectionPositions.foldl
      (stepOf fun s1 dcy => processDestCell cfg scx scz srcCy srcSec sourceMask destBox dc dcy s1)
      (st1, [])
    ({ r.1 with dst := r.1.dst.updateChunk dc (fun ch => { ch with dirty := true }) }, r.2)

/-- Embedding of `destBox = BoundingBox(sectionBox.origin + copyOffset,
sectionBox.size)` (line 116): the source section box translated by the copy
offset. -/
def sectionDestBox (cfg : CopyCfg) (scx srcCy scz : Int) : Box :=
  { ox := (SectionBox scx srcCy scz).ox + offX cfg
    oy := (SectionBox scx srcCy scz).oy + offY cfg
    oz := (SectionBox scx srcCy scz).oz + offZ cfg
    sx := (SectionBox scx srcCy scz).sx
    sy := (SectionBox scx srcCy scz).sy
    sz := (SectionBox scx srcCy scz).sz }

/-- Embedding of the source-section loop body (lines 97-116): skip a missing
section or a section with no selection overlap, combine the selection mask
with the type mask, fold the mask into the biome column mask when biome copy
is active, translate the section box by the copy offset and process every
overlapping destination chunk. Returns the new state, the updated biome
column mask and the emitted events. -/
def processSrcSection (cfg : CopyCfg) (scx scz : Int) (srcChunk : ChunkData)
    (hasBiomes : Bool) (srcCy : Int) (st : OpState) (bm : Int → Int → Bool) :
    OpState × (Int → Int → Bool) × List Event :=
  match srcChunk.getSection srcCy with
  | none => (st, bm, [])
  | some srcSec =>
    match cfg.sel.section_mask scx srcCy scz with
    | none => (st, bm, [])
    | some selMask =>
      let sourceMask : Int → Int → Int → Bool := fun y z x =>
        selMask y z x && makeSourceMaskTotal cfg.idLimit cfg.blocksToCopy (srcSec.Blocks y z x)
      let bm2 : Int → Int → Bool :=
        if hasBiomes then
          fun z x => bm z x || (intRangeHalf 0 16).any fun y => sourceMask y z x
        else bm
      let destBox := sectionDestBox cfg scx srcCy scz
      let r := destBox.chunkPositions.foldl
        (stepOf fun s1 dc => processDestChunk cfg scx scz srcCy srcSec sourceMask destBox dc s1)
        (st, [])
      (r.1, bm2, r.2)

/-- Embedding of `sourceBiomeMask.nonzero()`: the `(z-local, x-local)` pairs
with a true biome-mask bit, in C order. The source binds them to the names
`bx, bz` in that order. -/
def biomePairs (bm : Int → Int → Bool) : List (Int × Int) :=
  (intRangeHalf 0 16).flatMap fun r =>
    (intRangeHalf 0 16).filterMap fun c => if bm r c then some (r, c) else none

/-- Entities of a chunk whose `Position` passes the selection's true
containment test, cloned with the copy offset applied
(`entity.copyWithOffset(copyOffset)`). -/
def migrateList (sel : Selection) (ofx ofy ofz : Int) (es : List Ent) : List Ent :=
  (es.filter fun e => sel.contains e.x e.y e.z).map
    fun e => { x := e.x + ofx, y := e.y + ofy, z := e.z + ofz }

/-- Fold step shape of the source-section loop: like `stepOf` but threading
the biome column mask as well. -/
def sectStepOf (g : OpState → (Int → Int → Bool) → Int → OpState × (Int → Int → Bool) × List Event)
    (acc : OpState × (Int → Int → Bool) × List Event) (cy : Int) :
    OpState × (Int → Int → Bool) × List Event :=
  ((g acc.1 acc.2.1 cy).1, (g acc.1 acc.2.1 cy).2.1, acc.2.2 ++ (g acc.1 acc.2.1 cy).2.2)

/-- Embedding of the biome-copy phase of a chunk (lines 195-200): when the
chunk has a biome array and biome copy is on, write the masked columns via the
bulk interface. The source computes `wbx = bx + (cx << 4)` from the axis-0
z-locals and `wbz = bz + (cz << 4)` from the axis-1 x-locals and applies no
copy offset; this embedding reproduces that assignment exactly. -/
def biomePhase (c : Int × Int) (srcChunk : ChunkData) (hasBiomes : Bool)
    (bm : Int → Int → Bool) (st : OpState) : OpState × List Event :=
  if hasBiomes then
    let pairs := biomePairs bm
    let wbx := pairs.map fun p => p.1 + c.1 * 16
    let wbz := pairs.map fun p => p.2 + c.2 * 16
    let vals := pairs.map fun p => srcChunk.BiomesD p.1 p.2
    ({ st with dst := st.dst.setBiomes wbx wbz vals }, [Event.biomeWrite wbx wbz vals])
  else (st, [])

/-- Embedding of the entity-copy phase of a chunk (lines 203-209): only when
the entity-copy flag is enabled. -/
def entityPhase (cfg : CopyCfg) (srcChunk : ChunkData) (st : OpState) :
    OpState × List Event :=
  if cfg.entities then
    let ms := migrateList cfg.sel (offX cfg) (offY cfg) (offZ cfg) srcChunk.Entities
    ({ st with dst := ms.foldl DimState.addEntity st.dst }, ms.map Event.addEntity)
  else (st, [])

/-- Embedding of the tile-entity phase of a chunk (lines 211-216): runs
unconditionally, outside the entity-copy flag's guard. -/
def tilePhase (cfg : CopyCfg) (srcChunk : ChunkData) (st : OpState) :
    OpState × List Event :=
  let mts := migrateList cfg.sel (offX cfg) (offY cfg) (offZ cfg) srcChunk.TileEntities
  ({ st with dst := mts.foldl DimState.addTileEntity st.dst }, mts.map Event.addTileEntity)

/-- Embedding of the per-source-chunk work after the yield (lines 91-216):
process every owned section, then copy biomes for every column the combined
masks touched, then migrate entities when enabled and tile entities always. -/
def processChunkBody (cfg : CopyCfg) (st : OpState) (c : Int × Int) :
    OpState × List Event :=
  let srcChunk := st.src.getChunkD c
  let hasBiomes := cfg.biomes && srcChunk.Biomes.isSome
  let r := srcChunk.sectionPositions.foldl
    (sectStepOf fun s1 bm cy => processSrcSection cfg c.1 c.2 srcChunk hasBiomes cy s1 bm)
    (st, fun _ _ => false, [])
  let biomeStep := biomePhase c srcChunk hasBiomes r.2.1 r.1
  let entStep := entityPhase cfg srcChunk biomeStep.1
  let tileStep := tilePhase cfg srcChunk entStep.1
  (tileStep.1, r.2.2 ++ biomeStep.2 ++ entStep.2 ++ tileStep.2)

/-- Embedding of the chunk loop (lines 79-216) as a generator trace: each
present source chunk increments the counter, yields the `(i, chunkCount)`
checkpoint and is then fully processed; absent chunks are skipped. Returns the
final state, the final counter and the concatenated event trace. -/
def runChunks (cfg : CopyCfg) (total : Nat) (st : OpState) (i : Nat) :
    List (Int × Int) → OpState × Nat × List Event
  | [] => (st, i, [])
  | c :: rest =>
    if st.src.containsChunk c then
      let q := processChunkBody cfg st c
      let r := runChunks cfg total q.1 (i + 1) rest
      (r.1, r.2.1, (Event.checkpoint (i + 1) total :: q.2) ++ r.2.2)
    else runChunks cfg total st i rest

/-- Embedding of the deferred batched-lighting loop (lines 229-233): one
relight call per accumulated batch, in accumulation order. -/
def relightEvents : List (List Int) → List (List Int) → List (List Int) → List Event
  | x :: xs, y :: ys, z :: zs => Event.relight x y z :: relightEvents xs ys zs
  | _, _, _ => []

/-- Initial loop state for a pair of dimensions. -/
def initOp (s d : DimState) : OpState :=
  { src := s, dst := d, accX := [], accY := [], accZ := [] }

/-- Embedding of `copyBlocksIter(destDim, sourceDim, sourceSelection,
destinationPoint, ...)`: the whole operation, returning the final state and
the ordered event trace. `chunkCount` is the chunk count of the destination
box `BoundingBox(destinationPoint, sourceSelection.size)`; in batched
lighting mode the accumulated relight calls are issued after the chunk loop
finishes. Logging and timing statements of the source are observational only
and are not modelled. -/
def copyBlocksIter (cfg : CopyCfg) (s d : DimState) : OpState × List Event :=
  let destBoxTop : Box :=
    { ox := cfg.dpx, oy := cfg.dpy, oz := cfg.dpz
      sx := cfg.sel.box.sx, sy := cfg.sel.box.sy, sz := cfg.sel.box.sz }
  let total := destBoxTop.chunkPositions.length
  let r := runChunks cfg total (initOp s d) 0 cfg.sel.box.chunkPositions
  if cfg.updateLights = LightMode.all then
    (r.1, r.2.2 ++ relightEvents r.1.accX r.1.accY r.1.accZ)
  else (r.1, r.2.2)

/-! ## Basic lemmas: ranges, association lists, boxes -/

theorem mem_intRangeAux {a lo : Int} {n : Nat} :
    a ∈ intRangeAux lo n ↔ lo ≤ a ∧ a < lo + n := by
  induction n generalizing lo with
  | zero => simp [intRangeAux]
  | succ m ih =>
    simp only [intRangeAux, List.mem_cons, ih]
    omega

theorem mem_intRangeHalf {a lo hi : Int} : a ∈ intRangeHalf lo hi ↔ lo ≤ a ∧ a < hi := by
  rw [intRangeHalf, mem_intRangeAux]
  omega

theorem alookup_aupdate {α β : Type} [DecidableEq α] (l : List (α × β)) (a b : α)
    (f : β → β) :
    alookup (aupdate l a f) b = if b = a then (alookup l a).map f else alookup l b := by
  induction l with
  | nil => simp [alookup, aupdate]
  | cons p r ih =>
    obtain ⟨k, v⟩ := p
    simp only [aupdate]
    by_cases hak : a = k
    · subst hak
      simp only [if_pos rfl]
      by_cases hba : b = a <;> simp [alookup, hba]
    · simp only [if_neg hak]
      by_cases hbk : b = k
      · subst hbk
        have hba : ¬b = a := fun h => hak h.symm
        simp [alookup, hba]
      · simp [alookup, hbk, ih, hak]

theorem alookup_isSome_iff_mem {α β : Type} [DecidableEq α] (l : List (α × β)) (a : α) :
    (alookup l a).isSome = true ↔ a ∈ l.map (fun p => p.1) := by
  induction l with
  | nil => simp [alookup]
  | cons p r ih =>
    obtain ⟨k, v⟩ := p
    by_cases h : a = k <;> simp [alookup, h, ih]

theorem containsPt_intersect_iff {a b : Box} {x y z : Int} :
    (a.intersect b).containsPt x y z = true ↔
      a.containsPt x y z = true ∧ b.containsPt x y z = true := by
  simp only [Box.intersect, Box.containsPt, decide_eq_true_eq]
  omega

theorem volume_pos_of_containsPt {b : Box} {x y z : Int}
    (h : b.containsPt x y z = true) : 0 < b.volume := by
  simp only [Box.containsPt, decide_eq_true_eq] at h
  have hx : 0 < b.sx := by omega
  have hy : 0 < b.sy := by omega
  have hz : 0 < b.sz := by omega
  exact mul_pos (mul_pos hx hy) hz

theorem not_containsPt_of_volume_eq_zero {b : Box} {x y z : Int}
    (hv : b.volume = 0) : b.containsPt x y z = false := by
  cases h : b.containsPt x y z with
  | false => rfl
  | true => exact absurd hv (by have := volume_pos_of_containsPt h; omega)

theorem containsPt_SectionBox_iff {cx cy cz x y z : Int} :
    (SectionBox cx cy cz).containsPt x y z = true ↔
      x / 16 = cx ∧ y / 16 = cy ∧ z / 16 = cz := by
  simp only [SectionBox, Box.containsPt, decide_eq_true_eq]
  omega

theorem mem_chunkPositions_iff {b : Box} {c : Int × Int} :
    c ∈ b.chunkPositions ↔
      (b.ox / 16 ≤ c.1 ∧ c.1 < (b.ox + b.sx - 1) / 16 + 1) ∧
      (b.oz / 16 ≤ c.2 ∧ c.2 < (b.oz + b.sz - 1) / 16 + 1) := by
  obtain ⟨cx, cz⟩ := c
  simp only [Box.chunkPositions, List.mem_flatMap, List.mem_map, mem_intRangeHalf]
  constructor
  · rintro ⟨u, hu, v, hv, heq⟩
    cases heq
    exact ⟨hu, hv⟩
  · rintro ⟨h1, h2⟩
    exact ⟨cx, h1, cz, h2, rfl⟩

theorem mem_chunkPositions_of_containsPt {b : Box} {x y z : Int}
    (h : b.containsPt x y z = true) : (x / 16, z / 16) ∈ b.chunkPositions := by
  rw [mem_chunkPositions_iff]
  simp only [Box.containsPt, decide_eq_true_eq] at h
  omega

theorem mem_sectionPositions_of_containsPt {b : Box} {x y z : Int}
    (h : b.containsPt x y z = true) : y / 16 ∈ b.sectionPositions := by
  rw [Box.sectionPositions, mem_intRangeHalf]
  simp only [Box.containsPt, decide_eq_true_eq] at h
  omega

/-! ## Preservation of the source dimension -/

theorem processDestCell_src (cfg : CopyCfg) (scx scz srcCy : Int) (srcSec : Sect)
    (m : Int → Int → Int → Bool) (destBox : Box) (dc : Int × Int) (dcy : Int)
    (st : OpState) :
    (processDestCell cfg scx scz srcCy srcSec m destBox dc dcy st).1.src = st.src := by
  dsimp only [processDestCell]
  repeat' split
  all_goals rfl

theorem foldl_stepOf_src {A : Type} (g : OpState → A → OpState × List Event)
    (hg : ∀ s a, (g s a).1.src = s.src) :
    ∀ (l : List A) (acc : OpState × List Event),
      (l.foldl (stepOf g) acc).1.src = acc.1.src := by
  intro l
  induction l with
  | nil => intro acc; rfl
  | cons a r ih =>
    intro acc
    rw [List.foldl_cons, ih]
    exact hg _ _

theorem processDestChunk_src (cfg : CopyCfg) (scx scz srcCy : Int) (srcSec : Sect)
    (m : Int → Int → Int → Bool) (destBox : Box) (dc : Int × Int) (st : OpState) :
    (processDestChunk cfg scx scz srcCy srcSec m destBox dc st).1.src = st.src := by
  dsimp only [processDestChunk]
  split
  · rfl
  · exact foldl_stepOf_src _
      (fun s dcy => processDestCell_src cfg scx scz srcCy srcSec m destBox dc dcy s) _ _

theorem processSrcSection_src (cfg : CopyCfg) (scx scz : Int) (srcChunk : ChunkData)
    (hasBiomes : Bool) (srcCy : Int) (st : OpState) (bm : Int → Int → Bool) :
    (processSrcSection cfg scx scz srcChunk hasBiomes srcCy st bm).1.src = st.src := by
  dsimp only [processSrcSection]
  cases srcChunk.getSection srcCy with
  | none => rfl
  | some srcSec =>
    cases cfg.sel.section_mask scx srcCy scz with
    | none => rfl
    | some selMask =>
      exact foldl_stepOf_src _
        (fun s dc => processDestChunk_src cfg scx scz srcCy srcSec _ _ dc s) _ _

theorem foldl_sectStepOf_src
    (g : OpState → (Int → Int → Bool) → Int → OpState × (Int → Int → Bool) × List Event)
    (hg : ∀ s bm cy, (g s bm cy).1.src = s.src) :
    ∀ (l : List Int) (acc : OpState × (Int → Int → Bool) × List Event),
      (l.foldl (sectStepOf g) acc).1.src = acc.1.src := by
  intro l
  induction l with
  | nil => intro acc; rfl
  | cons a r ih =>
    intro acc
    rw [List.foldl_cons, ih]
    exact hg _ _ _

theorem biomePhase_src (c : Int × Int) (srcChunk : ChunkData) (hasBiomes : Bool)
    (bm : Int → Int → Bool) (st : OpState) :
    (biomePhase c srcChunk hasBiomes bm st).1.src = st.src := by
  unfold biomePhase
  split <;> rfl

theorem entityPhase_src (cfg : CopyCfg) (srcChunk : ChunkData) (st : OpState) :
    (entityPhase cfg srcChunk st).1.src = st.src := by
  unfold entityPhase
  split <;> rfl

theorem tilePhase_src (cfg : CopyCfg) (srcChunk : ChunkData) (st : OpState) :
    (tilePhase cfg srcChunk st).1.src = st.src := rfl

theorem processChunkBody_src (cfg : CopyCfg) (st : OpState) (c : Int × Int) :
    (processChunkBody cfg st c).1.src = st.src := by
  dsimp only [processChunkBody]
  exact (tilePhase_src _ _ _).trans ((entityPhase_src _ _ _).trans
    ((biomePhase_src _ _ _ _ _).trans (foldl_sectStepOf_src _
      (fun s bm cy => processSrcSection_src cfg c.1 c.2 _ _ cy s bm) _ _)))

theorem runChunks_src (cfg : CopyCfg) (total : Nat) (st : OpState) (i : Nat)
    (l : List (Int × Int)) : (runChunks cfg total st i l).1.src = st.src := by
  induction l generalizing st i with
  | nil => rfl
  | cons c r ih =>
    dsimp only [runChunks]
    split
    · rw [ih]
      exact processChunkBody_src cfg st c
    · exact ih st i

/-- C9: the copy operation never mutates the source dimension: the `src`
component of the state (all source chunks with their sections, block and data
arrays, biome arrays, entity and tile-entity lists) is identical before and
after the whole operation, and also after running the chunk loop over any
list of chunk positions whatsoever — in particular after any partial
advancement of the checkpoint sequence, which executes exactly a prefix of
the per-chunk work. -/
theorem claim_C9 :
    (∀ (cfg : CopyCfg) (total : Nat) (st : OpState) (i : Nat) (l : List (Int × Int)),
        (runChunks cfg total st i l).1.src = st.src) ∧
    (∀ (cfg : CopyCfg) (s d : DimState), (copyBlocksIter cfg s d).1.src = s) := by
  refine ⟨fun cfg total st i l => runChunks_src cfg total st i l, fun cfg s d => ?_⟩
  dsimp only [copyBlocksIter]
  split
  · exact runChunks_src cfg _ (initOp s d) 0 _
  · exact runChunks_src cfg _ (initOp s d) 0 _

/-- C8: for every translation vector `(ofx, ofy, ofz)` and every source
section, each destination-cell intersection with nonzero volume yields a
source-side index range (`sourceSlices`, the intersection mapped back by the
inverse translation, not truncated at section boundaries) and a
destination-side index range (`destSlices`) with identical per-axis extents. -/
theorem claim_C8 (destBox : Box) (ofx ofy ofz dcx dcy dcz scx scy scz : Int)
    (hvol : ((SectionBox dcx dcy dcz).intersect destBox).volume ≠ 0) :
    ((destSlices ((SectionBox dcx dcy dcz).intersect destBox) dcx dcy dcz).yhi -
        (destSlices ((SectionBox dcx dcy dcz).intersect destBox) dcx dcy dcz).ylo =
      (sourceSlices ((SectionBox dcx dcy dcz).intersect destBox) ofx ofy ofz scx scy scz).yhi -
        (sourceSlices ((SectionBox dcx dcy dcz).intersect destBox) ofx ofy ofz scx scy scz).ylo) ∧
    ((destSlices ((SectionBox dcx dcy dcz).intersect destBox) dcx dcy dcz).zhi -
        (destSlices ((SectionBox dcx dcy dcz).intersect destBox) dcx dcy dcz).zlo =
      (sourceSlices ((SectionBox dcx dcy dcz).intersect destBox) ofx ofy ofz scx scy scz).zhi -
        (sourceSlices ((SectionBox dcx dcy dcz).intersect destBox) ofx ofy ofz scx scy scz).zlo) ∧
    ((destSlices ((SectionBox dcx dcy dcz).intersect destBox) dcx dcy dcz).xhi -
        (destSlices ((SectionBox dcx dcy dcz).intersect destBox) dcx dcy dcz).xlo =
      (sourceSlices ((SectionBox dcx dcy dcz).intersect destBox) ofx ofy ofz scx scy scz).xhi -
        (sourceSlices ((SectionBox dcx dcy dcz).intersect destBox) ofx ofy ofz scx scy scz).xlo) := by
  refine ⟨?_, ?_, ?_⟩ <;>
    simp only [destSlices, sourceSlices, sourceIntersectBox] <;> ring

/-- Witness for C8 at a concrete nonzero-volume intersection: destination
box of origin `(3, 4, 5)` and size `(10, 10, 10)` against destination cell
`(0, 0, 0)`, translation `(3, 4, 5)`, source section `(0, 0, 0)`. -/
theorem claim_C8_witness :
    ((SectionBox 0 0 0).intersect
        { ox := 3, oy := 4, oz := 5, sx := 10, sy := 10, sz := 10 }).volume ≠ 0 ∧
    ((destSlices ((SectionBox 0 0 0).intersect
          { ox := 3, oy := 4, oz := 5, sx := 10, sy := 10, sz := 10 }) 0 0 0).yhi -
        (destSlices ((SectionBox 0 0 0).intersect
          { ox := 3, oy := 4, oz := 5, sx := 10, sy := 10, sz := 10 }) 0 0 0).ylo =
      (sourceSlices ((SectionBox 0 0 0).intersect
          { ox := 3, oy := 4, oz := 5, sx := 10, sy := 10, sz := 10 }) 3 4 5 0 0 0).yhi -
        (sourceSlices ((SectionBox 0 0 0).intersect
          { ox := 3, oy := 4, oz := 5, sx := 10, sy := 10, sz := 10 }) 3 4 5 0 0 0).ylo) :=
  ⟨by decide,
   (claim_C8 { ox := 3, oy := 4, oz := 5, sx := 10, sy := 10, sz := 10 }
      3 4 5 0 0 0 0 0 0 (by decide)).1⟩

/-! ## The type mask (`sourceMaskFunc`) -/

theorem foldl_maskStep_none (idLimit : Nat) :
    ∀ ids : List Int, ids.foldl (maskStep idLimit) none = none := by
  intro ids
  induction ids with
  | nil => rfl
  | cons i r ih =>
    rw [List.foldl_cons]
    have h : maskStep idLimit none i = none := rfl
    rw [h, ih]

theorem foldl_maskStep_eq_none_iff (idLimit : Nat) :
    ∀ (ids : List Int) (m : Nat → Bool),
      ids.foldl (maskStep idLimit) (some m) = none ↔
        ∃ i ∈ ids, ¬(-(idLimit : Int) ≤ i ∧ i < (idLimit : Int)) := by
  intro ids
  induction ids with
  | nil => intro m; simp
  | cons i r ih =>
    intro m
    rw [List.foldl_cons]
    by_cases h : -(idLimit : Int) ≤ i ∧ i < (idLimit : Int)
    · have hstep : maskStep idLimit (some m) i =
          some fun b : Nat => if (b : Int) = normIndex idLimit i then true else m b := by
        simp [maskStep, h]
      rw [hstep, ih]
      constructor
      · rintro ⟨j, hj, hjr⟩
        exact ⟨j, List.mem_cons_of_mem _ hj, hjr⟩
      · rintro ⟨j, hjm, hjr⟩
        rcases List.mem_cons.mp hjm with rfl | hjm2
        · exact absurd h hjr
        · exact ⟨j, hjm2, hjr⟩
    · have hstep : maskStep idLimit (some m) i = none := by
        simp [maskStep, h]
      rw [hstep, foldl_maskStep_none]
      constructor
      · intro _
        exact ⟨i, List.mem_cons_self i r, h⟩
      · intro _
        rfl

theorem foldl_maskStep_getD (idLimit : Nat) :
    ∀ (ids : List Int) (m : Nat → Bool) (b : Nat),
      (∀ i ∈ ids, -(idLimit : Int) ≤ i ∧ i < (idLimit : Int)) →
      ((ids.foldl (maskStep idLimit) (some m)).getD (fun _ => false)) b =
        (m b || ids.any fun i => decide (normIndex idLimit i = (b : Int))) := by
  intro ids
  induction ids with
  | nil => intro m b _; simp
  | cons i r ih =>
    intro m b hall
    have h := hall i (List.mem_cons_self i r)
    rw [List.foldl_cons]
    have hstep : maskStep idLimit (some m) i =
        some fun b2 : Nat => if (b2 : Int) = normIndex idLimit i then true else m b2 := by
      simp [maskStep, h]
    rw [hstep, ih _ b (fun j hj => hall j (List.mem_cons_of_mem _ hj))]
    by_cases hc : (b : Int) = normIndex idLimit i
    · have h2 : decide (normIndex idLimit i = (b : Int)) = true := decide_eq_true hc.symm
      simp only [List.any_cons, h2]
      show ((if (b : Int) = normIndex idLimit i then true else m b) || _) = _
      rw [if_pos hc]
      simp
    · have h2 : decide (normIndex idLimit i = (b : Int)) = false :=
        decide_eq_false fun hx => hc hx.symm
      simp only [List.any_cons, h2]
      show ((if (b : Int) = normIndex idLimit i then true else m b) || _) = _
      rw [if_neg hc]
      simp

/-- C6 counterexample: an allow-list containing the id `4096` with
`id_limit = 4096` (an id at the registry's id upper bound, hence outside the
valid range) makes the type-mask construction fail with an index error
(modelled as `none`), contradicting the claim that constructing the mask
raises no error. -/
theorem claim_C6_counterexample :
    ¬((sourceMaskFunc 4096 (some [4096])).isSome = true) := by decide

/-- C6 (amended): for every allow-list containing a type id outside
`[-id_limit, id_limit)`, constructing the type mask raises an index error
(`none`), so the out-of-range id never reaches the matching stage; for
allow-lists whose ids are all in range, construction succeeds and the built
mask matches a raw source block value exactly when some allow-list id
normalizes to it — the total mask the copy loop uses. -/
theorem claim_C6_amended (idLimit : Nat) (ids : List Int) :
    (sourceMaskFunc idLimit (some ids) = none ↔
      ∃ i ∈ ids, i < -(idLimit : Int) ∨ (idLimit : Int) ≤ i) ∧
    (∀ b : Nat, (∀ i ∈ ids, -(idLimit : Int) ≤ i ∧ i < (idLimit : Int)) →
      ((sourceMaskFunc idLimit (some ids)).getD (fun _ => false)) b =
        makeSourceMaskTotal idLimit (some ids) b) := by
  constructor
  · show ids.foldl (maskStep idLimit) (some fun _ => false) = none ↔ _
    rw [foldl_maskStep_eq_none_iff]
    constructor
    · rintro ⟨j, hj, hp⟩
      exact ⟨j, hj, by omega⟩
    · rintro ⟨j, hj, hp⟩
      exact ⟨j, hj, by omega⟩
  · intro b hall
    show ((ids.foldl (maskStep idLimit) (some fun _ => false)).getD (fun _ => false)) b = _
    rw [foldl_maskStep_getD idLimit ids _ b hall]
    simp [makeSourceMaskTotal]

/-- Witness for C6 (amended) at the concrete in-range allow-list `[3, -2]`
with `id_limit = 10` and block value `8` (which `-2` normalizes to). -/
theorem claim_C6_witness :
    ((sourceMaskFunc 10 (some [3, -2])).getD (fun _ => false)) 8 =
      makeSourceMaskTotal 10 (some [3, -2]) 8 :=
  (claim_C6_amended 10 [3, -2]).2 8 (by decide)

/-! ## Event classification through the loop -/

theorem processDestCell_evs_shape (cfg : CopyCfg) (scx scz srcCy : Int) (srcSec : Sect)
    (m : Int → Int → Int → Bool) (destBox : Box) (dc : Int × Int) (dcy : Int)
    (st : OpState) :
    (processDestCell cfg scx scz srcCy srcSec m destBox dc dcy st).2 = [] ∨
    (processDestCell cfg scx scz srcCy srcSec m destBox dc dcy st).2 = [Event.write dc dcy] ∨
    (∃ cX cY cZ, cfg.updateLights ≠ LightMode.all ∧
      (processDestCell cfg scx scz srcCy srcSec m destBox dc dcy st).2 =
        [Event.write dc dcy, Event.relight cX cY cZ]) := by
  dsimp only [processDestCell]
  split
  · exact Or.inl rfl
  · split
    · exact Or.inr (Or.inl rfl)
    · split
      · exact Or.inr (Or.inl rfl)
      · split
        · exact Or.inr (Or.inl rfl)
        · next hno => exact Or.inr (Or.inr ⟨_, _, _, hno, rfl⟩)

theorem processDestCell_no_relight_all (cfg : CopyCfg) (scx scz srcCy : Int)
    (srcSec : Sect) (m : Int → Int → Int → Bool) (destBox : Box) (dc : Int × Int)
    (dcy : Int) (st : OpState) (h : cfg.updateLights = LightMode.all) :
    ∀ e ∈ (processDestCell cfg scx scz srcCy srcSec m destBox dc dcy st).2,
      e.isRelight = false := by
  intro e he
  rcases processDestCell_evs_shape cfg scx scz srcCy srcSec m destBox dc dcy st with
    hs | hs | ⟨cX, cY, cZ, hno, hs⟩
  · rw [hs] at he; cases he
  · rw [hs] at he
    rcases List.mem_singleton.mp he with rfl
    rfl
  · exact absurd h hno

theorem processDestCell_no_checkpoint (cfg : CopyCfg) (scx scz srcCy : Int)
    (srcSec : Sect) (m : Int → Int → Int → Bool) (destBox : Box) (dc : Int × Int)
    (dcy : Int) (st : OpState) :
    ∀ e ∈ (processDestCell cfg scx scz srcCy srcSec m destBox dc dcy st).2,
      e.isCheckpoint = false := by
  intro e he
  rcases processDestCell_evs_shape cfg scx scz srcCy srcSec m destBox dc dcy st with
    hs | hs | ⟨cX, cY, cZ, hno, hs⟩
  · rw [hs] at he; cases he
  · rw [hs] at he
    rcases List.mem_singleton.mp he with rfl
    rfl
  · rw [hs] at he
    rcases List.mem_cons.mp he with rfl | he2
    · rfl
    · rcases List.mem_singleton.mp he2 with rfl
      rfl

theorem foldl_stepOf_evs {A : Type} (g : OpState → A → OpState × List Event)
    (P : Event → Prop) (hg : ∀ s a, ∀ e ∈ (g s a).2, P e) :
    ∀ (l : List A) (acc : OpState × List Event),
      (∀ e ∈ acc.2, P e) → ∀ e ∈ (l.foldl (stepOf g) acc).2, P e := by
  intro l
  induction l with
  | nil => intro acc hacc; exact hacc
  | cons a r ih =>
    intro acc hacc
    rw [List.foldl_cons]
    refine ih _ ?_
    intro e he
    rcases List.mem_append.mp he with h1 | h2
    · exact hacc e h1
    · exact hg _ _ e h2

theorem foldl_sectStepOf_evs
    (g : OpState → (Int → Int → Bool) → Int → OpState × (Int → Int → Bool) × List Event)
    (P : Event → Prop) (hg : ∀ s bm cy, ∀ e ∈ (g s bm cy).2.2, P e) :
    ∀ (l : List Int) (acc : OpState × (Int → Int → Bool) × List Event),
      (∀ e ∈ acc.2.2, P e) → ∀ e ∈ (l.foldl (sectStepOf g) acc).2.2, P e := by
  intro l
  induction l with
  | nil => intro acc hacc; exact hacc
  | cons a r ih =>
    intro acc hacc
    rw [List.foldl_cons]
    refine ih _ ?_
    intro e he
    rcases List.mem_append.mp he with h1 | h2
    · exact hacc e h1
    · exact hg _ _ _ e h2

theorem processDestChunk_evs (cfg : CopyCfg) (scx scz srcCy : Int) (srcSec : Sect)
    (m : Int → Int → Int → Bool) (destBox : Box) (dc : Int × Int) (st : OpState)
    (P : Event → Prop)
    (hcell : ∀ dcy s, ∀ e ∈ (processDestCell cfg scx scz srcCy srcSec m destBox dc dcy s).2, P e) :
    ∀ e ∈ (processDestChunk cfg scx scz srcCy srcSec m destBox dc st).2, P e := by
  dsimp only [processDestChunk]
  split
  · intro e he; cases he
  · exact foldl_stepOf_evs _ P (fun s dcy => hcell dcy s) _ _ (fun e he => absurd he (by simp))

theorem processSrcSection_evs (cfg : CopyCfg) (scx scz : Int) (srcChunk : ChunkData)
    (hasBiomes : Bool) (srcCy : Int) (st : OpState) (bm : Int → Int → Bool)
    (P : Event → Prop)
    (hcell : ∀ scy2 srcSec m destBox dc dcy s,
      ∀ e ∈ (processDestCell cfg scx scz scy2 srcSec m destBox dc dcy s).2, P e) :
    ∀ e ∈ (processSrcSection cfg scx scz srcChunk hasBiomes srcCy st bm).2.2, P e := by
  dsimp only [processSrcSection]
  cases srcChunk.getSection srcCy with
  | none => intro e he; cases he
  | some srcSec =>
    cases cfg.sel.section_mask scx srcCy scz with
    | none => intro e he; cases he
    | some selMask =>
      exact foldl_stepOf_evs _ P
        (fun s dc => processDestChunk_evs cfg scx scz srcCy srcSec _ _ dc s P
          (fun dcy s2 => hcell srcCy srcSec _ _ dc dcy s2))
        _ _ (fun e he => absurd he (by simp))

theorem biomePhase_evs (c : Int × Int) (srcChunk : ChunkData) (hasBiomes : Bool)
    (bm : Int → Int → Bool) (st : OpState) (P : Event → Prop)
    (hb : ∀ wbx wbz vals, P (Event.biomeWrite wbx wbz vals)) :
    ∀ e ∈ (biomePhase c srcChunk hasBiomes bm st).2, P e := by
  unfold biomePhase
  split
  · intro e he
    rcases List.mem_singleton.mp he with rfl
    exact hb _ _ _
  · intro e he
    cases he

theorem entityPhase_evs (cfg : CopyCfg) (srcChunk : ChunkData) (st : OpState)
    (P : Event → Prop) (he2 : ∀ a, P (Event.addEntity a)) :
    ∀ e ∈ (entityPhase cfg srcChunk st).2, P e := by
  unfold entityPhase
  split
  · intro e he
    rcases List.mem_map.mp he with ⟨a, _, rfl⟩
    exact he2 a
  · intro e he
    cases he

theorem tilePhase_evs (cfg : CopyCfg) (srcChunk : ChunkData) (st : OpState)
    (P : Event → Prop) (ht : ∀ a, P (Event.addTileEntity a)) :
    ∀ e ∈ (tilePhase cfg srcChunk st).2, P e := by
  unfold tilePhase
  intro e he
  rcases List.mem_map.mp he with ⟨a, _, rfl⟩
  exact ht a

theorem processChunkBody_evs (cfg : CopyCfg) (st : OpState) (c : Int × Int)
    (P : Event → Prop)
    (hcell : ∀ scy2 srcSec m destBox dc dcy s,
      ∀ e ∈ (processDestCell cfg c.1 c.2 scy2 srcSec m destBox dc dcy s).2, P e)
    (hb : ∀ wbx wbz vals, P (Event.biomeWrite wbx wbz vals))
    (he2 : ∀ e2, P (Event.addEntity e2))
    (ht : ∀ e2, P (Event.addTileEntity e2)) :
    ∀ e ∈ (processChunkBody cfg st c).2, P e := by
  dsimp only [processChunkBody]
  intro e he
  rcases List.mem_append.mp he with he1 | heT
  · rcases List.mem_append.mp he1 with he2m | heE
    · rcases List.mem_append.mp he2m with heS | heB
      · exact foldl_sectStepOf_evs _ P
          (fun s bm cy => processSrcSection_evs cfg c.1 c.2 _ _ cy s bm P hcell)
          _ _ (fun e he => absurd he (by simp)) e heS
      · exact biomePhase_evs _ _ _ _ _ P hb e heB
    · exact entityPhase_evs _ _ _ P he2 e heE
  · exact tilePhase_evs _ _ _ P ht e heT

theorem runChunks_evs (cfg : CopyCfg) (total : Nat) (P : Event → Prop)
    (hchk : ∀ i2 t2, P (Event.checkpoint i2 t2))
    (hbody : ∀ st c, ∀ e ∈ (processChunkBody cfg st c).2, P e) :
    ∀ (l : List (Int × Int)) (st : OpState) (i : Nat),
      ∀ e ∈ (runChunks cfg total st i l).2.2, P e := by
  intro l
  induction l with
  | nil => intro st i e he; cases he
  | cons c r ih =>
    intro st i e he
    dsimp only [runChunks] at he
    split at he
    · rcases List.mem_append.mp he with h1 | h2
      · rcases List.mem_cons.mp h1 with rfl | h3
        · exact hchk _ _
        · exact hbody st c e h3
      · exact ih _ _ e h2
    · exact ih st i e he

theorem relightEvents_isRelight :
    ∀ xs ys zs : List (List Int), ∀ e ∈ relightEvents xs ys zs, e.isRelight = true := by
  intro xs
  induction xs with
  | nil => intro ys zs e he; cases he
  | cons x xs ih =>
    intro ys zs e he
    cases ys with
    | nil => cases he
    | cons y ys =>
      cases zs with
      | nil => cases he
      | cons z zs =>
        rcases List.mem_cons.mp he with rfl | h2
        · rfl
        · exact ih ys zs e h2

/-- C4: in batched lighting mode the delta coordinates are accumulated across
the entire operation and every relight call is issued only after all
destination writes (section writes, biome writes and entity insertions) have
completed: the trace splits into a relight-free prefix containing the whole
chunk loop and a suffix consisting exclusively of relight calls. (The
"exactly one call" part of the claim fails — see the counterexample — since
the deferred loop issues one call per accumulated section batch.) -/
theorem claim_C4 (cfg : CopyCfg) (s d : DimState)
    (h : cfg.updateLights = LightMode.all) :
    ∃ t r, (copyBlocksIter cfg s d).2 = t ++ r ∧
      (∀ e ∈ t, e.isRelight = false) ∧ (∀ e ∈ r, e.isRelight = true) := by
  dsimp only [copyBlocksIter]
  rw [if_pos h]
  refine ⟨_, _, rfl, ?_, ?_⟩
  · exact runChunks_evs cfg _ (fun e => e.isRelight = false) (fun _ _ => rfl)
      (fun st c => processChunkBody_evs cfg st c (fun e => e.isRelight = false)
        (fun scy2 srcSec m destBox dc dcy s2 =>
          processDestCell_no_relight_all cfg c.1 c.2 scy2 srcSec m destBox dc dcy s2 h)
        (fun _ _ _ => rfl) (fun _ => rfl) (fun _ => rfl)) _ _ _
  · exact relightEvents_isRelight _ _ _

/-! ## Concrete instances used by counterexamples and witnesses -/

/-- Selection whose true shape is exactly its bounding box. -/
def boxSel (b : Box) : Selection :=
  { box := b, contains := fun x y z => b.containsPt x y z
    contains_sub := fun _ _ _ h => h }

/-- Dimension owning no chunks, with all-zero biome columns and no entities. -/
def emptyDim : DimState :=
  { chunks := [], biomes := fun _ _ => 0, entities := [], tileEntities := [] }

/-- Section whose blocks are all of type 5 (auxiliary data 0). -/
def sect5 : Sect := { Blocks := fun _ _ _ => 5, Data := fun _ _ _ => 0 }

/-- Batched-lighting copy of a 1 by 17 by 1 column spanning two source
sections, identity conversion, brightness equal to the block id. -/
def cfgC4 : CopyCfg :=
  { sel := boxSel { ox := 0, oy := 0, oz := 0, sx := 1, sy := 17, sz := 1 }
    dpx := 0, dpy := 0, dpz := 0
    blocksToCopy := none, idLimit := 4096
    entities := false, create := true, biomes := false
    updateLights := LightMode.all
    convert := fun b d2 => (b, d2)
    brightness := fun b => b
    opacity := fun _ => 0 }

/-- Source dimension for the C4 run: one chunk with two sections of type-5
blocks, so both sections produce lighting deltas. -/
def srcC4 : DimState :=
  { chunks := [((0, 0),
      { sections := [(0, sect5), (1, sect5)], Entities := [], TileEntities := [],
        Biomes := none, dirty := false })]
    biomes := fun _ _ => 0, entities := [], tileEntities := [] }

/-- C4 counterexample: in the concrete batched-mode run two relight calls are
issued (one per accumulated section batch), so "exactly one call to the
relighting collaborator is issued" is false on the code. -/
theorem claim_C4_counterexample :
    ((copyBlocksIter cfgC4 srcC4 emptyDim).2.countP Event.isRelight = 2) ∧
    ¬((copyBlocksIter cfgC4 srcC4 emptyDim).2.countP Event.isRelight = 1) := by
  refine ⟨by decide, by decide⟩

/-- Witness for C4 at the concrete batched-mode run. -/
theorem claim_C4_witness :
    ∃ t r, (copyBlocksIter cfgC4 srcC4 emptyDim).2 = t ++ r ∧
      (∀ e ∈ t, e.isRelight = false) ∧ (∀ e ∈ r, e.isRelight = true) :=
  claim_C4 cfgC4 srcC4 emptyDim rfl

/-! ## Chunk segmentation of the trace (checkpoint placement) -/

theorem isRelight_not_checkpoint_not_write (e : Event) (h : e.isRelight = true) :
    e.isCheckpoint = false ∧ e.isDestWrite = false := by
  cases e <;> simp_all [Event.isRelight, Event.isCheckpoint, Event.isDestWrite]

theorem processChunkBody_no_checkpoint (cfg : CopyCfg) (st : OpState) (c : Int × Int) :
    ∀ e ∈ (processChunkBody cfg st c).2, e.isCheckpoint = false :=
  processChunkBody_evs cfg st c (fun e => e.isCheckpoint = false)
    (fun scy2 srcSec m destBox dc dcy s2 =>
      processDestCell_no_checkpoint cfg c.1 c.2 scy2 srcSec m destBox dc dcy s2)
    (fun _ _ _ => rfl) (fun _ => rfl) (fun _ => rfl)

theorem runChunks_segments (cfg : CopyCfg) (total : Nat) :
    ∀ (l : List (Int × Int)) (st : OpState) (i : Nat),
      ∃ segs : List (Nat × Nat × List Event),
        (runChunks cfg total st i l).2.2 =
          (segs.map fun sg => Event.checkpoint sg.1 sg.2.1 :: sg.2.2).flatten ∧
        (∀ sg ∈ segs, ∀ e ∈ sg.2.2, e.isCheckpoint = false) ∧
        segs.map (fun sg => sg.1) = List.range' (i + 1) segs.length := by
  intro l
  induction l with
  | nil =>
    intro st i
    exact ⟨[], rfl, by simp, by simp⟩
  | cons c r ih =>
    intro st i
    dsimp only [runChunks]
    split
    · obtain ⟨segs, h1, h2, h3⟩ := ih (processChunkBody cfg st c).1 (i + 1)
      refine ⟨(i + 1, total, (processChunkBody cfg st c).2) :: segs, ?_, ?_, ?_⟩
      · rw [List.map_cons, List.flatten_cons, h1]
      · intro sg hsg e he
        rcases List.mem_cons.mp hsg with rfl | h4
        · exact processChunkBody_no_checkpoint cfg st c e he
        · exact h2 sg h4 e he
      · simp only [List.map_cons, h3, List.length_cons]
        rw [List.range'_succ]
    · exact ih st i

/-- C5 (amended): a `(completed, total)` checkpoint is emitted when its source
chunk is reached, before — not after — that chunk's processing: the trace
decomposes into consecutive segments, one per present source chunk, each
consisting of the chunk's checkpoint followed by that chunk's events (which
contain no checkpoint), followed by a tail (the deferred batched-lighting
calls) containing neither checkpoints nor destination writes; checkpoint
counters run 1, 2, 3, ... in order. Hence a consumer who stops advancing the
sequence right after receiving checkpoint k has executed the bodies of chunks
1 to k-1 in full and none of chunk k's work: earlier chunks are fully
processed and the announced chunk is untouched — no chunk is ever left
partially processed, but the announced chunk is not yet processed either. -/
theorem claim_C5_amended (cfg : CopyCfg) (s d : DimState) :
    ∃ (segs : List (Nat × Nat × List Event)) (tail : List Event),
      (copyBlocksIter cfg s d).2 =
        (segs.map fun sg => Event.checkpoint sg.1 sg.2.1 :: sg.2.2).flatten ++ tail ∧
      (∀ sg ∈ segs, ∀ e ∈ sg.2.2, e.isCheckpoint = false) ∧
      (∀ e ∈ tail, e.isCheckpoint = false ∧ e.isDestWrite = false) ∧
      segs.map (fun sg => sg.1) = List.range' 1 segs.length := by
  dsimp only [copyBlocksIter]
  split
  · obtain ⟨segs, h1, h2, h3⟩ :=
      runChunks_segments cfg _ cfg.sel.box.chunkPositions (initOp s d) 0
    rw [h1]
    exact ⟨segs, relightEvents _ _ _, rfl, h2,
      fun e he => isRelight_not_checkpoint_not_write e (relightEvents_isRelight _ _ _ e he),
      h3⟩
  · obtain ⟨segs, h1, h2, h3⟩ :=
      runChunks_segments cfg _ cfg.sel.box.chunkPositions (initOp s d) 0
    rw [h1]
    exact ⟨segs, [], (List.append_nil _).symm, h2, fun e he => absurd he (by simp), h3⟩

/-- Rendering of claim C5 on a single-chunk trace: every destination-write
event precedes every checkpoint event (on a one-chunk run this is exactly
"the checkpoint is emitted only after the chunk is fully processed"). -/
def writesPrecedeCheckpoints (tr : List Event) : Prop :=
  ∀ i j : Nat,
    (∃ e, tr.get? i = some e ∧ e.isCheckpoint = true) →
    (∃ e, tr.get? j = some e ∧ e.isDestWrite = true) → j < i

/-- One-voxel, one-chunk copy with lighting disabled: its trace is exactly
`[checkpoint (1, 1), write]`. -/
def cfgC5 : CopyCfg :=
  { sel := boxSel { ox := 0, oy := 0, oz := 0, sx := 1, sy := 1, sz := 1 }
    dpx := 0, dpy := 0, dpz := 0
    blocksToCopy := none, idLimit := 4096
    entities := false, create := true, biomes := false
    updateLights := LightMode.off
    convert := fun b d2 => (b, d2)
    brightness := fun _ => 0
    opacity := fun _ => 0 }

/-- Source dimension for the C5 run: one chunk with one type-5 section. -/
def srcC5 : DimState :=
  { chunks := [((0, 0),
      { sections := [(0, sect5)], Entities := [], TileEntities := [],
        Biomes := none, dirty := false })]
    biomes := fun _ _ => 0, entities := [], tileEntities := [] }

/-- C5 counterexample: in the concrete one-chunk run the trace is
`[checkpoint (1, 1), write]` — the chunk's destination write happens at index
1, after the checkpoint at index 0, so the checkpoint is emitted before (not
after) the chunk is processed; a consumer stopping right after the checkpoint
leaves that chunk entirely unprocessed. -/
theorem claim_C5_counterexample :
    ¬writesPrecedeCheckpoints (copyBlocksIter cfgC5 srcC5 emptyDim).2 := by
  intro h
  have h2 := h 0 1 ⟨Event.checkpoint 1 1, by decide, rfl⟩
    ⟨Event.write (0, 0) 0, by decide, rfl⟩
  omega

/-! ## Entity migration (C7) -/

theorem ensureChunk_entities (d : DimState) (c : Int × Int) :
    (d.ensureChunk c).entities = d.entities ∧
    (d.ensureChunk c).tileEntities = d.tileEntities := by
  unfold DimState.ensureChunk
  split <;> exact ⟨rfl, rfl⟩

theorem setBiomes_entities :
    ∀ (xs zs : List Int) (vs : List Nat) (d : DimState),
      (DimState.setBiomes d xs zs vs).entities = d.entities ∧
      (DimState.setBiomes d xs zs vs).tileEntities = d.tileEntities := by
  intro xs
  induction xs with
  | nil => intro zs vs d; exact ⟨rfl, rfl⟩
  | cons x xs ih =>
    intro zs vs d
    cases zs with
    | nil => exact ⟨rfl, rfl⟩
    | cons z zs =>
      cases vs with
      | nil => exact ⟨rfl, rfl⟩
      | cons v vs => exact ih zs vs _

theorem processDestCell_dstents (cfg : CopyCfg) (scx scz srcCy : Int) (srcSec : Sect)
    (m : Int → Int → Int → Bool) (destBox : Box) (dc : Int × Int) (dcy : Int)
    (st : OpState) :
    (processDestCell cfg scx scz srcCy srcSec m destBox dc dcy st).1.dst.entities =
      st.dst.entities ∧
    (processDestCell cfg scx scz srcCy srcSec m destBox dc dcy st).1.dst.tileEntities =
      st.dst.tileEntities := by
  dsimp only [processDestCell]
  repeat' split
  all_goals exact ⟨rfl, rfl⟩

theorem foldl_stepOf_keep {A γ : Type} (g : OpState → A → OpState × List Event)
    (f : OpState → γ) (hg : ∀ s a, f (g s a).1 = f s) :
    ∀ (l : List A) (acc : OpState × List Event),
      f (l.foldl (stepOf g) acc).1 = f acc.1 := by
  intro l
  induction l with
  | nil => intro acc; rfl
  | cons a r ih =>
    intro acc
    rw [List.foldl_cons, ih]
    exact hg _ _

theorem foldl_sectStepOf_keep {γ : Type}
    (g : OpState → (Int → Int → Bool) → Int → OpState × (Int → Int → Bool) × List Event)
    (f : OpState → γ) (hg : ∀ s bm cy, f (g s bm cy).1 = f s) :
    ∀ (l : List Int) (acc : OpState × (Int → Int → Bool) × List Event),
      f (l.foldl (sectStepOf g) acc).1 = f acc.1 := by
  intro l
  induction l with
  | nil => intro acc; rfl
  | cons a r ih =>
    intro acc
    rw [List.foldl_cons, ih]
    exact hg _ _ _

theorem processDestChunk_dstents (cfg : CopyCfg) (scx scz srcCy : Int) (srcSec : Sect)
    (m : Int → Int → Int → Bool) (destBox : Box) (dc : Int × Int) (st : OpState) :
    (processDestChunk cfg scx scz srcCy srcSec m destBox dc st).1.dst.entities =
      st.dst.entities ∧
    (processDestChunk cfg scx scz srcCy srcSec m destBox dc st).1.dst.tileEntities =
      st.dst.tileEntities := by
  dsimp only [processDestChunk]
  split
  · exact ⟨rfl, rfl⟩
  · constructor
    · exact (foldl_stepOf_keep _ (fun s => s.dst.entities)
        (fun s dcy => (processDestCell_dstents cfg scx scz srcCy srcSec m destBox dc dcy s).1)
        _ _).trans ((ensureChunk_entities st.dst dc).1)
    · exact (foldl_stepOf_keep _ (fun s => s.dst.tileEntities)
        (fun s dcy => (processDestCell_dstents cfg scx scz srcCy srcSec m destBox dc dcy s).2)
        _ _).trans ((ensureChunk_entities st.dst dc).2)

theorem processSrcSection_dstents (cfg : CopyCfg) (scx scz : Int) (srcChunk : ChunkData)
    (hasBiomes : Bool) (srcCy : Int) (st : OpState) (bm : Int → Int → Bool) :
    (processSrcSection cfg scx scz srcChunk hasBiomes srcCy st bm).1.dst.entities =
      st.dst.entities ∧
    (processSrcSection cfg scx scz srcChunk hasBiomes srcCy st bm).1.dst.tileEntities =
      st.dst.tileEntities := by
  dsimp only [processSrcSection]
  cases srcChunk.getSection srcCy with
  | none => exact ⟨rfl, rfl⟩
  | some srcSec =>
    cases cfg.sel.section_mask scx srcCy scz with
    | none => exact ⟨rfl, rfl⟩
    | some selMask =>
      constructor
      · exact foldl_stepOf_keep _ (fun s => s.dst.entities)
          (fun s dc => (processDestChunk_dstents cfg scx scz srcCy srcSec _ _ dc s).1) _ _
      · exact foldl_stepOf_keep _ (fun s => s.dst.tileEntities)
          (fun s dc => (processDestChunk_dstents cfg scx scz srcCy srcSec _ _ dc s).2) _ _

theorem foldl_addEntity_entities :
    ∀ (es : List Ent) (d : DimState),
      (es.foldl DimState.addEntity d).entities = d.entities ++ es ∧
      (es.foldl DimState.addEntity d).tileEntities = d.tileEntities := by
  intro es
  induction es with
  | nil => intro d; exact ⟨(List.append_nil _).symm, rfl⟩
  | cons e r ih =>
    intro d
    rw [List.foldl_cons]
    refine ⟨?_, (ih _).2⟩
    rw [(ih _).1]
    show (d.entities ++ [e]) ++ r = d.entities ++ e :: r
    simp

theorem foldl_addTileEntity_entities :
    ∀ (es : List Ent) (d : DimState),
      (es.foldl DimState.addTileEntity d).tileEntities = d.tileEntities ++ es ∧
      (es.foldl DimState.addTileEntity d).entities = d.entities := by
  intro es
  induction es with
  | nil => intro d; exact ⟨(List.append_nil _).symm, rfl⟩
  | cons e r ih =>
    intro d
    rw [List.foldl_cons]
    refine ⟨?_, (ih _).2⟩
    rw [(ih _).1]
    show (d.tileEntities ++ [e]) ++ r = d.tileEntities ++ e :: r
    simp

theorem biomePhase_dstents (c : Int × Int) (srcChunk : ChunkData) (hasBiomes : Bool)
    (bm : Int → Int → Bool) (st : OpState) :
    (biomePhase c srcChunk hasBiomes bm st).1.dst.entities = st.dst.entities ∧
    (biomePhase c srcChunk hasBiomes bm st).1.dst.tileEntities = st.dst.tileEntities := by
  unfold biomePhase
  split
  · exact ⟨(setBiomes_entities _ _ _ _).1, (setBiomes_entities _ _ _ _).2⟩
  · exact ⟨rfl, rfl⟩

theorem entityPhase_entities (cfg : CopyCfg) (srcChunk : ChunkData) (st : OpState) :
    (entityPhase cfg srcChunk st).1.dst.entities =
      st.dst.entities ++
        (if cfg.entities then
          migrateList cfg.sel (offX cfg) (offY cfg) (offZ cfg) srcChunk.Entities
         else []) ∧
    (entityPhase cfg srcChunk st).1.dst.tileEntities = st.dst.tileEntities := by
  unfold entityPhase
  split
  · exact ⟨(foldl_addEntity_entities _ _).1, (foldl_addEntity_entities _ _).2⟩
  · exact ⟨(List.append_nil _).symm, rfl⟩

theorem tilePhase_entities (cfg : CopyCfg) (srcChunk : ChunkData) (st : OpState) :
    (tilePhase cfg srcChunk st).1.dst.tileEntities =
      st.dst.tileEntities ++
        migrateList cfg.sel (offX cfg) (offY cfg) (offZ cfg) srcChunk.TileEntities ∧
    (tilePhase cfg srcChunk st).1.dst.entities = st.dst.entities := by
  unfold tilePhase
  exact ⟨(foldl_addTileEntity_entities _ _).1, (foldl_addTileEntity_entities _ _).2⟩

theorem processChunkBody_entities (cfg : CopyCfg) (st : OpState) (c : Int × Int) :
    (processChunkBody cfg st c).1.dst.tileEntities =
      st.dst.tileEntities ++
        migrateList cfg.sel (offX cfg) (offY cfg) (offZ cfg)
          (st.src.getChunkD c).TileEntities ∧
    (processChunkBody cfg st c).1.dst.entities =
      st.dst.entities ++
        (if cfg.entities then
          migrateList cfg.sel (offX cfg) (offY cfg) (offZ cfg) (st.src.getChunkD c).Entities
         else []) := by
  dsimp only [processChunkBody]
  constructor
  · refine ((tilePhase_entities _ _ _).1).trans ?_
    refine congrArg (fun t => t ++ _) ?_
    refine ((entityPhase_entities _ _ _).2).trans ?_
    refine ((biomePhase_dstents _ _ _ _ _).2).trans ?_
    exact foldl_sectStepOf_keep _ (fun s => s.dst.tileEntities)
      (fun s bm cy => (processSrcSection_dstents cfg c.1 c.2 _ _ cy s bm).2) _ _
  · refine ((tilePhase_entities _ _ _).2).trans ?_
    refine ((entityPhase_entities _ _ _).1).trans ?_
    refine congrArg (fun t => t ++ _) ?_
    refine ((biomePhase_dstents _ _ _ _ _).1).trans ?_
    exact foldl_sectStepOf_keep _ (fun s => s.dst.entities)
      (fun s bm cy => (processSrcSection_dstents cfg c.1 c.2 _ _ cy s bm).1) _ _

theorem runChunks_ents (cfg : CopyCfg) (total : Nat) :
    ∀ (l : List (Int × Int)) (st : OpState) (i : Nat),
      (runChunks cfg total st i l).1.dst.tileEntities =
        st.dst.tileEntities ++
          (l.filter (fun c => st.src.containsChunk c)).flatMap
            (fun c => migrateList cfg.sel (offX cfg) (offY cfg) (offZ cfg)
              (st.src.getChunkD c).TileEntities) ∧
      (runChunks cfg total st i l).1.dst.entities =
        st.dst.entities ++
          (if cfg.entities then
            (l.filter (fun c => st.src.containsChunk c)).flatMap
              (fun c => migrateList cfg.sel (offX cfg) (offY cfg) (offZ cfg)
                (st.src.getChunkD c).Entities)
           else []) := by
  intro l
  induction l with
  | nil =>
    intro st i
    constructor
    · show st.dst.tileEntities = st.dst.tileEntities ++ _
      simp
    · show st.dst.entities = st.dst.entities ++ _
      simp
  | cons c r ih =>
    intro st i
    dsimp only [runChunks]
    split
    next hc =>
      obtain ⟨ihT, ihE⟩ := ih (processChunkBody cfg st c).1 (i + 1)
      simp only [processChunkBody_src cfg st c] at ihT ihE
      obtain ⟨bT, bE⟩ := processChunkBody_entities cfg st c
      constructor
      · rw [ihT, bT]
        simp [List.filter_cons, hc, List.append_assoc]
      · rw [ihE, bE]
        by_cases hE : cfg.entities
        · simp [List.filter_cons, hc, hE, List.append_assoc]
        · simp [hE]
    next hc =>
      obtain ⟨ihT, ihE⟩ := ih st i
      constructor
      · rw [ihT]
        simp [List.filter_cons, hc]
      · rw [ihE]
        by_cases hE : cfg.entities <;> simp [List.filter_cons, hc, hE]

/-- C7: tile-entities whose `Position` passes the selection's true
containment test are always migrated — cloned with the translation offset and
inserted into the destination — regardless of the entity-copy flag, for every
present source chunk; ordinary entities are migrated (by the same containment
test and translation) exactly when the entity-copy flag is enabled, and the
destination entity list is unchanged when it is disabled. -/
theorem claim_C7 (cfg : CopyCfg) (s d : DimState) :
    (copyBlocksIter cfg s d).1.dst.tileEntities =
      d.tileEntities ++
        (cfg.sel.box.chunkPositions.filter (fun c => s.containsChunk c)).flatMap
          (fun c => migrateList cfg.sel (offX cfg) (offY cfg) (offZ cfg)
            (s.getChunkD c).TileEntities) ∧
    (copyBlocksIter cfg s d).1.dst.entities =
      d.entities ++
        (if cfg.entities then
          (cfg.sel.box.chunkPositions.filter (fun c => s.containsChunk c)).flatMap
            (fun c => migrateList cfg.sel (offX cfg) (offY cfg) (offZ cfg)
              (s.getChunkD c).Entities)
         else []) := by
  dsimp only [copyBlocksIter]
  split
  · exact runChunks_ents cfg _ _ (initOp s d) 0
  · exact runChunks_ents cfg _ _ (initOp s d) 0

/-! ## Chunk and section object algebra -/

theorem containsChunk_updateChunk (d : DimState) (c c2 : Int × Int)
    (f : ChunkData → ChunkData) :
    (d.updateChunk c f).containsChunk c2 = d.containsChunk c2 := by
  unfold DimState.updateChunk DimState.containsChunk
  show (alookup (aupdate d.chunks c f) c2).isSome = _
  rw [alookup_aupdate]
  split
  next h => subst h; cases alookup d.chunks c2 <;> rfl
  next h => rfl

theorem containsChunk_ensureChunk_same (d : DimState) (c : Int × Int) :
    (d.ensureChunk c).containsChunk c = true := by
  unfold DimState.ensureChunk DimState.containsChunk
  split
  next h => exact h
  next h => show (alookup ((c, emptyChunk) :: d.chunks) c).isSome = true; simp [alookup]

theorem containsChunk_ensureChunk_mono (d : DimState) (c c2 : Int × Int)
    (h : d.containsChunk c2 = true) : (d.ensureChunk c).containsChunk c2 = true := by
  unfold DimState.ensureChunk
  split
  · exact h
  · show (alookup ((c, emptyChunk) :: d.chunks) c2).isSome = true
    by_cases hc : c2 = c <;> simp [alookup, hc]
    exact h

theorem getChunkD_updateChunk_other (d : DimState) (c c2 : Int × Int)
    (f : ChunkData → ChunkData) (h : c2 ≠ c) :
    (d.updateChunk c f).getChunkD c2 = d.getChunkD c2 := by
  unfold DimState.updateChunk DimState.getChunkD
  show (alookup (aupdate d.chunks c f) c2).getD _ = _
  rw [alookup_aupdate, if_neg h]

theorem getChunkD_updateChunk_same (d : DimState) (c : Int × Int)
    (f : ChunkData → ChunkData) (h : d.containsChunk c = true) :
    (d.updateChunk c f).getChunkD c = f (d.getChunkD c) := by
  unfold DimState.updateChunk DimState.getChunkD
  show (alookup (aupdate d.chunks c f) c).getD _ = _
  rw [alookup_aupdate, if_pos rfl]
  unfold DimState.containsChunk at h
  cases hl : alookup d.chunks c with
  | none => rw [hl] at h; cases h
  | some ch => rfl

theorem getChunkD_ensureChunk_other (d : DimState) (c c2 : Int × Int) (h : c2 ≠ c) :
    (d.ensureChunk c).getChunkD c2 = d.getChunkD c2 := by
  unfold DimState.ensureChunk
  split
  · rfl
  · show (alookup ((c, emptyChunk) :: d.chunks) c2).getD _ = _
    simp [alookup, h]
    rfl

theorem getChunkD_ensureChunk_same (d : DimState) (c : Int × Int) :
    (d.ensureChunk c).getChunkD c = d.getChunkD c := by
  unfold DimState.ensureChunk
  split
  next h => rfl
  next h =>
    show (alookup ((c, emptyChunk) :: d.chunks) c).getD _ = _
    cases hl : alookup d.chunks c with
    | none => simp [alookup, DimState.getChunkD, hl]
    | some ch => rw [hl] at h; cases h rfl

theorem getSection_updateSection_other (ch : ChunkData) (cy cy2 : Int) (f : Sect → Sect)
    (h : cy2 ≠ cy) : (ch.updateSection cy f).getSection cy2 = ch.getSection cy2 := by
  unfold ChunkData.updateSection ChunkData.getSection
  show alookup (aupdate ch.sections cy f) cy2 = _
  rw [alookup_aupdate, if_neg h]

theorem getSection_updateSection_same (ch : ChunkData) (cy : Int) (f : Sect → Sect) :
    (ch.updateSection cy f).getSection cy = (ch.getSection cy).map f := by
  unfold ChunkData.updateSection ChunkData.getSection
  show alookup (aupdate ch.sections cy f) cy = _
  rw [alookup_aupdate, if_pos rfl]

theorem getSection_ensureSection_other (ch : ChunkData) (cy cy2 : Int) (h : cy2 ≠ cy) :
    (ch.ensureSection cy).getSection cy2 = ch.getSection cy2 := by
  unfold ChunkData.ensureSection
  split
  · rfl
  · show alookup ((cy, emptySect) :: ch.sections) cy2 = _
    simp [alookup, h]
    rfl

theorem getSection_ensureSection_isSome (ch : ChunkData) (cy : Int) :
    ((ch.ensureSection cy).getSection cy).isSome = true := by
  unfold ChunkData.ensureSection
  split
  next h => exact h
  next h =>
    show (alookup ((cy, emptySect) :: ch.sections) cy).isSome = true
    simp [alookup]

theorem getSectionD_ensureSection_same (ch : ChunkData) (cy : Int) :
    (ch.ensureSection cy).getSectionD cy = ch.getSectionD cy := by
  unfold ChunkData.ensureSection
  split
  next h => rfl
  next h =>
    unfold ChunkData.getSectionD ChunkData.getSection
    show (alookup ((cy, emptySect) :: ch.sections) cy).getD _ = _
    cases hl : alookup ch.sections cy with
    | none => simp [alookup, hl]
    | some sec => rw [hl] at h; cases h rfl

theorem getSection_ensureSection_mono (ch : ChunkData) (cy cy2 : Int)
    (h : (ch.getSection cy2).isSome = true) :
    ((ch.ensureSection cy).getSection cy2).isSome = true := by
  by_cases hc : cy2 = cy
  · subst hc; exact getSection_ensureSection_isSome ch cy2
  · rw [getSection_ensureSection_other ch cy cy2 hc]; exact h

theorem setBiomes_chunks :
    ∀ (xs zs : List Int) (vs : List Nat) (d : DimState),
      (DimState.setBiomes d xs zs vs).chunks = d.chunks := by
  intro xs
  induction xs with
  | nil => intro zs vs d; rfl
  | cons x xs ih =>
    intro zs vs d
    cases zs with
    | nil => rfl
    | cons z zs =>
      cases vs with
      | nil => rfl
      | cons v vs => exact ih zs vs _

theorem foldl_addEntity_chunks :
    ∀ (es : List Ent) (d : DimState),
      (es.foldl DimState.addEntity d).chunks = d.chunks := by
  intro es
  induction es with
  | nil => intro d; rfl
  | cons e r ih => intro d; exact ih _

theorem foldl_addTileEntity_chunks :
    ∀ (es : List Ent) (d : DimState),
      (es.foldl DimState.addTileEntity d).chunks = d.chunks := by
  intro es
  induction es with
  | nil => intro d; rfl
  | cons e r ih => intro d; exact ih _

/-! ## Pointwise characterization of the masked section write -/

theorem processDestCell_dst (cfg : CopyCfg) (scx scz srcCy : Int) (srcSec : Sect)
    (m : Int → Int → Int → Bool) (destBox : Box) (dc : Int × Int) (dcy : Int)
    (st : OpState) :
    (processDestCell cfg scx scz srcCy srcSec m destBox dc dcy st).1.dst =
      (if ((SectionBox dc.1 dcy dc.2).intersect destBox).volume = 0 then st.dst
       else (st.dst.updateChunk dc (fun ch => ch.ensureSection dcy)).updateChunk dc
              (fun ch => ch.updateSection dcy (fun s2 =>
                writeMasked s2 srcSec
                  (destSlices ((SectionBox dc.1 dcy dc.2).intersect destBox) dc.1 dcy dc.2)
                  (sourceSlices ((SectionBox dc.1 dcy dc.2).intersect destBox)
                    (offX cfg) (offY cfg) (offZ cfg) scx srcCy scz)
                  m cfg.convert))) := by
  dsimp only [processDestCell]
  repeat' split
  all_goals rfl

theorem slices_arg_y (it : Box) (ofx ofy ofz dcx dcy dcz scx scy scz Y : Int)
    (hy : Y / 16 = dcy) :
    (sourceSlices it ofx ofy ofz scx scy scz).ylo +
      (Y % 16 - (destSlices it dcx dcy dcz).ylo) = Y - ofy - scy * 16 := by
  simp only [sourceSlices, destSlices, sourceIntersectBox]
  omega

theorem slices_arg_z (it : Box) (ofx ofy ofz dcx dcy dcz scx scy scz Z : Int)
    (hz : Z / 16 = dcz) :
    (sourceSlices it ofx ofy ofz scx scy scz).zlo +
      (Z % 16 - (destSlices it dcx dcy dcz).zlo) = Z - ofz - scz * 16 := by
  simp only [sourceSlices, destSlices, sourceIntersectBox]
  omega

theorem slices_arg_x (it : Box) (ofx ofy ofz dcx dcy dcz scx scy scz X : Int)
    (hx : X / 16 = dcx) :
    (sourceSlices it ofx ofy ofz scx scy scz).xlo +
      (X % 16 - (destSlices it dcx dcy dcz).xlo) = X - ofx - scx * 16 := by
  simp only [sourceSlices, destSlices, sourceIntersectBox]
  omega

theorem writeCond_world (it : Box) (ofx ofy ofz dcx dcy dcz scx scy scz : Int)
    (m : Int → Int → Int → Bool) (X Y Z : Int)
    (hx : X / 16 = dcx) (hy : Y / 16 = dcy) (hz : Z / 16 = dcz) :
    writeCond (destSlices it dcx dcy dcz) (sourceSlices it ofx ofy ofz scx scy scz) m
      (Y % 16) (Z % 16) (X % 16) =
      (it.containsPt X Y Z &&
        m (Y - ofy - scy * 16) (Z - ofz - scz * 16) (X - ofx - scx * 16)) := by
  unfold writeCond Box.containsPt
  rw [slices_arg_y it ofx ofy ofz dcx dcy dcz scx scy scz Y hy,
      slices_arg_z it ofx ofy ofz dcx dcy dcz scx scy scz Z hz,
      slices_arg_x it ofx ofy ofz dcx dcy dcz scx scy scz X hx]
  congr 1
  rw [decide_eq_decide]
  simp only [destSlices]
  omega

theorem processDestCell_blockAt (cfg : CopyCfg) (scx scz srcCy : Int) (srcSec : Sect)
    (m : Int → Int → Int → Bool) (destBox : Box) (dc : Int × Int) (dcy : Int)
    (st : OpState) (hc : st.dst.containsChunk dc = true) (X Y Z : Int) :
    ((processDestCell cfg scx scz srcCy srcSec m destBox dc dcy st).1.dst.blockAt X Y Z =
       if (((SectionBox dc.1 dcy dc.2).intersect destBox).containsPt X Y Z &&
           m (Y - offY cfg - srcCy * 16) (Z - offZ cfg - scz * 16)
             (X - offX cfg - scx * 16)) = true
       then (cfg.convert
              (srcSec.Blocks (Y - offY cfg - srcCy * 16) (Z - offZ cfg - scz * 16)
                (X - offX cfg - scx * 16))
              (srcSec.Data (Y - offY cfg - srcCy * 16) (Z - offZ cfg - scz * 16)
                (X - offX cfg - scx * 16))).1
       else st.dst.blockAt X Y Z) ∧
    ((processDestCell cfg scx scz srcCy srcSec m destBox dc dcy st).1.dst.dataAt X Y Z =
       if (((SectionBox dc.1 dcy dc.2).intersect destBox).containsPt X Y Z &&
           m (Y - offY cfg - srcCy * 16) (Z - offZ cfg - scz * 16)
             (X - offX cfg - scx * 16)) = true
       then (cfg.convert
              (srcSec.Blocks (Y - offY cfg - srcCy * 16) (Z - offZ cfg - scz * 16)
                (X - offX cfg - scx * 16))
              (srcSec.Data (Y - offY cfg - srcCy * 16) (Z - offZ cfg - scz * 16)
                (X - offX cfg - scx * 16))).2
       else st.dst.dataAt X Y Z) := by
  rw [DimState.blockAt, DimState.dataAt, DimState.blockAt, DimState.dataAt,
      processDestCell_dst cfg scx scz srcCy srcSec m destBox dc dcy st]
  by_cases hvol : ((SectionBox dc.1 dcy dc.2).intersect destBox).volume = 0
  · rw [if_pos hvol]
    simp [not_containsPt_of_volume_eq_zero hvol]
  · rw [if_neg hvol]
    by_cases hcx : ((X / 16 : Int), (Z / 16 : Int)) = dc
    · have hx : X / 16 = dc.1 := by rw [← hcx]
      have hz : Z / 16 = dc.2 := by rw [← hcx]
      by_cases hcy : (Y / 16 : Int) = dcy
      · -- the targeted cell: the masked write applies
        have hc1 : (st.dst.updateChunk dc fun ch => ch.ensureSection dcy).containsChunk dc
            = true := by rw [containsChunk_updateChunk]; exact hc
        rw [hcx, hcy, getChunkD_updateChunk_same _ _ _ hc1,
            getChunkD_updateChunk_same _ _ _ hc]
        have hsec := getSection_ensureSection_isSome (st.dst.getChunkD dc) dcy
        unfold ChunkData.getSectionD
        rw [getSection_updateSection_same]
        cases hgs : ((st.dst.getChunkD dc).ensureSection dcy).getSection dcy with
        | none => rw [hgs] at hsec; cases hsec
        | some s0 =>
          have hs0 : ((st.dst.getChunkD dc).ensureSection dcy).getSectionD dcy = s0 := by
            unfold ChunkData.getSectionD
            rw [hgs]
            rfl
          have hs0b : (st.dst.getChunkD dc).getSectionD dcy = s0 := by
            rw [← getSectionD_ensureSection_same]
            exact hs0
          show (writeMasked s0 srcSec _ _ m cfg.convert).Blocks (Y % 16) (Z % 16) (X % 16)
              = _ ∧
            (writeMasked s0 srcSec _ _ m cfg.convert).Data (Y % 16) (Z % 16) (X % 16) = _
          unfold writeMasked
          simp only [writeCond_world _ (offX cfg) (offY cfg) (offZ cfg) dc.1 dcy dc.2
              scx srcCy scz m X Y Z hx hcy hz,
            slices_arg_y _ (offX cfg) (offY cfg) (offZ cfg) dc.1 dcy dc.2 scx srcCy scz Y hcy,
            slices_arg_z _ (offX cfg) (offY cfg) (offZ cfg) dc.1 dcy dc.2 scx srcCy scz Z hz,
            slices_arg_x _ (offX cfg) (offY cfg) (offZ cfg) dc.1 dcy dc.2 scx srcCy scz X hx]
          have hs0c : ((st.dst.getChunkD dc).getSection dcy).getD emptySect = s0 := hs0b
          rw [hs0c]
          exact ⟨rfl, rfl⟩
      · -- same chunk, different section height: untouched
        have hc1 : (st.dst.updateChunk dc fun ch => ch.ensureSection dcy).containsChunk dc
            = true := by rw [containsChunk_updateChunk]; exact hc
        have hfalse : ((SectionBox dc.1 dcy dc.2).intersect destBox).containsPt X Y Z
            = false := by
          cases hcp : ((SectionBox dc.1 dcy dc.2).intersect destBox).containsPt X Y Z with
          | false => rfl
          | true =>
            have h2 := (containsPt_intersect_iff.mp hcp).1
            exact absurd (containsPt_SectionBox_iff.mp h2).2.1 hcy
        rw [hcx, getChunkD_updateChunk_same _ _ _ hc1, getChunkD_updateChunk_same _ _ _ hc]
        unfold ChunkData.getSectionD
        rw [getSection_updateSection_other _ _ _ _ hcy,
            getSection_ensureSection_other _ _ _ hcy]
        simp [hfalse]
    · -- different destination chunk: untouched
      have hfalse : ((SectionBox dc.1 dcy dc.2).intersect destBox).containsPt X Y Z
          = false := by
        cases hcp : ((SectionBox dc.1 dcy dc.2).intersect destBox).containsPt X Y Z with
        | false => rfl
        | true =>
          have h2 := (containsPt_intersect_iff.mp hcp).1
          have h3 := containsPt_SectionBox_iff.mp h2
          exact absurd (by rw [h3.1, h3.2.2]) hcx
      rw [getChunkD_updateChunk_other _ _ _ _ hcx, getChunkD_updateChunk_other _ _ _ _ hcx]
      simp [hfalse]

theorem aupdate_of_lookup_none {α β : Type} [DecidableEq α] (l : List (α × β)) (a : α)
    (f : β → β) (h : alookup l a = none) : aupdate l a f = l := by
  induction l with
  | nil => rfl
  | cons p r ih =>
    obtain ⟨k, v⟩ := p
    by_cases hk : a = k
    · subst hk
      simp [alookup] at h
    · unfold aupdate
      rw [if_neg hk, ih]
      unfold alookup at h
      rw [if_neg hk] at h
      exact h

theorem updateChunk_absent (d : DimState) (c : Int × Int) (f : ChunkData → ChunkData)
    (h : d.containsChunk c = false) : d.updateChunk c f = d := by
  have hl : alookup d.chunks c = none := by
    unfold DimState.containsChunk at h
    cases hl2 : alookup d.chunks c with
    | none => rfl
    | some ch => rw [hl2] at h; cases h
  unfold DimState.updateChunk
  rw [aupdate_of_lookup_none d.chunks c f hl]

theorem processDestCell_containsChunk (cfg : CopyCfg) (scx scz srcCy : Int)
    (srcSec : Sect) (m : Int → Int → Int → Bool) (destBox : Box) (dc : Int × Int)
    (dcy : Int) (st : OpState) (c2 : Int × Int) :
    (processDestCell cfg scx scz srcCy srcSec m destBox dc dcy st).1.dst.containsChunk c2 =
      st.dst.containsChunk c2 := by
  rw [processDestCell_dst]
  split
  · rfl
  · rw [containsChunk_updateChunk, containsChunk_updateChunk]

theorem processDestCell_sectionSome_mono (cfg : CopyCfg) (scx scz srcCy : Int)
    (srcSec : Sect) (m : Int → Int → Int → Bool) (destBox : Box) (dc : Int × Int)
    (dcy : Int) (st : OpState) (c2 : Int × Int) (cy2 : Int)
    (h : st.dst.sectionSome c2 cy2 = true) :
    (processDestCell cfg scx scz srcCy srcSec m destBox dc dcy st).1.dst.sectionSome c2 cy2
      = true := by
  rw [processDestCell_dst]
  split
  · exact h
  · by_cases hcc : st.dst.containsChunk dc = true
    · by_cases hc2 : c2 = dc
      · subst hc2
        have hc1 : (st.dst.updateChunk c2 fun ch => ch.ensureSection dcy).containsChunk c2
            = true := by rw [containsChunk_updateChunk]; exact hcc
        unfold DimState.sectionSome
        rw [getChunkD_updateChunk_same _ _ _ hc1, getChunkD_updateChunk_same _ _ _ hcc]
        by_cases hcy : cy2 = dcy
        · subst hcy
          rw [getSection_updateSection_same]
          have := getSection_ensureSection_isSome (st.dst.getChunkD c2) cy2
          cases hgs : ((st.dst.getChunkD c2).ensureSection cy2).getSection cy2 with
          | none => rw [hgs] at this; cases this
          | some s2 => rfl
        · unfold DimState.sectionSome at h
          rw [getSection_updateSection_other _ _ _ _ hcy,
              getSection_ensureSection_other _ _ _ hcy]
          exact h
      · unfold DimState.sectionSome at h ⊢
        rw [getChunkD_updateChunk_other _ _ _ _ hc2, getChunkD_updateChunk_other _ _ _ _ hc2]
        exact h
    · have hb : st.dst.containsChunk dc = false := by
        cases hb2 : st.dst.containsChunk dc with
        | false => rfl
        | true => exact absurd hb2 hcc
      rw [updateChunk_absent st.dst dc _ hb]
      rw [updateChunk_absent st.dst dc _ hb]
      exact h

theorem processDestCell_sectionSome_created (cfg : CopyCfg) (scx scz srcCy : Int)
    (srcSec : Sect) (m : Int → Int → Int → Bool) (destBox : Box) (dc : Int × Int)
    (dcy : Int) (st : OpState) (hc : st.dst.containsChunk dc = true)
    (hvol : ((SectionBox dc.1 dcy dc.2).intersect destBox).volume ≠ 0) :
    (processDestCell cfg scx scz srcCy srcSec m destBox dc dcy st).1.dst.sectionSome dc dcy
      = true := by
  rw [processDestCell_dst, if_neg hvol]
  have hc1 : (st.dst.updateChunk dc fun ch => ch.ensureSection dcy).containsChunk dc
      = true := by rw [containsChunk_updateChunk]; exact hc
  unfold DimState.sectionSome
  rw [getChunkD_updateChunk_same _ _ _ hc1, getChunkD_updateChunk_same _ _ _ hc,
      getSection_updateSection_same]
  have := getSection_ensureSection_isSome (st.dst.getChunkD dc) dcy
  cases hgs : ((st.dst.getChunkD dc).ensureSection dcy).getSection dcy with
  | none => rw [hgs] at this; cases this
  | some s2 => rfl

theorem foldl_stepOf_write {A : Type} (g : OpState → A → OpState × List Event)
    (R : OpState → Nat) (V : Nat) (C : A → Prop) [DecidablePred C] (K : OpState → Prop)
    (hK : ∀ s a, K s → K (g s a).1)
    (hcell : ∀ s a, K s → R (g s a).1 = if C a then V else R s) :
    ∀ (L : List A) (acc : OpState × List Event), K acc.1 →
      R (L.foldl (stepOf g) acc).1 = if ∃ a ∈ L, C a then V else R acc.1 := by
  intro L
  induction L with
  | nil =>
    intro acc hk
    rw [if_neg]
    · rfl
    · rintro ⟨a, ha, _⟩
      cases ha
  | cons a L2 ih =>
    intro acc hk
    rw [List.foldl_cons]
    have hk2 : K (stepOf g acc a).1 := hK _ _ hk
    rw [ih _ hk2]
    have hstep : (stepOf g acc a).1 = (g acc.1 a).1 := rfl
    rw [hstep, hcell _ _ hk]
    by_cases hca : C a
    · rw [if_pos hca]
      by_cases hex : ∃ x ∈ L2, C x
      · rw [if_pos hex, if_pos ⟨a, List.mem_cons_self a L2, hca⟩]
      · rw [if_neg hex, if_pos ⟨a, List.mem_cons_self a L2, hca⟩]
    · rw [if_neg hca]
      by_cases hex : ∃ x ∈ L2, C x
      · rw [if_pos hex]
        obtain ⟨x, hx, hcx⟩ := hex
        rw [if_pos ⟨x, List.mem_cons_of_mem a hx, hcx⟩]
      · rw [if_neg hex, if_neg]
        rintro ⟨x, hx, hcx⟩
        rcases List.mem_cons.mp hx with rfl | hx2
        · exact hca hcx
        · exact hex ⟨x, hx2, hcx⟩

theorem foldl_stepOf_pres {A : Type} (g : OpState → A → OpState × List Event)
    (P : OpState → Prop) (hmono : ∀ s a, P s → P (g s a).1) :
    ∀ (L : List A) (acc : OpState × List Event), P acc.1 →
      P (L.foldl (stepOf g) acc).1 := by
  intro L
  induction L with
  | nil => intro acc h; exact h
  | cons a L2 ih =>
    intro acc h
    rw [List.foldl_cons]
    exact ih _ (hmono _ _ h)

theorem foldl_stepOf_even {A : Type} (g : OpState → A → OpState × List Event)
    (P : OpState → Prop) (hmono : ∀ s a, P s → P (g s a).1)
    (K : OpState → Prop) (hK : ∀ s a, K s → K (g s a).1)
    (C : A → Prop) (hset : ∀ s a, K s → C a → P (g s a).1) :
    ∀ (L : List A) (acc : OpState × List Event), K acc.1 → (∃ a ∈ L, C a) →
      P (L.foldl (stepOf g) acc).1 := by
  intro L
  induction L with
  | nil =>
    rintro acc hk ⟨a, ha, _⟩
    cases ha
  | cons a L2 ih =>
    rintro acc hk ⟨x, hx, hcx⟩
    rw [List.foldl_cons]
    rcases List.mem_cons.mp hx with rfl | hx2
    · exact foldl_stepOf_pres g P hmono L2 _ (hset _ _ hk hcx)
    · exact ih _ (hK _ _ hk) ⟨x, hx2, hcx⟩

theorem blockAt_ensureChunk (d : DimState) (c : Int × Int) (X Y Z : Int) :
    ((d.ensureChunk c).blockAt X Y Z = d.blockAt X Y Z) ∧
    ((d.ensureChunk c).dataAt X Y Z = d.dataAt X Y Z) := by
  unfold DimState.blockAt DimState.dataAt
  by_cases hc : ((X / 16 : Int), (Z / 16 : Int)) = c
  · rw [hc, getChunkD_ensureChunk_same]
    exact ⟨rfl, rfl⟩
  · rw [getChunkD_ensureChunk_other _ _ _ hc]
    exact ⟨rfl, rfl⟩

theorem blockAt_updateChunk_dirty (d : DimState) (c : Int × Int) (X Y Z : Int) :
    ((d.updateChunk c fun ch => { ch with dirty := true }).blockAt X Y Z
        = d.blockAt X Y Z) ∧
    ((d.updateChunk c fun ch => { ch with dirty := true }).dataAt X Y Z
        = d.dataAt X Y Z) := by
  unfold DimState.blockAt DimState.dataAt
  by_cases hp : d.containsChunk c = true
  · by_cases hc : ((X / 16 : Int), (Z / 16 : Int)) = c
    · rw [hc, getChunkD_updateChunk_same _ _ _ hp]
      exact ⟨rfl, rfl⟩
    · rw [getChunkD_updateChunk_other _ _ _ _ hc]
      exact ⟨rfl, rfl⟩
  · have hb : d.containsChunk c = false := by
      cases hb2 : d.containsChunk c with
      | false => rfl
      | true => exact absurd hb2 hp
    rw [updateChunk_absent d c _ hb]
    exact ⟨rfl, rfl⟩

theorem sectionSome_updateChunk_dirty (d : DimState) (c : Int × Int) (c2 : Int × Int)
    (cy2 : Int) :
    (d.updateChunk c fun ch => { ch with dirty := true }).sectionSome c2 cy2
      = d.sectionSome c2 cy2 := by
  unfold DimState.sectionSome
  by_cases hp : d.containsChunk c = true
  · by_cases hc : c2 = c
    · rw [hc, getChunkD_updateChunk_same _ _ _ hp]
      rfl
    · rw [getChunkD_updateChunk_other _ _ _ _ hc]
  · have hb : d.containsChunk c = false := by
      cases hb2 : d.containsChunk c with
      | false => rfl
      | true => exact absurd hb2 hp
    rw [updateChunk_absent d c _ hb]

theorem sectionSome_ensureChunk_mono (d : DimState) (c : Int × Int) (c2 : Int × Int)
    (cy2 : Int) (h : d.sectionSome c2 cy2 = true) :
    (d.ensureChunk c).sectionSome c2 cy2 = true := by
  unfold DimState.sectionSome at h ⊢
  by_cases hc : c2 = c
  · rw [hc, getChunkD_ensureChunk_same]
    rw [hc] at h
    exact h
  · rw [getChunkD_ensureChunk_other _ _ _ hc]
    exact h

theorem exists_cell_cover (destBox : Box) (dc : Int × Int) (mv : Bool) (X Y Z : Int) :
    (∃ dcy ∈ destBox.sectionPositions,
        (((SectionBox dc.1 dcy dc.2).intersect destBox).containsPt X Y Z && mv) = true)
      ↔ (destBox.containsPt X Y Z = true ∧ ((X / 16 : Int), (Z / 16 : Int)) = dc ∧
          mv = true) := by
  constructor
  · rintro ⟨dcy, hmem, hcond⟩
    rw [Bool.and_eq_true] at hcond
    obtain ⟨hcp, hmv⟩ := hcond
    have h2 := containsPt_intersect_iff.mp hcp
    have h3 := containsPt_SectionBox_iff.mp h2.1
    refine ⟨h2.2, ?_, hmv⟩
    rw [h3.1, h3.2.2]
  · rintro ⟨hdb, hcell, hmv⟩
    refine ⟨Y / 16, mem_sectionPositions_of_containsPt hdb, ?_⟩
    rw [Bool.and_eq_true]
    refine ⟨containsPt_intersect_iff.mpr ⟨?_, hdb⟩, hmv⟩
    rw [containsPt_SectionBox_iff]
    exact ⟨congrArg Prod.fst hcell, rfl, congrArg Prod.snd hcell⟩

theorem processDestChunk_blockAt (cfg : CopyCfg) (scx scz srcCy : Int) (srcSec : Sect)
    (m : Int → Int → Int → Bool) (destBox : Box) (dc : Int × Int) (st : OpState)
    (X Y Z : Int) :
    ((processDestChunk cfg scx scz srcCy srcSec m destBox dc st).1.dst.blockAt X Y Z =
       if (cfg.create = true ∨ st.dst.containsChunk dc = true) ∧
          destBox.containsPt X Y Z = true ∧ ((X / 16 : Int), (Z / 16 : Int)) = dc ∧
          m (Y - offY cfg - srcCy * 16) (Z - offZ cfg - scz * 16)
            (X - offX cfg - scx * 16) = true
       then (cfg.convert
              (srcSec.Blocks (Y - offY cfg - srcCy * 16) (Z - offZ cfg - scz * 16)
                (X - offX cfg - scx * 16))
              (srcSec.Data (Y - offY cfg - srcCy * 16) (Z - offZ cfg - scz * 16)
                (X - offX cfg - scx * 16))).1
       else st.dst.blockAt X Y Z) ∧
    ((processDestChunk cfg scx scz srcCy srcSec m destBox dc st).1.dst.dataAt X Y Z =
       if (cfg.create = true ∨ st.dst.containsChunk dc = true) ∧
          destBox.containsPt X Y Z = true ∧ ((X / 16 : Int), (Z / 16 : Int)) = dc ∧
          m (Y - offY cfg - srcCy * 16) (Z - offZ cfg - scz * 16)
            (X - offX cfg - scx * 16) = true
       then (cfg.convert
              (srcSec.Blocks (Y - offY cfg - srcCy * 16) (Z - offZ cfg - scz * 16)
                (X - offX cfg - scx * 16))
              (srcSec.Data (Y - offY cfg - srcCy * 16) (Z - offZ cfg - scz * 16)
                (X - offX cfg - scx * 16))).2
       else st.dst.dataAt X Y Z) := by
  dsimp only [processDestChunk]
  split
  next hskip =>
    have h1 : ¬(cfg.create = true ∨ st.dst.containsChunk dc = true) := by
      rintro (hc | hc) <;> rw [hc] at hskip <;> simp at hskip
    constructor
    · rw [if_neg (fun hcond => h1 hcond.1)]
    · rw [if_neg (fun hcond => h1 hcond.1)]
  next hskip =>
    have hor : cfg.create = true ∨ st.dst.containsChunk dc = true := by
      cases hcr2 : cfg.create with
      | true => exact Or.inl rfl
      | false =>
        cases hcc : st.dst.containsChunk dc with
        | true => exact Or.inr rfl
        | false => exact absurd (by rw [hcr2, hcc]; rfl) hskip
    have hcK : ({ st with dst := st.dst.ensureChunk dc } : OpState).dst.containsChunk dc
        = true := containsChunk_ensureChunk_same st.dst dc
    have hwB := foldl_stepOf_write
      (fun s1 dcy => processDestCell cfg scx scz srcCy srcSec m destBox dc dcy s1)
      (fun s => s.dst.blockAt X Y Z)
      ((cfg.convert
        (srcSec.Blocks (Y - offY cfg - srcCy * 16) (Z - offZ cfg - scz * 16)
          (X - offX cfg - scx * 16))
        (srcSec.Data (Y - offY cfg - srcCy * 16) (Z - offZ cfg - scz * 16)
          (X - offX cfg - scx * 16))).1)
      (fun dcy => (((SectionBox dc.1 dcy dc.2).intersect destBox).containsPt X Y Z &&
          m (Y - offY cfg - srcCy * 16) (Z - offZ cfg - scz * 16)
            (X - offX cfg - scx * 16)) = true)
      (fun s => s.dst.containsChunk dc = true)
      (fun s a hk => by
        show (processDestCell cfg scx scz srcCy srcSec m destBox dc a s).1.dst.containsChunk
            dc = true
        rw [processDestCell_containsChunk]
        exact hk)
      (fun s a hk =>
        (processDestCell_blockAt cfg scx scz srcCy srcSec m destBox dc a s hk X Y Z).1)
      destBox.sectionPositions ({ st with dst := st.dst.ensureChunk dc }, []) hcK
    have hwD := foldl_stepOf_write
      (fun s1 dcy => processDestCell cfg scx scz srcCy srcSec m destBox dc dcy s1)
      (fun s => s.dst.dataAt X Y Z)
      ((cfg.convert
        (srcSec.Blocks (Y - offY cfg - srcCy * 16) (Z - offZ cfg - scz * 16)
          (X - offX cfg - scx * 16))
        (srcSec.Data (Y - offY cfg - srcCy * 16) (Z - offZ cfg - scz * 16)
          (X - offX cfg - scx * 16))).2)
      (fun dcy => (((SectionBox dc.1 dcy dc.2).intersect destBox).containsPt X Y Z &&
          m (Y - offY cfg - srcCy * 16) (Z - offZ cfg - scz * 16)
            (X - offX cfg - scx * 16)) = true)
      (fun s => s.dst.containsChunk dc = true)
      (fun s a hk => by
        show (processDestCell cfg scx scz srcCy srcSec m destBox dc a s).1.dst.containsChunk
            dc = true
        rw [processDestCell_containsChunk]
        exact hk)
      (fun s a hk =>
        (processDestCell_blockAt cfg scx scz srcCy srcSec m destBox dc a s hk X Y Z).2)
      destBox.sectionPositions ({ st with dst := st.dst.ensureChunk dc }, []) hcK
    constructor
    · refine ((blockAt_updateChunk_dirty _ dc X Y Z).1).trans ?_
      refine hwB.trans ?_
      dsimp only
      rw [(blockAt_ensureChunk st.dst dc X Y Z).1]
      by_cases hex : ∃ dcy ∈ destBox.sectionPositions,
          (((SectionBox dc.1 dcy dc.2).intersect destBox).containsPt X Y Z &&
            m (Y - offY cfg - srcCy * 16) (Z - offZ cfg - scz * 16)
              (X - offX cfg - scx * 16)) = true
      · obtain ⟨h1, h2, h3⟩ := (exists_cell_cover destBox dc _ X Y Z).mp hex
        rw [if_pos hex, if_pos ⟨hor, h1, h2, h3⟩]
      · rw [if_neg hex, if_neg (fun hcond =>
          hex ((exists_cell_cover destBox dc _ X Y Z).mpr
            ⟨hcond.2.1, hcond.2.2.1, hcond.2.2.2⟩))]
    · refine ((blockAt_updateChunk_dirty _ dc X Y Z).2).trans ?_
      refine hwD.trans ?_
      dsimp only
      rw [(blockAt_ensureChunk st.dst dc X Y Z).2]
      by_cases hex : ∃ dcy ∈ destBox.sectionPositions,
          (((SectionBox dc.1 dcy dc.2).intersect destBox).containsPt X Y Z &&
            m (Y - offY cfg - srcCy * 16) (Z - offZ cfg - scz * 16)
              (X - offX cfg - scx * 16)) = true
      · obtain ⟨h1, h2, h3⟩ := (exists_cell_cover destBox dc _ X Y Z).mp hex
        rw [if_pos hex, if_pos ⟨hor, h1, h2, h3⟩]
      · rw [if_neg hex, if_neg (fun hcond =>
          hex ((exists_cell_cover destBox dc _ X Y Z).mpr
            ⟨hcond.2.1, hcond.2.2.1, hcond.2.2.2⟩))]

theorem processDestChunk_containsChunk_mono (cfg : CopyCfg) (scx scz srcCy : Int)
    (srcSec : Sect) (m : Int → Int → Int → Bool) (destBox : Box) (dc : Int × Int)
    (st : OpState) (c2 : Int × Int) (h : st.dst.containsChunk c2 = true) :
    (processDestChunk cfg scx scz srcCy srcSec m destBox dc st).1.dst.containsChunk c2
      = true := by
  dsimp only [processDestChunk]
  split
  · exact h
  · dsimp only
    rw [containsChunk_updateChunk]
    exact foldl_stepOf_pres _ (fun s => s.dst.containsChunk c2 = true)
      (fun s a hp => by
        show (processDestCell cfg scx scz srcCy srcSec m destBox dc a s).1.dst.containsChunk
            c2 = true
        rw [processDestCell_containsChunk]
        exact hp)
      _ _ (containsChunk_ensureChunk_mono st.dst dc c2 h)

theorem processDestChunk_sectionSome_mono (cfg : CopyCfg) (scx scz srcCy : Int)
    (srcSec : Sect) (m : Int → Int → Int → Bool) (destBox : Box) (dc : Int × Int)
    (st : OpState) (c2 : Int × Int) (cy2 : Int) (h : st.dst.sectionSome c2 cy2 = true) :
    (processDestChunk cfg scx scz srcCy srcSec m destBox dc st).1.dst.sectionSome c2 cy2
      = true := by
  dsimp only [processDestChunk]
  split
  · exact h
  · dsimp only
    rw [sectionSome_updateChunk_dirty]
    exact foldl_stepOf_pres _ (fun s => s.dst.sectionSome c2 cy2 = true)
      (fun s a hp =>
        processDestCell_sectionSome_mono cfg scx scz srcCy srcSec m destBox dc a s c2 cy2 hp)
      _ _ (sectionSome_ensureChunk_mono st.dst dc c2 cy2 h)

theorem processDestChunk_sectionSome_created (cfg : CopyCfg) (scx scz srcCy : Int)
    (srcSec : Sect) (m : Int → Int → Int → Bool) (destBox : Box) (dc : Int × Int)
    (st : OpState) (X Y Z : Int)
    (hor : cfg.create = true ∨ st.dst.containsChunk dc = true)
    (hp : destBox.containsPt X Y Z = true)
    (hcell : ((X / 16 : Int), (Z / 16 : Int)) = dc) :
    (processDestChunk cfg scx scz srcCy srcSec m destBox dc st).1.dst.sectionSome dc
      (Y / 16) = true := by
  dsimp only [processDestChunk]
  split
  next hskip =>
    exfalso
    rcases hor with hc | hc <;> rw [hc] at hskip <;> simp at hskip
  next hskip =>
    dsimp only
    rw [sectionSome_updateChunk_dirty]
    refine foldl_stepOf_even _ (fun s => s.dst.sectionSome dc (Y / 16) = true)
      (fun s a hp2 =>
        processDestCell_sectionSome_mono cfg scx scz srcCy srcSec m destBox dc a s dc
          (Y / 16) hp2)
      (fun s => s.dst.containsChunk dc = true)
      (fun s a hk => by
        show (processDestCell cfg scx scz srcCy srcSec m destBox dc a s).1.dst.containsChunk
            dc = true
        rw [processDestCell_containsChunk]
        exact hk)
      (fun dcy => dcy = Y / 16 ∧
        ((SectionBox dc.1 dcy dc.2).intersect destBox).volume ≠ 0)
      (fun s a hk hca => by
        obtain ⟨rfl, hvol⟩ := hca
        exact processDestCell_sectionSome_created cfg scx scz srcCy srcSec m destBox dc _
          s hk hvol)
      destBox.sectionPositions _ (containsChunk_ensureChunk_same st.dst dc) ?_
    refine ⟨Y / 16, mem_sectionPositions_of_containsPt hp, rfl, ?_⟩
    have hin : ((SectionBox dc.1 (Y / 16) dc.2).intersect destBox).containsPt X Y Z
        = true := by
      refine containsPt_intersect_iff.mpr ⟨?_, hp⟩
      rw [containsPt_SectionBox_iff]
      exact ⟨congrArg Prod.fst hcell, rfl, congrArg Prod.snd hcell⟩
    have := volume_pos_of_containsPt hin
    omega

theorem processSrcSection_sec_none (cfg : CopyCfg) (scx scz : Int)
    (srcChunk : ChunkData) (hasBiomes : Bool) (srcCy : Int) (st : OpState)
    (bm : Int → Int → Bool) (hsec : srcChunk.getSection srcCy = none) :
    processSrcSection cfg scx scz srcChunk hasBiomes srcCy st bm = (st, bm, []) := by
  unfold processSrcSection
  rw [hsec]

theorem processSrcSection_mask_none (cfg : CopyCfg) (scx scz : Int)
    (srcChunk : ChunkData) (hasBiomes : Bool) (srcCy : Int) (st : OpState)
    (bm : Int → Int → Bool) (srcSec : Sect)
    (hsec : srcChunk.getSection srcCy = some srcSec)
    (hmask : cfg.sel.section_mask scx srcCy scz = none) :
    processSrcSection cfg scx scz srcChunk hasBiomes srcCy st bm = (st, bm, []) := by
  unfold processSrcSection
  rw [hsec, hmask]

theorem processSrcSection_blockAt (cfg : CopyCfg) (scx scz : Int)
    (srcChunk : ChunkData) (hasBiomes : Bool) (srcCy : Int) (st : OpState)
    (bm : Int → Int → Bool) (srcSec : Sect)
    (hsec : srcChunk.getSection srcCy = some srcSec)
    (selMask : Int → Int → Int → Bool)
    (hmask : cfg.sel.section_mask scx srcCy scz = some selMask)
    (X Y Z : Int)
    (Hd : cfg.create = true ∨ st.dst.containsChunk (X / 16, Z / 16) = true) :
    ((processSrcSection cfg scx scz srcChunk hasBiomes srcCy st bm).1.dst.blockAt X Y Z =
      if (sectionDestBox cfg scx srcCy scz).containsPt X Y Z = true ∧
         (selMask (Y - offY cfg - srcCy * 16) (Z - offZ cfg - scz * 16)
             (X - offX cfg - scx * 16) &&
           makeSourceMaskTotal cfg.idLimit cfg.blocksToCopy
             (srcSec.Blocks (Y - offY cfg - srcCy * 16) (Z - offZ cfg - scz * 16)
               (X - offX cfg - scx * 16))) = true
      then (cfg.convert
             (srcSec.Blocks (Y - offY cfg - srcCy * 16) (Z - offZ cfg - scz * 16)
               (X - offX cfg - scx * 16))
             (srcSec.Data (Y - offY cfg - srcCy * 16) (Z - offZ cfg - scz * 16)
               (X - offX cfg - scx * 16))).1
      else st.dst.blockAt X Y Z) ∧
    ((processSrcSection cfg scx scz srcChunk hasBiomes srcCy st bm).1.dst.dataAt X Y Z =
      if (sectionDestBox cfg scx srcCy scz).containsPt X Y Z = true ∧
         (selMask (Y - offY cfg - srcCy * 16) (Z - offZ cfg - scz * 16)
             (X - offX cfg - scx * 16) &&
           makeSourceMaskTotal cfg.idLimit cfg.blocksToCopy
             (srcSec.Blocks (Y - offY cfg - srcCy * 16) (Z - offZ cfg - scz * 16)
               (X - offX cfg - scx * 16))) = true
      then (cfg.convert
             (srcSec.Blocks (Y - offY cfg - srcCy * 16) (Z - offZ cfg - scz * 16)
               (X - offX cfg - scx * 16))
             (srcSec.Data (Y - offY cfg - srcCy * 16) (Z - offZ cfg - scz * 16)
               (X - offX cfg - scx * 16))).2
      else st.dst.dataAt X Y Z) := by
  unfold processSrcSection
  rw [hsec, hmask]
  dsimp only
  have hKpres : ∀ (s : OpState) (dc : Int × Int),
      (cfg.create = true ∨ s.dst.containsChunk (X / 16, Z / 16) = true) →
      (cfg.create = true ∨
        (processDestChunk cfg scx scz srcCy srcSec
          (fun y z x => selMask y z x &&
            makeSourceMaskTotal cfg.idLimit cfg.blocksToCopy (srcSec.Blocks y z x))
          (sectionDestBox cfg scx srcCy scz) dc s).1.dst.containsChunk (X / 16, Z / 16)
          = true) := by
    rintro s dc (hcr | hcc)
    · exact Or.inl hcr
    · exact Or.inr (processDestChunk_containsChunk_mono cfg scx scz srcCy srcSec _ _ dc s
        _ hcc)
  have hcov : ∀ mv : Bool,
      ((∃ dc ∈ (sectionDestBox cfg scx srcCy scz).chunkPositions,
          (sectionDestBox cfg scx srcCy scz).containsPt X Y Z = true ∧
          ((X / 16 : Int), (Z / 16 : Int)) = dc ∧ mv = true) ↔
        ((sectionDestBox cfg scx srcCy scz).containsPt X Y Z = true ∧ mv = true)) := by
    intro mv
    constructor
    · rintro ⟨dc, hmem, h1, h2, h3⟩
      exact ⟨h1, h3⟩
    · rintro ⟨h1, h3⟩
      exact ⟨(X / 16, Z / 16), mem_chunkPositions_of_containsPt h1, h1, rfl, h3⟩
  constructor
  · have hw := foldl_stepOf_write
      (fun s1 dc => processDestChunk cfg scx scz srcCy srcSec
        (fun y z x => selMask y z x &&
          makeSourceMaskTotal cfg.idLimit cfg.blocksToCopy (srcSec.Blocks y z x))
        (sectionDestBox cfg scx srcCy scz) dc s1)
      (fun s => s.dst.blockAt X Y Z)
      ((cfg.convert
        (srcSec.Blocks (Y - offY cfg - srcCy * 16) (Z - offZ cfg - scz * 16)
          (X - offX cfg - scx * 16))
        (srcSec.Data (Y - offY cfg - srcCy * 16) (Z - offZ cfg - scz * 16)
          (X - offX cfg - scx * 16))).1)
      (fun dc => (sectionDestBox cfg scx srcCy scz).containsPt X Y Z = true ∧
        ((X / 16 : Int), (Z / 16 : Int)) = dc ∧
        (selMask (Y - offY cfg - srcCy * 16) (Z - offZ cfg - scz * 16)
            (X - offX cfg - scx * 16) &&
          makeSourceMaskTotal cfg.idLimit cfg.blocksToCopy
            (srcSec.Blocks (Y - offY cfg - srcCy * 16) (Z - offZ cfg - scz * 16)
              (X - offX cfg - scx * 16))) = true)
      (fun s => cfg.create = true ∨ s.dst.containsChunk (X / 16, Z / 16) = true)
      hKpres
      (fun s dc hk => by
        refine ((processDestChunk_blockAt cfg scx scz srcCy srcSec _ _ dc s X Y Z).1).trans
          ?_
        by_cases hC : (sectionDestBox cfg scx srcCy scz).containsPt X Y Z = true ∧
            ((X / 16 : Int), (Z / 16 : Int)) = dc ∧
            (selMask (Y - offY cfg - srcCy * 16) (Z - offZ cfg - scz * 16)
                (X - offX cfg - scx * 16) &&
              makeSourceMaskTotal cfg.idLimit cfg.blocksToCopy
                (srcSec.Blocks (Y - offY cfg - srcCy * 16) (Z - offZ cfg - scz * 16)
                  (X - offX cfg - scx * 16))) = true
        · obtain ⟨h1, h2, h3⟩ := hC
          have hor : cfg.create = true ∨ s.dst.containsChunk dc = true := by
            rcases hk with hcr | hcc
            · exact Or.inl hcr
            · rw [← h2]
              exact Or.inr hcc
          rw [if_pos ⟨hor, h1, h2, h3⟩, if_pos ⟨h1, h2, h3⟩]
        · rw [if_neg (fun hcond => hC ⟨hcond.2.1, hcond.2.2.1, hcond.2.2.2⟩),
              if_neg hC])
      (sectionDestBox cfg scx srcCy scz).chunkPositions (st, []) Hd
    refine hw.trans ?_
    by_cases hex : ∃ dc ∈ (sectionDestBox cfg scx srcCy scz).chunkPositions,
        (sectionDestBox cfg scx srcCy scz).containsPt X Y Z = true ∧
        ((X / 16 : Int), (Z / 16 : Int)) = dc ∧
        (selMask (Y - offY cfg - srcCy * 16) (Z - offZ cfg - scz * 16)
            (X - offX cfg - scx * 16) &&
          makeSourceMaskTotal cfg.idLimit cfg.blocksToCopy
            (srcSec.Blocks (Y - offY cfg - srcCy * 16) (Z - offZ cfg - scz * 16)
              (X - offX cfg - scx * 16))) = true
    · rw [if_pos hex, if_pos ((hcov _).mp hex)]
    · rw [if_neg hex, if_neg (fun hcond => hex ((hcov _).mpr hcond))]
  · have hw := foldl_stepOf_write
      (fun s1 dc => processDestChunk cfg scx scz srcCy srcSec
        (fun y z x => selMask y z x &&
          makeSourceMaskTotal cfg.idLimit cfg.blocksToCopy (srcSec.Blocks y z x))
        (sectionDestBox cfg scx srcCy scz) dc s1)
      (fun s => s.dst.dataAt X Y Z)
      ((cfg.convert
        (srcSec.Blocks (Y - offY cfg - srcCy * 16) (Z - offZ cfg - scz * 16)
          (X - offX cfg - scx * 16))
        (srcSec.Data (Y - offY cfg - srcCy * 16) (Z - offZ cfg - scz * 16)
          (X - offX cfg - scx * 16))).2)
      (fun dc => (sectionDestBox cfg scx srcCy scz).containsPt X Y Z = true ∧
        ((X / 16 : Int), (Z / 16 : Int)) = dc ∧
        (selMask (Y - offY cfg - srcCy * 16) (Z - offZ cfg - scz * 16)
            (X - offX cfg - scx * 16) &&
          makeSourceMaskTotal cfg.idLimit cfg.blocksToCopy
            (srcSec.Blocks (Y - offY cfg - srcCy * 16) (Z - offZ cfg - scz * 16)
              (X - offX cfg - scx * 16))) = true)
      (fun s => cfg.create = true ∨ s.dst.containsChunk (X / 16, Z / 16) = true)
      hKpres
      (fun s dc hk => by
        refine ((processDestChunk_blockAt cfg scx scz srcCy srcSec _ _ dc s X Y Z).2).trans
          ?_
        by_cases hC : (sectionDestBox cfg scx srcCy scz).containsPt X Y Z = true ∧
            ((X / 16 : Int), (Z / 16 : Int)) = dc ∧
            (selMask (Y - offY cfg - srcCy * 16) (Z - offZ cfg - scz * 16)
                (X - offX cfg - scx * 16) &&
              makeSourceMaskTotal cfg.idLimit cfg.blocksToCopy
                (srcSec.Blocks (Y - offY cfg - srcCy * 16) (Z - offZ cfg - scz * 16)
                  (X - offX cfg - scx * 16))) = true
        · obtain ⟨h1, h2, h3⟩ := hC
          have hor : cfg.create = true ∨ s.dst.containsChunk dc = true := by
            rcases hk with hcr | hcc
            · exact Or.inl hcr
            · rw [← h2]
              exact Or.inr hcc
          rw [if_pos ⟨hor, h1, h2, h3⟩, if_pos ⟨h1, h2, h3⟩]
        · rw [if_neg (fun hcond => hC ⟨hcond.2.1, hcond.2.2.1, hcond.2.2.2⟩),
              if_neg hC])
      (sectionDestBox cfg scx srcCy scz).chunkPositions (st, []) Hd
    refine hw.trans ?_
    by_cases hex : ∃ dc ∈ (sectionDestBox cfg scx srcCy scz).chunkPositions,
        (sectionDestBox cfg scx srcCy scz).containsPt X Y Z = true ∧
        ((X / 16 : Int), (Z / 16 : Int)) = dc ∧
        (selMask (Y - offY cfg - srcCy * 16) (Z - offZ cfg - scz * 16)
            (X - offX cfg - scx * 16) &&
          makeSourceMaskTotal cfg.idLimit cfg.blocksToCopy
            (srcSec.Blocks (Y - offY cfg - srcCy * 16) (Z - offZ cfg - scz * 16)
              (X - offX cfg - scx * 16))) = true
    · rw [if_pos hex, if_pos ((hcov _).mp hex)]
    · rw [if_neg hex, if_neg (fun hcond => hex ((hcov _).mpr hcond))]

theorem section_mask_some_val (sel : Selection) (scx srcCy scz : Int)
    (M : Int → Int → Int → Bool) (h : sel.section_mask scx srcCy scz = some M) :
    M = fun y z x => sel.contains (scx * 16 + x) (srcCy * 16 + y) (scz * 16 + z) := by
  unfold Selection.section_mask at h
  split at h
  · cases h
  · cases h
    rfl

theorem processSrcSection_containsChunk_mono (cfg : CopyCfg) (scx scz : Int)
    (srcChunk : ChunkData) (hasBiomes : Bool) (srcCy : Int) (st : OpState)
    (bm : Int → Int → Bool) (c2 : Int × Int) (h : st.dst.containsChunk c2 = true) :
    (processSrcSection cfg scx scz srcChunk hasBiomes srcCy st bm).1.dst.containsChunk c2
      = true := by
  unfold processSrcSection
  cases hsec : srcChunk.getSection srcCy with
  | none => exact h
  | some srcSec =>
    cases hmask : cfg.sel.section_mask scx srcCy scz with
    | none => exact h
    | some selMask =>
      dsimp only
      exact foldl_stepOf_pres _ (fun s => s.dst.containsChunk c2 = true)
        (fun s dc hp =>
          processDestChunk_containsChunk_mono cfg scx scz srcCy srcSec _ _ dc s c2 hp)
        _ _ h

theorem processSrcSection_sectionSome_mono (cfg : CopyCfg) (scx scz : Int)
    (srcChunk : ChunkData) (hasBiomes : Bool) (srcCy : Int) (st : OpState)
    (bm : Int → Int → Bool) (c2 : Int × Int) (cy2 : Int)
    (h : st.dst.sectionSome c2 cy2 = true) :
    (processSrcSection cfg scx scz srcChunk hasBiomes srcCy st bm).1.dst.sectionSome c2 cy2
      = true := by
  unfold processSrcSection
  cases hsec : srcChunk.getSection srcCy with
  | none => exact h
  | some srcSec =>
    cases hmask : cfg.sel.section_mask scx srcCy scz with
    | none => exact h
    | some selMask =>
      dsimp only
      exact foldl_stepOf_pres _ (fun s => s.dst.sectionSome c2 cy2 = true)
        (fun s dc hp =>
          processDestChunk_sectionSome_mono cfg scx scz srcCy srcSec _ _ dc s c2 cy2 hp)
        _ _ h

theorem processSrcSection_sectionSome_created (cfg : CopyCfg) (scx scz : Int)
    (srcChunk : ChunkData) (hasBiomes : Bool) (srcCy : Int) (st : OpState)
    (bm : Int → Int → Bool) (srcSec : Sect)
    (hsec : srcChunk.getSection srcCy = some srcSec)
    (selMask : Int → Int → Int → Bool)
    (hmask : cfg.sel.section_mask scx srcCy scz = some selMask)
    (X Y Z : Int)
    (Hd : cfg.create = true ∨ st.dst.containsChunk (X / 16, Z / 16) = true)
    (hp : (sectionDestBox cfg scx srcCy scz).containsPt X Y Z = true) :
    (processSrcSection cfg scx scz srcChunk hasBiomes srcCy st bm).1.dst.sectionSome
      (X / 16, Z / 16) (Y / 16) = true := by
  unfold processSrcSection
  rw [hsec, hmask]
  dsimp only
  refine foldl_stepOf_even _
    (fun s => s.dst.sectionSome (X / 16, Z / 16) (Y / 16) = true)
    (fun s dc hp2 =>
      processDestChunk_sectionSome_mono cfg scx scz srcCy srcSec _ _ dc s _ _ hp2)
    (fun s => cfg.create = true ∨ s.dst.containsChunk (X / 16, Z / 16) = true)
    (fun s dc hk => by
      rcases hk with hcr | hcc
      · exact Or.inl hcr
      · exact Or.inr (processDestChunk_containsChunk_mono cfg scx scz srcCy srcSec _ _ dc
          s _ hcc))
    (fun dc => dc = ((X / 16 : Int), (Z / 16 : Int)))
    (fun s dc hk hca => by
      subst hca
      exact processDestChunk_sectionSome_created cfg scx scz srcCy srcSec _ _ _ s X Y Z hk
        hp rfl)
    (sectionDestBox cfg scx srcCy scz).chunkPositions (st, []) Hd
    ⟨(X / 16, Z / 16), mem_chunkPositions_of_containsPt hp, rfl⟩

theorem processSrcSection_blockAt_out (cfg : CopyCfg) (scx scz : Int)
    (srcChunk : ChunkData) (hasBiomes : Bool) (srcCy : Int) (st : OpState)
    (bm : Int → Int → Bool) (srcSec : Sect)
    (hsec : srcChunk.getSection srcCy = some srcSec)
    (selMask : Int → Int → Int → Bool)
    (hmask : cfg.sel.section_mask scx srcCy scz = some selMask)
    (X Y Z : Int)
    (hout : ¬((sectionDestBox cfg scx srcCy scz).containsPt X Y Z = true ∧
      (selMask (Y - offY cfg - srcCy * 16) (Z - offZ cfg - scz * 16)
          (X - offX cfg - scx * 16) &&
        makeSourceMaskTotal cfg.idLimit cfg.blocksToCopy
          (srcSec.Blocks (Y - offY cfg - srcCy * 16) (Z - offZ cfg - scz * 16)
            (X - offX cfg - scx * 16))) = true)) :
    ((processSrcSection cfg scx scz srcChunk hasBiomes srcCy st bm).1.dst.blockAt X Y Z =
      st.dst.blockAt X Y Z) ∧
    ((processSrcSection cfg scx scz srcChunk hasBiomes srcCy st bm).1.dst.dataAt X Y Z =
      st.dst.dataAt X Y Z) := by
  unfold processSrcSection
  rw [hsec, hmask]
  dsimp only
  constructor
  · exact foldl_stepOf_pres _ (fun s => s.dst.blockAt X Y Z = st.dst.blockAt X Y Z)
      (fun s dc hp => by
        refine ((processDestChunk_blockAt cfg scx scz srcCy srcSec _ _ dc s X Y Z).1).trans
          ?_
        rw [if_neg (fun hcond => hout ⟨hcond.2.1, hcond.2.2.2⟩)]
        exact hp)
      _ _ rfl
  · exact foldl_stepOf_pres _ (fun s => s.dst.dataAt X Y Z = st.dst.dataAt X Y Z)
      (fun s dc hp => by
        refine ((processDestChunk_blockAt cfg scx scz srcCy srcSec _ _ dc s X Y Z).2).trans
          ?_
        rw [if_neg (fun hcond => hout ⟨hcond.2.1, hcond.2.2.2⟩)]
        exact hp)
      _ _ rfl

theorem foldl_sectStepOf_write
    (g : OpState → (Int → Int → Bool) → Int → OpState × (Int → Int → Bool) × List Event)
    (R : OpState → Nat) (V : Nat) (C : Int → Prop) [DecidablePred C]
    (K : OpState → Prop) (hK : ∀ s bm cy, K s → K (g s bm cy).1)
    (hcell : ∀ s bm cy, K s → R (g s bm cy).1 = if C cy then V else R s) :
    ∀ (L : List Int) (acc : OpState × (Int → Int → Bool) × List Event), K acc.1 →
      R (L.foldl (sectStepOf g) acc).1 = if ∃ a ∈ L, C a then V else R acc.1 := by
  intro L
  induction L with
  | nil =>
    intro acc hk
    rw [if_neg]
    · rfl
    · rintro ⟨a, ha, _⟩
      cases ha
  | cons a L2 ih =>
    intro acc hk
    rw [List.foldl_cons]
    have hk2 : K (sectStepOf g acc a).1 := hK _ _ _ hk
    rw [ih _ hk2]
    have hstep : (sectStepOf g acc a).1 = (g acc.1 acc.2.1 a).1 := rfl
    rw [hstep, hcell _ _ _ hk]
    by_cases hca : C a
    · rw [if_pos hca]
      by_cases hex : ∃ x ∈ L2, C x
      · rw [if_pos hex, if_pos ⟨a, List.mem_cons_self a L2, hca⟩]
      · rw [if_neg hex, if_pos ⟨a, List.mem_cons_self a L2, hca⟩]
    · rw [if_neg hca]
      by_cases hex : ∃ x ∈ L2, C x
      · rw [if_pos hex]
        obtain ⟨x, hx, hcx⟩ := hex
        rw [if_pos ⟨x, List.mem_cons_of_mem a hx, hcx⟩]
      · rw [if_neg hex, if_neg]
        rintro ⟨x, hx, hcx⟩
        rcases List.mem_cons.mp hx with rfl | hx2
        · exact hca hcx
        · exact hex ⟨x, hx2, hcx⟩

theorem foldl_sectStepOf_pres
    (g : OpState → (Int → Int → Bool) → Int → OpState × (Int → Int → Bool) × List Event)
    (P : OpState → Prop) (hmono : ∀ s bm cy, P s → P (g s bm cy).1) :
    ∀ (L : List Int) (acc : OpState × (Int → Int → Bool) × List Event), P acc.1 →
      P (L.foldl (sectStepOf g) acc).1 := by
  intro L
  induction L with
  | nil => intro acc h; exact h
  | cons a L2 ih =>
    intro acc h
    rw [List.foldl_cons]
    exact ih _ (hmono _ _ _ h)

theorem foldl_sectStepOf_even
    (g : OpState → (Int → Int → Bool) → Int → OpState × (Int → Int → Bool) × List Event)
    (P : OpState → Prop) (hmono : ∀ s bm cy, P s → P (g s bm cy).1)
    (K : OpState → Prop) (hK : ∀ s bm cy, K s → K (g s bm cy).1)
    (C : Int → Prop) (hset : ∀ s bm cy, K s → C cy → P (g s bm cy).1) :
    ∀ (L : List Int) (acc : OpState × (Int → Int → Bool) × List Event), K acc.1 →
      (∃ a ∈ L, C a) → P (L.foldl (sectStepOf g) acc).1 := by
  intro L
  induction L with
  | nil =>
    rintro acc hk ⟨a, ha, _⟩
    cases ha
  | cons a L2 ih =>
    rintro acc hk ⟨x, hx, hcx⟩
    rw [List.foldl_cons]
    rcases List.mem_cons.mp hx with rfl | hx2
    · exact foldl_sectStepOf_pres g P hmono L2 _ (hset _ _ _ hk hcx)
    · exact ih _ (hK _ _ _ hk) ⟨x, hx2, hcx⟩

theorem sectionDestBox_containsPt (cfg : CopyCfg) (scx srcCy scz X Y Z : Int) :
    (sectionDestBox cfg scx srcCy scz).containsPt X Y Z = true ↔
      ((X - offX cfg) / 16 = scx ∧ (Y - offY cfg) / 16 = srcCy ∧
       (Z - offZ cfg) / 16 = scz) := by
  simp only [sectionDestBox, SectionBox, Box.containsPt, decide_eq_true_eq]
  omega

theorem section_mask_none_vol (sel : Selection) (scx srcCy scz : Int)
    (h : sel.section_mask scx srcCy scz = none) :
    ((SectionBox scx srcCy scz).intersect sel.box).volume = 0 := by
  unfold Selection.section_mask at h
  split at h
  next hv => exact hv
  next hv => cases h

theorem blockAt_chunks_congr (d d2 : DimState) (h : d.chunks = d2.chunks) (X Y Z : Int) :
    (d.blockAt X Y Z = d2.blockAt X Y Z) ∧ (d.dataAt X Y Z = d2.dataAt X Y Z) := by
  unfold DimState.blockAt DimState.dataAt DimState.getChunkD
  rw [h]
  exact ⟨rfl, rfl⟩

theorem sectionSome_chunks_congr (d d2 : DimState) (h : d.chunks = d2.chunks)
    (c2 : Int × Int) (cy2 : Int) : d.sectionSome c2 cy2 = d2.sectionSome c2 cy2 := by
  unfold DimState.sectionSome DimState.getChunkD
  rw [h]

theorem containsChunk_chunks_congr (d d2 : DimState) (h : d.chunks = d2.chunks)
    (c2 : Int × Int) : d.containsChunk c2 = d2.containsChunk c2 := by
  unfold DimState.containsChunk
  rw [h]

theorem biomePhase_chunks (c : Int × Int) (srcChunk : ChunkData) (hasBiomes : Bool)
    (bm : Int → Int → Bool) (st : OpState) :
    (biomePhase c srcChunk hasBiomes bm st).1.dst.chunks = st.dst.chunks := by
  unfold biomePhase
  split
  · exact setBiomes_chunks _ _ _ _
  · rfl

theorem entityPhase_chunks (cfg : CopyCfg) (srcChunk : ChunkData) (st : OpState) :
    (entityPhase cfg srcChunk st).1.dst.chunks = st.dst.chunks := by
  unfold entityPhase
  split
  · exact foldl_addEntity_chunks _ _
  · rfl

theorem tilePhase_chunks (cfg : CopyCfg) (srcChunk : ChunkData) (st : OpState) :
    (tilePhase cfg srcChunk st).1.dst.chunks = st.dst.chunks :=
  foldl_addTileEntity_chunks _ _

theorem srcSec_vals_eq (s : DimState) (c : Int × Int) (cy : Int) (srcSec : Sect)
    (hsec : (s.getChunkD c).getSection cy = some srcSec)
    (qx qy qz : Int) (hqx : qx / 16 = c.1) (hqy : qy / 16 = cy) (hqz : qz / 16 = c.2) :
    (srcSec.Blocks (qy - cy * 16) (qz - c.2 * 16) (qx - c.1 * 16) = s.blockAt qx qy qz) ∧
    (srcSec.Data (qy - cy * 16) (qz - c.2 * 16) (qx - c.1 * 16) = s.dataAt qx qy qz) := by
  unfold DimState.blockAt DimState.dataAt
  have hc : ((qx / 16 : Int), (qz / 16 : Int)) = c := by rw [hqx, hqz]
  rw [hc, hqy]
  unfold ChunkData.getSectionD
  rw [hsec]
  have e1 : (qy % 16 : Int) = qy - cy * 16 := by omega
  have e2 : (qz % 16 : Int) = qz - c.2 * 16 := by omega
  have e3 : (qx % 16 : Int) = qx - c.1 * 16 := by omega
  rw [e1, e2, e3]
  exact ⟨rfl, rfl⟩

theorem selMask_world (sel : Selection) (scx srcCy scz : Int)
    (M : Int → Int → Int → Bool) (h : sel.section_mask scx srcCy scz = some M)
    (qx qy qz : Int) :
    M (qy - srcCy * 16) (qz - scz * 16) (qx - scx * 16) = sel.contains qx qy qz := by
  rw [section_mask_some_val sel scx srcCy scz M h]
  have e1 : scx * 16 + (qx - scx * 16) = qx := by ring
  have e2 : srcCy * 16 + (qy - srcCy * 16) = qy := by ring
  have e3 : scz * 16 + (qz - scz * 16) = qz := by ring
  show sel.contains (scx * 16 + (qx - scx * 16)) (srcCy * 16 + (qy - srcCy * 16))
      (scz * 16 + (qz - scz * 16)) = _
  rw [e1, e2, e3]

theorem processChunkBody_blockAt (cfg : CopyCfg) (st : OpState) (c : Int × Int)
    (X Y Z : Int)
    (Hd : cfg.create = true ∨ st.dst.containsChunk (X / 16, Z / 16) = true)
    (Hpres : cfg.sel.contains (X - offX cfg) (Y - offY cfg) (Z - offZ cfg) = true →
      (((X - offX cfg) / 16 : Int), ((Z - offZ cfg) / 16 : Int)) = c →
      ((st.src.getChunkD c).getSection ((Y - offY cfg) / 16)).isSome = true) :
    ((processChunkBody cfg st c).1.dst.blockAt X Y Z =
      if (((X - offX cfg) / 16 : Int), ((Z - offZ cfg) / 16 : Int)) = c ∧
         cfg.sel.contains (X - offX cfg) (Y - offY cfg) (Z - offZ cfg) = true ∧
         makeSourceMaskTotal cfg.idLimit cfg.blocksToCopy
           (st.src.blockAt (X - offX cfg) (Y - offY cfg) (Z - offZ cfg)) = true
      then (cfg.convert (st.src.blockAt (X - offX cfg) (Y - offY cfg) (Z - offZ cfg))
             (st.src.dataAt (X - offX cfg) (Y - offY cfg) (Z - offZ cfg))).1
      else st.dst.blockAt X Y Z) ∧
    ((processChunkBody cfg st c).1.dst.dataAt X Y Z =
      if (((X - offX cfg) / 16 : Int), ((Z - offZ cfg) / 16 : Int)) = c ∧
         cfg.sel.contains (X - offX cfg) (Y - offY cfg) (Z - offZ cfg) = true ∧
         makeSourceMaskTotal cfg.idLimit cfg.blocksToCopy
           (st.src.blockAt (X - offX cfg) (Y - offY cfg) (Z - offZ cfg)) = true
      then (cfg.convert (st.src.blockAt (X - offX cfg) (Y - offY cfg) (Z - offZ cfg))
             (st.src.dataAt (X - offX cfg) (Y - offY cfg) (Z - offZ cfg))).2
      else st.dst.dataAt X Y Z) := by
  dsimp only [processChunkBody]
  have hcov : (∃ cy ∈ (st.src.getChunkD c).sectionPositions,
        (sectionDestBox cfg c.1 cy c.2).containsPt X Y Z = true ∧
        cfg.sel.contains (X - offX cfg) (Y - offY cfg) (Z - offZ cfg) = true ∧
        makeSourceMaskTotal cfg.idLimit cfg.blocksToCopy
          (st.src.blockAt (X - offX cfg) (Y - offY cfg) (Z - offZ cfg)) = true) ↔
      ((((X - offX cfg) / 16 : Int), ((Z - offZ cfg) / 16 : Int)) = c ∧
        cfg.sel.contains (X - offX cfg) (Y - offY cfg) (Z - offZ cfg) = true ∧
        makeSourceMaskTotal cfg.idLimit cfg.blocksToCopy
          (st.src.blockAt (X - offX cfg) (Y - offY cfg) (Z - offZ cfg)) = true) := by
    constructor
    · rintro ⟨cy, hmem, h1, h2, h3⟩
      obtain ⟨ha, hb, hc2⟩ := (sectionDestBox_containsPt cfg c.1 cy c.2 X Y Z).mp h1
      exact ⟨by rw [ha, hc2], h2, h3⟩
    · rintro ⟨howner, h2, h3⟩
      have hsome := Hpres h2 howner
      refine ⟨(Y - offY cfg) / 16, ?_, ?_, h2, h3⟩
      · exact (alookup_isSome_iff_mem _ _).mp hsome
      · refine (sectionDestBox_containsPt cfg c.1 _ c.2 X Y Z).mpr
          ⟨congrArg Prod.fst howner, rfl, congrArg Prod.snd howner⟩
  have hKpres : ∀ (s : OpState) (bm : Int → Int → Bool) (cy : Int),
      (cfg.create = true ∨ s.dst.containsChunk (X / 16, Z / 16) = true) →
      (cfg.create = true ∨
        (processSrcSection cfg c.1 c.2 (st.src.getChunkD c)
          (cfg.biomes && (st.src.getChunkD c).Biomes.isSome) cy s bm).1.dst.containsChunk
          (X / 16, Z / 16) = true) := by
    rintro s bm cy (hcr | hcc)
    · exact Or.inl hcr
    · exact Or.inr (processSrcSection_containsChunk_mono cfg c.1 c.2 _ _ cy s bm _ hcc)
  have hchain : (tilePhase cfg (st.src.getChunkD c)
      (entityPhase cfg (st.src.getChunkD c)
        (biomePhase c (st.src.getChunkD c)
          (cfg.biomes && (st.src.getChunkD c).Biomes.isSome)
          ((List.foldl (sectStepOf fun s1 bm cy =>
              processSrcSection cfg c.1 c.2 (st.src.getChunkD c)
                (cfg.biomes && (st.src.getChunkD c).Biomes.isSome) cy s1 bm)
            (st, fun _ _ => false, []) (st.src.getChunkD c).sectionPositions).2.1)
          ((List.foldl (sectStepOf fun s1 bm cy =>
              processSrcSection cfg c.1 c.2 (st.src.getChunkD c)
                (cfg.biomes && (st.src.getChunkD c).Biomes.isSome) cy s1 bm)
            (st, fun _ _ => false, []) (st.src.getChunkD c).sectionPositions).1)).1).1).1.dst.chunks
      = (List.foldl (sectStepOf fun s1 bm cy =>
              processSrcSection cfg c.1 c.2 (st.src.getChunkD c)
                (cfg.biomes && (st.src.getChunkD c).Biomes.isSome) cy s1 bm)
            (st, fun _ _ => false, []) (st.src.getChunkD c).sectionPositions).1.dst.chunks :=
    (tilePhase_chunks _ _ _).trans ((entityPhase_chunks _ _ _).trans (biomePhase_chunks _ _ _ _ _))
  constructor
  · refine ((blockAt_chunks_congr _ _ hchain X Y Z).1).trans ?_
    have hw := foldl_sectStepOf_write
      (fun s1 bm cy => processSrcSection cfg c.1 c.2 (st.src.getChunkD c)
        (cfg.biomes && (st.src.getChunkD c).Biomes.isSome) cy s1 bm)
      (fun s => s.dst.blockAt X Y Z)
      ((cfg.convert (st.src.blockAt (X - offX cfg) (Y - offY cfg) (Z - offZ cfg))
        (st.src.dataAt (X - offX cfg) (Y - offY cfg) (Z - offZ cfg))).1)
      (fun cy => (sectionDestBox cfg c.1 cy c.2).containsPt X Y Z = true ∧
        cfg.sel.contains (X - offX cfg) (Y - offY cfg) (Z - offZ cfg) = true ∧
        makeSourceMaskTotal cfg.idLimit cfg.blocksToCopy
          (st.src.blockAt (X - offX cfg) (Y - offY cfg) (Z - offZ cfg)) = true)
      (fun s => cfg.create = true ∨ s.dst.containsChunk (X / 16, Z / 16) = true)
      hKpres
      (fun s bm cy hk => by
        beta_reduce
        cases hsec2 : (st.src.getChunkD c).getSection cy with
        | none =>
          rw [processSrcSection_sec_none cfg c.1 c.2 _ _ cy s bm hsec2]
          rw [if_neg]
          rintro ⟨h1, h2, h3⟩
          obtain ⟨ha, hb, hc2⟩ := (sectionDestBox_containsPt cfg c.1 cy c.2 X Y Z).mp h1
          have := Hpres h2 (by rw [ha, hc2])
          rw [hb] at this
          rw [hsec2] at this
          cases this
        | some srcSec =>
          cases hmask2 : cfg.sel.section_mask c.1 cy c.2 with
          | none =>
            rw [processSrcSection_mask_none cfg c.1 c.2 _ _ cy s bm srcSec hsec2 hmask2]
            rw [if_neg]
            rintro ⟨h1, h2, h3⟩
            obtain ⟨ha, hb, hc2⟩ := (sectionDestBox_containsPt cfg c.1 cy c.2 X Y Z).mp h1
            have hin : ((SectionBox c.1 cy c.2).intersect cfg.sel.box).containsPt
                (X - offX cfg) (Y - offY cfg) (Z - offZ cfg) = true := by
              refine containsPt_intersect_iff.mpr ⟨?_, cfg.sel.contains_sub _ _ _ h2⟩
              exact (containsPt_SectionBox_iff).mpr ⟨ha, hb, hc2⟩
            have hv := volume_pos_of_containsPt hin
            have hz := section_mask_none_vol cfg.sel c.1 cy c.2 hmask2
            omega
          | some M =>
            refine ((processSrcSection_blockAt cfg c.1 c.2 _ _ cy s bm srcSec hsec2 M
              hmask2 X Y Z hk).1).trans ?_
            by_cases hcp : (sectionDestBox cfg c.1 cy c.2).containsPt X Y Z = true
            · obtain ⟨ha, hb, hc2⟩ :=
                (sectionDestBox_containsPt cfg c.1 cy c.2 X Y Z).mp hcp
              obtain ⟨hBv, hDv⟩ := srcSec_vals_eq st.src c cy srcSec hsec2
                (X - offX cfg) (Y - offY cfg) (Z - offZ cfg) ha hb hc2
              rw [selMask_world cfg.sel c.1 cy c.2 M hmask2
                  (X - offX cfg) (Y - offY cfg) (Z - offZ cfg), hBv, hDv]
              by_cases h2 : cfg.sel.contains (X - offX cfg) (Y - offY cfg)
                  (Z - offZ cfg) = true
              · by_cases h3 : makeSourceMaskTotal cfg.idLimit cfg.blocksToCopy
                    (st.src.blockAt (X - offX cfg) (Y - offY cfg) (Z - offZ cfg)) = true
                · rw [if_pos ⟨hcp, by rw [h2, h3]; rfl⟩, if_pos ⟨hcp, h2, h3⟩]
                · rw [if_neg (fun h => h3 ((Bool.and_eq_true _ _).mp h.2).2),
                      if_neg (fun h => h3 h.2.2)]
              · rw [if_neg (fun h => h2 ((Bool.and_eq_true _ _).mp h.2).1),
                    if_neg (fun h => h2 h.2.1)]
            · rw [if_neg (fun h => hcp h.1), if_neg (fun h => hcp h.1)])
      (st.src.getChunkD c).sectionPositions (st, fun _ _ => false, []) Hd
    refine hw.trans ?_
    by_cases hex : ∃ cy ∈ (st.src.getChunkD c).sectionPositions,
        (sectionDestBox cfg c.1 cy c.2).containsPt X Y Z = true ∧
        cfg.sel.contains (X - offX cfg) (Y - offY cfg) (Z - offZ cfg) = true ∧
        makeSourceMaskTotal cfg.idLimit cfg.blocksToCopy
          (st.src.blockAt (X - offX cfg) (Y - offY cfg) (Z - offZ cfg)) = true
    · rw [if_pos hex, if_pos (hcov.mp hex)]
    · rw [if_neg hex, if_neg (fun hcond => hex (hcov.mpr hcond))]
  · refine ((blockAt_chunks_congr _ _ hchain X Y Z).2).trans ?_
    have hw := foldl_sectStepOf_write
      (fun s1 bm cy => processSrcSection cfg c.1 c.2 (st.src.getChunkD c)
        (cfg.biomes && (st.src.getChunkD c).Biomes.isSome) cy s1 bm)
      (fun s => s.dst.dataAt X Y Z)
      ((cfg.convert (st.src.blockAt (X - offX cfg) (Y - offY cfg) (Z - offZ cfg))
        (st.src.dataAt (X - offX cfg) (Y - offY cfg) (Z - offZ cfg))).2)
      (fun cy => (sectionDestBox cfg c.1 cy c.2).containsPt X Y Z = true ∧
        cfg.sel.contains (X - offX cfg) (Y - offY cfg) (Z - offZ cfg) = true ∧
        makeSourceMaskTotal cfg.idLimit cfg.blocksToCopy
          (st.src.blockAt (X - offX cfg) (Y - offY cfg) (Z - offZ cfg)) = true)
      (fun s => cfg.create = true ∨ s.dst.containsChunk (X / 16, Z / 16) = true)
      hKpres
      (fun s bm cy hk => by
        beta_reduce
        cases hsec2 : (st.src.getChunkD c).getSection cy with
        | none =>
          rw [processSrcSection_sec_none cfg c.1 c.2 _ _ cy s bm hsec2]
          rw [if_neg]
          rintro ⟨h1, h2, h3⟩
          obtain ⟨ha, hb, hc2⟩ := (sectionDestBox_containsPt cfg c.1 cy c.2 X Y Z).mp h1
          have := Hpres h2 (by rw [ha, hc2])
          rw [hb] at this
          rw [hsec2] at this
          cases this
        | some srcSec =>
          cases hmask2 : cfg.sel.section_mask c.1 cy c.2 with
          | none =>
            rw [processSrcSection_mask_none cfg c.1 c.2 _ _ cy s bm srcSec hsec2 hmask2]
            rw [if_neg]
            rintro ⟨h1, h2, h3⟩
            obtain ⟨ha, hb, hc2⟩ := (sectionDestBox_containsPt cfg c.1 cy c.2 X Y Z).mp h1
            have hin : ((SectionBox c.1 cy c.2).intersect cfg.sel.box).containsPt
                (X - offX cfg) (Y - offY cfg) (Z - offZ cfg) = true := by
              refine containsPt_intersect_iff.mpr ⟨?_, cfg.sel.contains_sub _ _ _ h2⟩
              exact (containsPt_SectionBox_iff).mpr ⟨ha, hb, hc2⟩
            have hv := volume_pos_of_containsPt hin
            have hz := section_mask_none_vol cfg.sel c.1 cy c.2 hmask2
            omega
          | some M =>
            refine ((processSrcSection_blockAt cfg c.1 c.2 _ _ cy s bm srcSec hsec2 M
              hmask2 X Y Z hk).2).trans ?_
            by_cases hcp : (sectionDestBox cfg c.1 cy c.2).containsPt X Y Z = true
            · obtain ⟨ha, hb, hc2⟩ :=
                (sectionDestBox_containsPt cfg c.1 cy c.2 X Y Z).mp hcp
              obtain ⟨hBv, hDv⟩ := srcSec_vals_eq st.src c cy srcSec hsec2
                (X - offX cfg) (Y - offY cfg) (Z - offZ cfg) ha hb hc2
              rw [selMask_world cfg.sel c.1 cy c.2 M hmask2
                  (X - offX cfg) (Y - offY cfg) (Z - offZ cfg), hBv, hDv]
              by_cases h2 : cfg.sel.contains (X - offX cfg) (Y - offY cfg)
                  (Z - offZ cfg) = true
              · by_cases h3 : makeSourceMaskTotal cfg.idLimit cfg.blocksToCopy
                    (st.src.blockAt (X - offX cfg) (Y - offY cfg) (Z - offZ cfg)) = true
                · rw [if_pos ⟨hcp, by rw [h2, h3]; rfl⟩, if_pos ⟨hcp, h2, h3⟩]
                · rw [if_neg (fun h => h3 ((Bool.and_eq_true _ _).mp h.2).2),
                      if_neg (fun h => h3 h.2.2)]
              · rw [if_neg (fun h => h2 ((Bool.and_eq_true _ _).mp h.2).1),
                    if_neg (fun h => h2 h.2.1)]
            · rw [if_neg (fun h => hcp h.1), if_neg (fun h => hcp h.1)])
      (st.src.getChunkD c).sectionPositions (st, fun _ _ => false, []) Hd
    refine hw.trans ?_
    by_cases hex : ∃ cy ∈ (st.src.getChunkD c).sectionPositions,
        (sectionDestBox cfg c.1 cy c.2).containsPt X Y Z = true ∧
        cfg.sel.contains (X - offX cfg) (Y - offY cfg) (Z - offZ cfg) = true ∧
        makeSourceMaskTotal cfg.idLimit cfg.blocksToCopy
          (st.src.blockAt (X - offX cfg) (Y - offY cfg) (Z - offZ cfg)) = true
    · rw [if_pos hex, if_pos (hcov.mp hex)]
    · rw [if_neg hex, if_neg (fun hcond => hex (hcov.mpr hcond))]

theorem phases_chunks (cfg : CopyCfg) (srcChunk : ChunkData) (c : Int × Int)
    (hb : Bool) (bm : Int → Int → Bool) (s : OpState) :
    (tilePhase cfg srcChunk
      (entityPhase cfg srcChunk (biomePhase c srcChunk hb bm s).1).1).1.dst.chunks =
      s.dst.chunks :=
  (tilePhase_chunks _ _ _).trans ((entityPhase_chunks _ _ _).trans
    (biomePhase_chunks _ _ _ _ _))

theorem getSection_none_of_not_containsChunk (d : DimState) (c : Int × Int) (cy : Int)
    (h : d.containsChunk c = false) : (d.getChunkD c).getSection cy = none := by
  unfold DimState.containsChunk at h
  unfold DimState.getChunkD
  cases hl : alookup d.chunks c with
  | none => rfl
  | some ch => rw [hl] at h; cases h

theorem processChunkBody_blockAt_out (cfg : CopyCfg) (st : OpState) (c : Int × Int)
    (X Y Z : Int)
    (hout : ¬((((X - offX cfg) / 16 : Int), ((Z - offZ cfg) / 16 : Int)) = c ∧
      cfg.sel.contains (X - offX cfg) (Y - offY cfg) (Z - offZ cfg) = true ∧
      makeSourceMaskTotal cfg.idLimit cfg.blocksToCopy
        (st.src.blockAt (X - offX cfg) (Y - offY cfg) (Z - offZ cfg)) = true)) :
    ((processChunkBody cfg st c).1.dst.blockAt X Y Z = st.dst.blockAt X Y Z) ∧
    ((processChunkBody cfg st c).1.dst.dataAt X Y Z = st.dst.dataAt X Y Z) := by
  dsimp only [processChunkBody]
  have hfold := foldl_sectStepOf_pres
    (fun s1 bm cy => processSrcSection cfg c.1 c.2 (st.src.getChunkD c)
      (cfg.biomes && (st.src.getChunkD c).Biomes.isSome) cy s1 bm)
    (fun s => s.dst.blockAt X Y Z = st.dst.blockAt X Y Z ∧
      s.dst.dataAt X Y Z = st.dst.dataAt X Y Z)
    (fun s bm cy hp => by
      beta_reduce
      cases hsec2 : (st.src.getChunkD c).getSection cy with
      | none =>
        rw [processSrcSection_sec_none cfg c.1 c.2 _ _ cy s bm hsec2]
        exact hp
      | some srcSec =>
        cases hmask2 : cfg.sel.section_mask c.1 cy c.2 with
        | none =>
          rw [processSrcSection_mask_none cfg c.1 c.2 _ _ cy s bm srcSec hsec2 hmask2]
          exact hp
        | some M =>
          have hout2 : ¬((sectionDestBox cfg c.1 cy c.2).containsPt X Y Z = true ∧
              (M (Y - offY cfg - cy * 16) (Z - offZ cfg - c.2 * 16)
                  (X - offX cfg - c.1 * 16) &&
                makeSourceMaskTotal cfg.idLimit cfg.blocksToCopy
                  (srcSec.Blocks (Y - offY cfg - cy * 16) (Z - offZ cfg - c.2 * 16)
                    (X - offX cfg - c.1 * 16))) = true) := by
            rintro ⟨hcp, hmm⟩
            obtain ⟨ha, hb, hc2⟩ := (sectionDestBox_containsPt cfg c.1 cy c.2 X Y Z).mp hcp
            obtain ⟨hsm, htm⟩ := (Bool.and_eq_true _ _).mp hmm
            apply hout
            refine ⟨by rw [ha, hc2], ?_, ?_⟩
            · rw [← selMask_world cfg.sel c.1 cy c.2 M hmask2
                (X - offX cfg) (Y - offY cfg) (Z - offZ cfg)]
              exact hsm
            · rw [← (srcSec_vals_eq st.src c cy srcSec hsec2
                (X - offX cfg) (Y - offY cfg) (Z - offZ cfg) ha hb hc2).1]
              exact htm
          obtain ⟨hB, hD⟩ := processSrcSection_blockAt_out cfg c.1 c.2 _ _ cy s bm srcSec
            hsec2 M hmask2 X Y Z hout2
          exact ⟨hB.trans hp.1, hD.trans hp.2⟩)
    (st.src.getChunkD c).sectionPositions (st, fun _ _ => false, []) ⟨rfl, rfl⟩
  exact ⟨((blockAt_chunks_congr _ _ (phases_chunks cfg _ c _ _ _) X Y Z).1).trans hfold.1,
    ((blockAt_chunks_congr _ _ (phases_chunks cfg _ c _ _ _) X Y Z).2).trans hfold.2⟩

theorem processChunkBody_containsChunk_mono (cfg : CopyCfg) (st : OpState)
    (c : Int × Int) (c2 : Int × Int) (h : st.dst.containsChunk c2 = true) :
    (processChunkBody cfg st c).1.dst.containsChunk c2 = true := by
  dsimp only [processChunkBody]
  rw [containsChunk_chunks_congr _ _ (phases_chunks cfg _ c _ _ _)]
  exact foldl_sectStepOf_pres _ (fun s => s.dst.containsChunk c2 = true)
    (fun s bm cy hp => processSrcSection_containsChunk_mono cfg c.1 c.2 _ _ cy s bm c2 hp)
    _ _ h

theorem processChunkBody_sectionSome_mono (cfg : CopyCfg) (st : OpState)
    (c : Int × Int) (c2 : Int × Int) (cy2 : Int)
    (h : st.dst.sectionSome c2 cy2 = true) :
    (processChunkBody cfg st c).1.dst.sectionSome c2 cy2 = true := by
  dsimp only [processChunkBody]
  rw [sectionSome_chunks_congr _ _ (phases_chunks cfg _ c _ _ _)]
  exact foldl_sectStepOf_pres _ (fun s => s.dst.sectionSome c2 cy2 = true)
    (fun s bm cy hp => processSrcSection_sectionSome_mono cfg c.1 c.2 _ _ cy s bm c2 cy2 hp)
    _ _ h

theorem processChunkBody_sectionSome_created (cfg : CopyCfg) (st : OpState)
    (c : Int × Int) (X Y Z : Int)
    (Hd : cfg.create = true ∨ st.dst.containsChunk (X / 16, Z / 16) = true)
    (howner : ((((X - offX cfg) / 16 : Int)), (((Z - offZ cfg) / 16 : Int))) = c)
    (hcont : cfg.sel.contains (X - offX cfg) (Y - offY cfg) (Z - offZ cfg) = true)
    (hsec : ((st.src.getChunkD c).getSection ((Y - offY cfg) / 16)).isSome = true) :
    (processChunkBody cfg st c).1.dst.sectionSome (X / 16, Z / 16) (Y / 16) = true := by
  dsimp only [processChunkBody]
  rw [sectionSome_chunks_congr _ _ (phases_chunks cfg _ c _ _ _)]
  obtain ⟨srcSec, hsec2⟩ := Option.isSome_iff_exists.mp hsec
  have hcp : (sectionDestBox cfg c.1 ((Y - offY cfg) / 16) c.2).containsPt X Y Z = true :=
    (sectionDestBox_containsPt cfg c.1 _ c.2 X Y Z).mpr
      ⟨congrArg Prod.fst howner, rfl, congrArg Prod.snd howner⟩
  cases hmask2 : cfg.sel.section_mask c.1 ((Y - offY cfg) / 16) c.2 with
  | none =>
    exfalso
    have hin : ((SectionBox c.1 ((Y - offY cfg) / 16) c.2).intersect cfg.sel.box).containsPt
        (X - offX cfg) (Y - offY cfg) (Z - offZ cfg) = true := by
      refine containsPt_intersect_iff.mpr ⟨?_, cfg.sel.contains_sub _ _ _ hcont⟩
      refine (containsPt_SectionBox_iff).mpr
        ⟨congrArg Prod.fst howner, rfl, congrArg Prod.snd howner⟩
    have hv := volume_pos_of_containsPt hin
    have hz := section_mask_none_vol cfg.sel c.1 ((Y - offY cfg) / 16) c.2 hmask2
    omega
  | some M =>
    refine foldl_sectStepOf_even _
      (fun s => s.dst.sectionSome (X / 16, Z / 16) (Y / 16) = true)
      (fun s bm cy hp => by
        beta_reduce
        exact processSrcSection_sectionSome_mono cfg c.1 c.2 _ _ cy s bm _ _ hp)
      (fun s => cfg.create = true ∨ s.dst.containsChunk (X / 16, Z / 16) = true)
      (fun s bm cy hk => by
        beta_reduce
        rcases hk with hcr | hcc
        · exact Or.inl hcr
        · exact Or.inr (processSrcSection_containsChunk_mono cfg c.1 c.2 _ _ cy s bm _ hcc))
      (fun cy => cy = (Y - offY cfg) / 16)
      (fun s bm cy hk hca => by
        beta_reduce
        subst hca
        exact processSrcSection_sectionSome_created cfg c.1 c.2 _ _ _ s bm srcSec hsec2
          M hmask2 X Y Z hk hcp)
      (st.src.getChunkD c).sectionPositions (st, fun _ _ => false, []) Hd
      ⟨(Y - offY cfg) / 16, (alookup_isSome_iff_mem _ _).mp hsec, rfl⟩

theorem runChunks_keepV (cfg : CopyCfg) (total : Nat) (X Y Z : Int) (S : DimState)
    (hcont : cfg.sel.contains (X - offX cfg) (Y - offY cfg) (Z - offZ cfg) = true)
    (htm : makeSourceMaskTotal cfg.idLimit cfg.blocksToCopy
      (S.blockAt (X - offX cfg) (Y - offY cfg) (Z - offZ cfg)) = true)
    (Hpres : ((S.getChunkD (((X - offX cfg) / 16 : Int), ((Z - offZ cfg) / 16 : Int))).getSection
      ((Y - offY cfg) / 16)).isSome = true) :
    ∀ (L : List (Int × Int)) (st : OpState) (i : Nat), st.src = S →
    (cfg.create = true ∨ st.dst.containsChunk (X / 16, Z / 16) = true) →
    st.dst.blockAt X Y Z = (cfg.convert
      (S.blockAt (X - offX cfg) (Y - offY cfg) (Z - offZ cfg))
      (S.dataAt (X - offX cfg) (Y - offY cfg) (Z - offZ cfg))).1 →
    st.dst.dataAt X Y Z = (cfg.convert
      (S.blockAt (X - offX cfg) (Y - offY cfg) (Z - offZ cfg))
      (S.dataAt (X - offX cfg) (Y - offY cfg) (Z - offZ cfg))).2 →
    ((runChunks cfg total st i L).1.dst.blockAt X Y Z = (cfg.convert
      (S.blockAt (X - offX cfg) (Y - offY cfg) (Z - offZ cfg))
      (S.dataAt (X - offX cfg) (Y - offY cfg) (Z - offZ cfg))).1) ∧
    ((runChunks cfg total st i L).1.dst.dataAt X Y Z = (cfg.convert
      (S.blockAt (X - offX cfg) (Y - offY cfg) (Z - offZ cfg))
      (S.dataAt (X - offX cfg) (Y - offY cfg) (Z - offZ cfg))).2) := by
  intro L
  induction L with
  | nil => intro st i hsrc Hd h1 h2; exact ⟨h1, h2⟩
  | cons c rest ih =>
    intro st i hsrc Hd h1 h2
    dsimp only [runChunks]
    by_cases hc : st.src.containsChunk c = true
    · rw [if_pos hc]
      have hbody := processChunkBody_blockAt cfg st c X Y Z Hd
        (fun hcc ho => by rw [hsrc, ← ho]; exact Hpres)
      have hq1 : (processChunkBody cfg st c).1.dst.blockAt X Y Z = (cfg.convert
          (S.blockAt (X - offX cfg) (Y - offY cfg) (Z - offZ cfg))
          (S.dataAt (X - offX cfg) (Y - offY cfg) (Z - offZ cfg))).1 := by
        rw [hbody.1, hsrc]
        by_cases hcond : (((X - offX cfg) / 16 : Int), ((Z - offZ cfg) / 16 : Int)) =
            c ∧ cfg.sel.contains (X - offX cfg) (Y - offY cfg) (Z - offZ cfg) = true ∧
            makeSourceMaskTotal cfg.idLimit cfg.blocksToCopy
              (S.blockAt (X - offX cfg) (Y - offY cfg) (Z - offZ cfg)) = true
        · rw [if_pos hcond]
        · rw [if_neg hcond]; exact h1
      have hq2 : (processChunkBody cfg st c).1.dst.dataAt X Y Z = (cfg.convert
          (S.blockAt (X - offX cfg) (Y - offY cfg) (Z - offZ cfg))
          (S.dataAt (X - offX cfg) (Y - offY cfg) (Z - offZ cfg))).2 := by
        rw [hbody.2, hsrc]
        by_cases hcond : (((X - offX cfg) / 16 : Int), ((Z - offZ cfg) / 16 : Int)) =
            c ∧ cfg.sel.contains (X - offX cfg) (Y - offY cfg) (Z - offZ cfg) = true ∧
            makeSourceMaskTotal cfg.idLimit cfg.blocksToCopy
              (S.blockAt (X - offX cfg) (Y - offY cfg) (Z - offZ cfg)) = true
        · rw [if_pos hcond]
        · rw [if_neg hcond]; exact h2
      refine ih (processChunkBody cfg st c).1 (i + 1)
        (by rw [processChunkBody_src, hsrc]) ?_ hq1 hq2
      rcases Hd with hcr | hcc
      · exact Or.inl hcr
      · exact Or.inr (processChunkBody_containsChunk_mono cfg st c _ hcc)
    · rw [if_neg hc]
      exact ih st i hsrc Hd h1 h2

theorem runChunks_blockAt_out (cfg : CopyCfg) (total : Nat) (X Y Z : Int) (S : DimState)
    (hout : ¬(cfg.sel.contains (X - offX cfg) (Y - offY cfg) (Z - offZ cfg) = true ∧
      makeSourceMaskTotal cfg.idLimit cfg.blocksToCopy
        (S.blockAt (X - offX cfg) (Y - offY cfg) (Z - offZ cfg)) = true)) :
    ∀ (L : List (Int × Int)) (st : OpState) (i : Nat), st.src = S →
    ((runChunks cfg total st i L).1.dst.blockAt X Y Z = st.dst.blockAt X Y Z) ∧
    ((runChunks cfg total st i L).1.dst.dataAt X Y Z = st.dst.dataAt X Y Z) := by
  intro L
  induction L with
  | nil => intro st i hsrc; exact ⟨rfl, rfl⟩
  | cons c rest ih =>
    intro st i hsrc
    dsimp only [runChunks]
    by_cases hc : st.src.containsChunk c = true
    · rw [if_pos hc]
      have hbody := processChunkBody_blockAt_out cfg st c X Y Z
        (fun hcond => hout ⟨hcond.2.1, by rw [← hsrc]; exact hcond.2.2⟩)
      have hrec := ih (processChunkBody cfg st c).1 (i + 1)
        (by rw [processChunkBody_src, hsrc])
      exact ⟨hrec.1.trans hbody.1, hrec.2.trans hbody.2⟩
    · rw [if_neg hc]
      exact ih st i hsrc

theorem runChunks_blockAt_in (cfg : CopyCfg) (total : Nat) (X Y Z : Int) (S : DimState)
    (hcont : cfg.sel.contains (X - offX cfg) (Y - offY cfg) (Z - offZ cfg) = true)
    (htm : makeSourceMaskTotal cfg.idLimit cfg.blocksToCopy
      (S.blockAt (X - offX cfg) (Y - offY cfg) (Z - offZ cfg)) = true)
    (Hpres : ((S.getChunkD (((X - offX cfg) / 16 : Int), ((Z - offZ cfg) / 16 : Int))).getSection
      ((Y - offY cfg) / 16)).isSome = true) :
    ∀ (L : List (Int × Int)) (st : OpState) (i : Nat), st.src = S →
    (cfg.create = true ∨ st.dst.containsChunk (X / 16, Z / 16) = true) →
    ((((X - offX cfg) / 16 : Int), ((Z - offZ cfg) / 16 : Int)) ∈ L) →
    ((runChunks cfg total st i L).1.dst.blockAt X Y Z = (cfg.convert
      (S.blockAt (X - offX cfg) (Y - offY cfg) (Z - offZ cfg))
      (S.dataAt (X - offX cfg) (Y - offY cfg) (Z - offZ cfg))).1) ∧
    ((runChunks cfg total st i L).1.dst.dataAt X Y Z = (cfg.convert
      (S.blockAt (X - offX cfg) (Y - offY cfg) (Z - offZ cfg))
      (S.dataAt (X - offX cfg) (Y - offY cfg) (Z - offZ cfg))).2) := by
  intro L
  induction L with
  | nil => intro st i hsrc Hd hmem; cases hmem
  | cons c rest ih =>
    intro st i hsrc Hd hmem
    dsimp only [runChunks]
    by_cases hc : st.src.containsChunk c = true
    · rw [if_pos hc]
      have HdQ : cfg.create = true ∨
          (processChunkBody cfg st c).1.dst.containsChunk (X / 16, Z / 16) = true := by
        rcases Hd with hcr | hcc
        · exact Or.inl hcr
        · exact Or.inr (processChunkBody_containsChunk_mono cfg st c _ hcc)
      rcases List.mem_cons.mp hmem with howner | hmem2
      · have hbody := processChunkBody_blockAt cfg st c X Y Z Hd
          (fun hcc ho => by rw [hsrc, ← ho]; exact Hpres)
        have hcond : (((X - offX cfg) / 16 : Int), ((Z - offZ cfg) / 16 : Int)) =
            c ∧ cfg.sel.contains (X - offX cfg) (Y - offY cfg) (Z - offZ cfg) = true ∧
            makeSourceMaskTotal cfg.idLimit cfg.blocksToCopy
              (st.src.blockAt (X - offX cfg) (Y - offY cfg) (Z - offZ cfg)) = true :=
          ⟨howner, hcont, by rw [hsrc]; exact htm⟩
        have hq1 : (processChunkBody cfg st c).1.dst.blockAt X Y Z = (cfg.convert
            (S.blockAt (X - offX cfg) (Y - offY cfg) (Z - offZ cfg))
            (S.dataAt (X - offX cfg) (Y - offY cfg) (Z - offZ cfg))).1 := by
          rw [hbody.1, if_pos hcond, hsrc]
        have hq2 : (processChunkBody cfg st c).1.dst.dataAt X Y Z = (cfg.convert
            (S.blockAt (X - offX cfg) (Y - offY cfg) (Z - offZ cfg))
            (S.dataAt (X - offX cfg) (Y - offY cfg) (Z - offZ cfg))).2 := by
          rw [hbody.2, if_pos hcond, hsrc]
        exact runChunks_keepV cfg total X Y Z S hcont htm Hpres rest
          (processChunkBody cfg st c).1 (i + 1)
          (by rw [processChunkBody_src, hsrc]) HdQ hq1 hq2
      · exact ih (processChunkBody cfg st c).1 (i + 1)
          (by rw [processChunkBody_src, hsrc]) HdQ hmem2
    · rw [if_neg hc]
      rcases List.mem_cons.mp hmem with howner | hmem2
      · exfalso
        have hb : st.src.containsChunk c = false := by
          cases hb2 : st.src.containsChunk c with
          | false => rfl
          | true => exact absurd hb2 hc
        have hn := getSection_none_of_not_containsChunk st.src c ((Y - offY cfg) / 16) hb
        rw [hsrc, ← howner] at hn
        rw [hn] at Hpres
        cases Hpres
      · exact ih st i hsrc Hd hmem2

theorem runChunks_sectionSome_pres (cfg : CopyCfg) (total : Nat) (c2 : Int × Int)
    (cy2 : Int) : ∀ (L : List (Int × Int)) (st : OpState) (i : Nat),
    st.dst.sectionSome c2 cy2 = true →
    (runChunks cfg total st i L).1.dst.sectionSome c2 cy2 = true := by
  intro L
  induction L with
  | nil => intro st i h; exact h
  | cons c rest ih =>
    intro st i h
    dsimp only [runChunks]
    by_cases hc : st.src.containsChunk c = true
    · rw [if_pos hc]
      exact ih (processChunkBody cfg st c).1 (i + 1)
        (processChunkBody_sectionSome_mono cfg st c c2 cy2 h)
    · rw [if_neg hc]
      exact ih st i h

theorem runChunks_sectionSome (cfg : CopyCfg) (total : Nat) (X Y Z : Int) (S : DimState)
    (hcont : cfg.sel.contains (X - offX cfg) (Y - offY cfg) (Z - offZ cfg) = true)
    (Hpres : ((S.getChunkD (((X - offX cfg) / 16 : Int), ((Z - offZ cfg) / 16 : Int))).getSection
      ((Y - offY cfg) / 16)).isSome = true) :
    ∀ (L : List (Int × Int)) (st : OpState) (i : Nat), st.src = S →
    (cfg.create = true ∨ st.dst.containsChunk (X / 16, Z / 16) = true) →
    ((((X - offX cfg) / 16 : Int), ((Z - offZ cfg) / 16 : Int)) ∈ L) →
    (runChunks cfg total st i L).1.dst.sectionSome (X / 16, Z / 16) (Y / 16) = true := by
  intro L
  induction L with
  | nil => intro st i hsrc Hd hmem; cases hmem
  | cons c rest ih =>
    intro st i hsrc Hd hmem
    dsimp only [runChunks]
    by_cases hc : st.src.containsChunk c = true
    · rw [if_pos hc]
      have HdQ : cfg.create = true ∨
          (processChunkBody cfg st c).1.dst.containsChunk (X / 16, Z / 16) = true := by
        rcases Hd with hcr | hcc
        · exact Or.inl hcr
        · exact Or.inr (processChunkBody_containsChunk_mono cfg st c _ hcc)
      rcases List.mem_cons.mp hmem with howner | hmem2
      · refine runChunks_sectionSome_pres cfg total _ _ rest
          (processChunkBody cfg st c).1 (i + 1) ?_
        refine processChunkBody_sectionSome_created cfg st c X Y Z Hd howner hcont ?_
        rw [hsrc, ← howner]
        exact Hpres
      · exact ih (processChunkBody cfg st c).1 (i + 1)
          (by rw [processChunkBody_src, hsrc]) HdQ hmem2
    · rw [if_neg hc]
      rcases List.mem_cons.mp hmem with howner | hmem2
      · exfalso
        have hb : st.src.containsChunk c = false := by
          cases hb2 : st.src.containsChunk c with
          | false => rfl
          | true => exact absurd hb2 hc
        have hn := getSection_none_of_not_containsChunk st.src c ((Y - offY cfg) / 16) hb
        rw [hsrc, ← howner] at hn
        rw [hn] at Hpres
        cases Hpres
      · exact ih st i hsrc Hd hmem2

theorem ensureChunk_present (d : DimState) (c : Int × Int)
    (h : d.containsChunk c = true) : d.ensureChunk c = d := by
  unfold DimState.ensureChunk
  unfold DimState.containsChunk at h
  rw [if_pos h]

theorem processDestChunk_containsChunk_eq (cfg : CopyCfg) (scx scz srcCy : Int)
    (srcSec : Sect) (sourceMask : Int → Int → Int → Bool) (destBox : Box)
    (dc : Int × Int) (st : OpState) (hcr : cfg.create = false) (c2 : Int × Int) :
    (processDestChunk cfg scx scz srcCy srcSec sourceMask destBox dc st).1.dst.containsChunk
      c2 = st.dst.containsChunk c2 := by
  unfold processDestChunk
  split
  · rfl
  next hgd =>
    have hcc : st.dst.containsChunk dc = true := by
      cases hb : st.dst.containsChunk dc with
      | true => rfl
      | false => exact absurd (by rw [hcr, hb]; rfl) hgd
    rw [containsChunk_updateChunk]
    have hens : st.dst.ensureChunk dc = st.dst := ensureChunk_present st.dst dc hcc
    exact foldl_stepOf_pres _
      (fun s => s.dst.containsChunk c2 = st.dst.containsChunk c2)
      (fun s dcy hp =>
        (processDestCell_containsChunk cfg scx scz srcCy srcSec sourceMask destBox dc
          dcy s c2).trans hp)
      destBox.sectionPositions _ (by dsimp only; rw [hens])

theorem processSrcSection_containsChunk_eq (cfg : CopyCfg) (scx scz : Int)
    (srcChunk : ChunkData) (hasBiomes : Bool) (srcCy : Int) (st : OpState)
    (bm : Int → Int → Bool) (hcr : cfg.create = false) (c2 : Int × Int) :
    (processSrcSection cfg scx scz srcChunk hasBiomes srcCy st bm).1.dst.containsChunk c2
      = st.dst.containsChunk c2 := by
  unfold processSrcSection
  cases hsec : srcChunk.getSection srcCy with
  | none => rfl
  | some srcSec =>
    cases hmask : cfg.sel.section_mask scx srcCy scz with
    | none => rfl
    | some selMask =>
      dsimp only
      exact foldl_stepOf_pres _
        (fun s => s.dst.containsChunk c2 = st.dst.containsChunk c2)
        (fun s dc hp =>
          (processDestChunk_containsChunk_eq cfg scx scz srcCy srcSec _ _ dc s hcr
            c2).trans hp)
        _ _ rfl

theorem processChunkBody_containsChunk_eq (cfg : CopyCfg) (st : OpState)
    (c : Int × Int) (hcr : cfg.create = false) (c2 : Int × Int) :
    (processChunkBody cfg st c).1.dst.containsChunk c2 = st.dst.containsChunk c2 := by
  dsimp only [processChunkBody]
  rw [containsChunk_chunks_congr _ _ (phases_chunks cfg _ c _ _ _)]
  exact foldl_sectStepOf_pres _
    (fun s => s.dst.containsChunk c2 = st.dst.containsChunk c2)
    (fun s bm cy hp =>
      (processSrcSection_containsChunk_eq cfg c.1 c.2 _ _ cy s bm hcr c2).trans hp)
    _ _ rfl

theorem runChunks_containsChunk_eq (cfg : CopyCfg) (total : Nat)
    (hcr : cfg.create = false) (c2 : Int × Int) :
    ∀ (L : List (Int × Int)) (st : OpState) (i : Nat),
    (runChunks cfg total st i L).1.dst.containsChunk c2 = st.dst.containsChunk c2 := by
  intro L
  induction L with
  | nil => intro st i; rfl
  | cons c rest ih =>
    intro st i
    dsimp only [runChunks]
    by_cases hc : st.src.containsChunk c = true
    · rw [if_pos hc]
      exact (ih (processChunkBody cfg st c).1 (i + 1)).trans
        (processChunkBody_containsChunk_eq cfg st c hcr c2)
    · rw [if_neg hc]
      exact ih st i

theorem copyBlocksIter_fst (cfg : CopyCfg) (s d : DimState) :
    (copyBlocksIter cfg s d).1 =
      (runChunks cfg
        (Box.chunkPositions
          { ox := cfg.dpx, oy := cfg.dpy, oz := cfg.dpz
            sx := cfg.sel.box.sx, sy := cfg.sel.box.sy, sz := cfg.sel.box.sz }).length
        (initOp s d) 0 cfg.sel.box.chunkPositions).1 := by
  dsimp only [copyBlocksIter]
  split
  · rfl
  · rfl

/-- C1: for a copy operation run with no type allow-list, and any destination
voxel `(X, Y, Z)` whose source preimage has its chunk section present
whenever it is selected: if the preimage lies inside the selection's true
shape (the selection translated by the copy offset) and the destination
chunk exists or chunk creation is enabled, the voxel afterwards holds the
converted source block type and auxiliary data; and if the preimage lies
outside the true shape, the voxel holds its original pre-operation value
unconditionally (the write is a masked partial write, never a full-cell
replace). -/
theorem claim_C1 (cfg : CopyCfg) (s d : DimState)
    (hbtc : cfg.blocksToCopy = none) (X Y Z : Int)
    (Hpres : cfg.sel.contains (X - offX cfg) (Y - offY cfg) (Z - offZ cfg) = true →
      ((s.getChunkD (((X - offX cfg) / 16 : Int),
        ((Z - offZ cfg) / 16 : Int))).getSection ((Y - offY cfg) / 16)).isSome = true) :
    (cfg.sel.contains (X - offX cfg) (Y - offY cfg) (Z - offZ cfg) = true →
      (cfg.create = true ∨ d.containsChunk (X / 16, Z / 16) = true) →
      ((copyBlocksIter cfg s d).1.dst.blockAt X Y Z = (cfg.convert
          (s.blockAt (X - offX cfg) (Y - offY cfg) (Z - offZ cfg))
          (s.dataAt (X - offX cfg) (Y - offY cfg) (Z - offZ cfg))).1 ∧
       (copyBlocksIter cfg s d).1.dst.dataAt X Y Z = (cfg.convert
          (s.blockAt (X - offX cfg) (Y - offY cfg) (Z - offZ cfg))
          (s.dataAt (X - offX cfg) (Y - offY cfg) (Z - offZ cfg))).2)) ∧
    (cfg.sel.contains (X - offX cfg) (Y - offY cfg) (Z - offZ cfg) = false →
      ((copyBlocksIter cfg s d).1.dst.blockAt X Y Z = d.blockAt X Y Z ∧
       (copyBlocksIter cfg s d).1.dst.dataAt X Y Z = d.dataAt X Y Z)) := by
  constructor
  · intro hcont Hd
    rw [copyBlocksIter_fst]
    have htm : makeSourceMaskTotal cfg.idLimit cfg.blocksToCopy
        (s.blockAt (X - offX cfg) (Y - offY cfg) (Z - offZ cfg)) = true := by
      rw [hbtc]; rfl
    have hmem : ((((X - offX cfg) / 16 : Int), ((Z - offZ cfg) / 16 : Int))) ∈
        cfg.sel.box.chunkPositions :=
      mem_chunkPositions_of_containsPt (cfg.sel.contains_sub _ _ _ hcont)
    exact runChunks_blockAt_in cfg _ X Y Z s hcont htm (Hpres hcont)
      cfg.sel.box.chunkPositions (initOp s d) 0 rfl Hd hmem
  · intro hncont
    rw [copyBlocksIter_fst]
    have hout : ¬(cfg.sel.contains (X - offX cfg) (Y - offY cfg) (Z - offZ cfg) = true ∧
        makeSourceMaskTotal cfg.idLimit cfg.blocksToCopy
          (s.blockAt (X - offX cfg) (Y - offY cfg) (Z - offZ cfg)) = true) := by
      rintro ⟨h2, _⟩
      rw [hncont] at h2
      cases h2
    exact runChunks_blockAt_out cfg _ X Y Z s hout
      cfg.sel.box.chunkPositions (initOp s d) 0 rfl

/-- Witness for C1 at the concrete one-chunk run: the selected voxel at the
origin receives block type 5, and the voxel at `x = 20` (outside the
selection image) keeps its original value 0. -/
theorem claim_C1_witness :
    cfgC5.blocksToCopy = none ∧
    cfgC5.sel.contains (0 - offX cfgC5) (0 - offY cfgC5) (0 - offZ cfgC5) = true ∧
    (copyBlocksIter cfgC5 srcC5 emptyDim).1.dst.blockAt 0 0 0 = (cfgC5.convert
      (srcC5.blockAt (0 - offX cfgC5) (0 - offY cfgC5) (0 - offZ cfgC5))
      (srcC5.dataAt (0 - offX cfgC5) (0 - offY cfgC5) (0 - offZ cfgC5))).1 ∧
    cfgC5.sel.contains (20 - offX cfgC5) (0 - offY cfgC5) (0 - offZ cfgC5) = false ∧
    (copyBlocksIter cfgC5 srcC5 emptyDim).1.dst.blockAt 20 0 0 =
      emptyDim.blockAt 20 0 0 :=
  ⟨rfl, by decide,
    ((claim_C1 cfgC5 srcC5 emptyDim rfl 0 0 0 (fun _ => by decide)).1 (by decide)
      (Or.inl rfl)).1,
    by decide,
    ((claim_C1 cfgC5 srcC5 emptyDim rfl 20 0 0 (fun h => by exact absurd h (by decide))).2
      (by decide)).1⟩

/-- Copy configuration with chunk creation disabled (otherwise the C5/C1
one-voxel setup: unit selection at the origin, zero offset, no allow-list,
identity conversion, lighting off). -/
def cfgC10 : CopyCfg :=
  { sel := boxSel { ox := 0, oy := 0, oz := 0, sx := 1, sy := 1, sz := 1 }
    dpx := 0, dpy := 0, dpz := 0
    blocksToCopy := none, idLimit := 4096
    entities := false, create := false, biomes := false
    updateLights := LightMode.off
    convert := fun b d2 => (b, d2)
    brightness := fun _ => 0
    opacity := fun _ => 0 }

/-- Destination dimension owning chunk `(0, 0)` with no sections at all. -/
def dstC10 : DimState :=
  { chunks := [((0, 0),
      { sections := [], Entities := [], TileEntities := [], Biomes := none,
        dirty := false })]
    biomes := fun _ _ => 0, entities := [], tileEntities := [] }

/-- C10: with the chunk-creation flag disabled, the operation still creates
missing destination sections inside destination chunks that already exist:
for any voxel whose source preimage is selected and has its source section
present, if the destination chunk exists then the destination section exists
after the run (section fetch is always performed with creation enabled).
Only whole-chunk creation is guarded by the flag: with the flag disabled the
set of destination chunks is exactly preserved. -/
theorem claim_C10 (cfg : CopyCfg) (s d : DimState) (hcr : cfg.create = false) :
    (∀ X Y Z : Int,
      cfg.sel.contains (X - offX cfg) (Y - offY cfg) (Z - offZ cfg) = true →
      ((s.getChunkD (((X - offX cfg) / 16 : Int),
        ((Z - offZ cfg) / 16 : Int))).getSection ((Y - offY cfg) / 16)).isSome = true →
      d.containsChunk (X / 16, Z / 16) = true →
      (copyBlocksIter cfg s d).1.dst.sectionSome (X / 16, Z / 16) (Y / 16) = true) ∧
    (∀ c2 : Int × Int,
      (copyBlocksIter cfg s d).1.dst.containsChunk c2 = d.containsChunk c2) := by
  constructor
  · intro X Y Z hcont Hpres hcc
    rw [copyBlocksIter_fst]
    have hmem : ((((X - offX cfg) / 16 : Int), ((Z - offZ cfg) / 16 : Int))) ∈
        cfg.sel.box.chunkPositions :=
      mem_chunkPositions_of_containsPt (cfg.sel.contains_sub _ _ _ hcont)
    exact runChunks_sectionSome cfg _ X Y Z s hcont Hpres
      cfg.sel.box.chunkPositions (initOp s d) 0 rfl (Or.inr hcc) hmem
  · intro c2
    rw [copyBlocksIter_fst]
    exact runChunks_containsChunk_eq cfg _ hcr c2 cfg.sel.box.chunkPositions
      (initOp s d) 0

/-- Witness for C10 at the concrete run: the destination chunk `(0, 0)`
exists but has no section at height 0; with creation disabled the run still
materializes that section, while the absent chunk `(1, 1)` stays absent. -/
theorem claim_C10_witness :
    cfgC10.create = false ∧
    dstC10.sectionSome (0, 0) 0 = false ∧
    dstC10.containsChunk (0, 0) = true ∧
    (copyBlocksIter cfgC10 srcC5 dstC10).1.dst.sectionSome (0, 0) 0 = true ∧
    dstC10.containsChunk (1, 1) = false ∧
    (copyBlocksIter cfgC10 srcC5 dstC10).1.dst.containsChunk (1, 1) =
      dstC10.containsChunk (1, 1) :=
  ⟨rfl, by decide, by decide,
    (claim_C10 cfgC10 srcC5 dstC10 rfl).1 0 0 0 (by decide) (by decide) (by decide),
    by decide,
    (claim_C10 cfgC10 srcC5 dstC10 rfl).2 (1, 1)⟩

/-- Section holding a single type-5 block at locals `(y, z, x) = (2, 0, 0)`. -/
def sectC2 : Sect :=
  { Blocks := fun y z x => if y = 2 ∧ z = 0 ∧ x = 0 then 5 else 0
    Data := fun _ _ _ => 0 }

/-- Per-write lighting copy of a 1 by 3 by 1 column at the origin, zero
offset, identity conversion, brightness equal to the block id. -/
def cfgC2 : CopyCfg :=
  { sel := boxSel { ox := 0, oy := 0, oz := 0, sx := 1, sy := 3, sz := 1 }
    dpx := 0, dpy := 0, dpz := 0
    blocksToCopy := none, idLimit := 4096
    entities := false, create := true, biomes := false
    updateLights := LightMode.perWrite
    convert := fun b d2 => (b, d2)
    brightness := fun b => b
    opacity := fun _ => 0 }

/-- Source dimension for the C2 run: one chunk, one section, one type-5
block at world position `(x, y, z) = (0, 2, 0)`. -/
def srcC2 : DimState :=
  { chunks := [((0, 0),
      { sections := [(0, sectC2)], Entities := [], TileEntities := [],
        Biomes := none, dirty := false })]
    biomes := fun _ _ => 0, entities := [], tileEntities := [] }

/-- C2 (code bug, line 175): the only changed voxel of the concrete run is
the written world position `(x, y, z) = (0, 2, 0)` (block 0 becomes block 5,
so its brightness changes), hence the relight call the spec describes is
`relight [0] [2] [0]`; but `x, y, z = sourceMaskPart.nonzero()` unpacks the
`(y, z, x)`-ordered mask axes into the names `x, y, z`, so the code passes
`relight [2] [0] [0]` — the x-list holds the voxel's y coordinate, and the
triple `(2, 0, 0)` is not the changed voxel (it is not even in the
selection). -/
theorem claim_C2 :
    ((copyBlocksIter cfgC2 srcC2 emptyDim).1.dst.blockAt 0 2 0 = 5 ∧
     emptyDim.blockAt 0 2 0 = 0 ∧
     cfgC2.brightness 5 ≠ cfgC2.brightness 0 ∧
     cfgC2.sel.contains 0 2 0 = true ∧ cfgC2.sel.contains 2 0 0 = false) ∧
    ((copyBlocksIter cfgC2 srcC2 emptyDim).2.filter Event.isRelight =
      [Event.relight [2] [0] [0]]) ∧
    ¬((copyBlocksIter cfgC2 srcC2 emptyDim).2.filter Event.isRelight =
      [Event.relight [0] [2] [0]]) := by
  refine ⟨⟨by decide, by decide, by decide, by decide, by decide⟩, by decide, by decide⟩

/-- Selection whose true shape is the single voxel `(x, y, z) = (1, 0, 2)`
inside a 2 by 1 by 3 bounding box at the origin. -/
def selC3 : Selection :=
  { box := { ox := 0, oy := 0, oz := 0, sx := 2, sy := 1, sz := 3 }
    contains := fun x y z => decide (x = 1 ∧ y = 0 ∧ z = 2)
    contains_sub := fun x y z h => by
      simp only [Box.containsPt, decide_eq_true_eq] at h ⊢
      omega }

/-- Biome-copying configuration translating by +16 in x (destination point
`(16, 0, 0)`), chunk creation enabled, lighting off. -/
def cfgC3 : CopyCfg :=
  { sel := selC3
    dpx := 16, dpy := 0, dpz := 0
    blocksToCopy := none, idLimit := 4096
    entities := false, create := true, biomes := true
    updateLights := LightMode.off
    convert := fun b d2 => (b, d2)
    brightness := fun _ => 0
    opacity := fun _ => 0 }

/-- Source dimension for the C3 run: one chunk with one section and a biome
array holding value 7 at the column `(z, x) = (2, 1)` — the column of the
selected voxel. -/
def srcC3 : DimState :=
  { chunks := [((0, 0),
      { sections := [(0, sectC2)], Entities := [], TileEntities := [],
        Biomes := some (fun zl xl => if zl = 2 ∧ xl = 1 then 7 else 0),
        dirty := false })]
    biomes := fun _ _ => 0, entities := [], tileEntities := [] }

/-- C3 (code bug, lines 196-200): in the concrete biome-copying run the
selected voxel's column is `(x, z) = (1, 2)` with source biome 7, and the
translation is +16 in x, so the claim expects destination biome 7 at the
translated column `(x, z) = (17, 2)`; but `wbx = bx + (cx << 4)` and
`wbz = bz + (cz << 4)` add no copy offset and unpack the `(z, x)`-ordered
mask `nonzero()` into `bx, bz`, so the code writes biome 7 at the
untranslated, axis-swapped column `(x, z) = (2, 1)` and leaves the expected
column at its original value 0. -/
theorem claim_C3 :
    (cfgC3.biomes = true ∧ cfgC3.sel.contains 1 0 2 = true ∧
     (srcC3.getChunkD (0, 0)).BiomesD 2 1 = 7 ∧
     offX cfgC3 = 16 ∧ offZ cfgC3 = 0) ∧
    ¬((copyBlocksIter cfgC3 srcC3 emptyDim).1.dst.biomes 17 2 = 7) ∧
    ((copyBlocksIter cfgC3 srcC3 emptyDim).1.dst.biomes 17 2 = 0) ∧
    ((copyBlocksIter cfgC3 srcC3 emptyDim).1.dst.biomes 2 1 = 7) := by
  refine ⟨⟨by decide, by decide, by decide, by decide, by decide⟩,
    by decide, by decide, by decide⟩
